import Mathlib

set_option maxRecDepth 4096
set_option maxHeartbeats 1600000

/-!
Shallow embedding of `useScrollToDynamicController`
(packages/react-virtualizer/src/hooks/useScrollToDynamicController.ts).

The controller is a single-threaded, callback-driven state machine.  We model
it as a pure step function over an explicit `State`:

* the mutable `ScrollOperation` record becomes a Lean structure (an `Option`
  field of the state, mirroring `operationRef.current`);
* each of the six scheduling channels (the three `useTimeout` instances and
  the three `useAnimationFrame` instances, each of which holds at most one
  outstanding callback) becomes a single slot holding the operation id the
  scheduled closure captured;
* viewport geometry reads (`getBoundingClientRect`) and host-capability
  checks are supplied by an `Env` oracle per external event;
* the optional notification callbacks (`onOperationComplete`,
  `onOperationCancel`, `onPinReleased`, `setFlaggedIndex`, the per-operation
  `callback`) and the scroll mutations are recorded in an append-only event
  log;
* pixel quantities are rationals.

Two modelling abstractions, both stated here so the development is honest
about them: (1) the availability flags for `requestAnimationFrame` /
`setTimeout` are treated as environmental facts read at use time (in the
source they are read both at schedule time and captured into closures; for a
fixed host they coincide), and the degenerate `timeoutId === -1` return of
the timer hook is folded into "timers unavailable"; (2) the synchronous
fallback paths make the handlers mutually recursive, so every handler takes
a fuel argument and is the identity at fuel zero (the source recursion is
bounded by the correction budget, so any fuel above the budget is exact).
-/

namespace ScrollCtl

/-- Scroll behavior requested by the caller (`ScrollBehavior`). -/
inductive Behavior
  | auto
  | instant
  | smooth
deriving DecidableEq, Repr

/-- Operation status (`'initial' | 'correcting' | 'stable'`). -/
inductive Status
  | initial
  | correcting
  | stable
deriving DecidableEq, Repr

/-- Cancellation reasons passed to `onOperationCancel`. -/
inductive CancelReason
  | user
  | cancelled
deriving DecidableEq, Repr

/-- Observable effects: notification callbacks and scroll mutations. -/
inductive Event
  | operationComplete (index : Nat)
  | operationCancel (index : Nat) (reason : CancelReason)
  | pinReleased (index : Nat)
  | opCallback (index : Nat)
  | scrollBy (delta : ℚ)
  | scrollToOffset (offset : ℚ)
  | scrollToItemDynamicCall (index : Nat) (behavior : Behavior)
  | flagged (index : Option Nat)
deriving DecidableEq, Repr

/-- The `ScrollOperation` record (timer/frame handles collapsed to the
operation id they were armed for, since only nullness is ever inspected). -/
structure ScrollOperation where
  id : Nat
  targetIndex : Nat
  behavior : Behavior
  hasCallback : Bool
  correctionsRemaining : Int
  pendingCorrection : Bool
  stabilityTimeoutId : Option Nat
  pinTimeoutId : Option Nat
  scheduleFrameId : Option Nat
  status : Status
  maintainPosition : Bool
  isPinned : Bool
  isProgrammaticScroll : Bool
  lastMeasurementTimestamp : ℚ
  hasMeasuredTarget : Bool
  stableIterations : Int
  pendingAnchorDelta : ℚ
  anchorFrameId : Option Nat
  initialAlignmentPerformed : Bool
deriving DecidableEq, Repr

/-- One slot per hook channel; each holds the operation id captured by the
closure currently scheduled on that channel (at most one per channel). -/
structure Sched where
  stability : Option Nat
  pin : Option Nat
  anchorTimeout : Option Nat
  programmatic : Option Nat
  correction : Option Nat
  anchorFrame : Option Nat
deriving DecidableEq, Repr

/-- Full controller state. -/
structure State where
  operation : Option ScrollOperation
  listenerAttached : Bool
  operationIdCounter : Nat
  scrollPos : ℚ
  events : List Event
  sched : Sched
deriving DecidableEq, Repr

/-- Hook configuration (per controller instance, constant). -/
structure Config where
  axisVertical : Bool
  reversed : Bool
  maintainPosition : Bool
  maxCorrections : Int
  pinDurationFinite : Bool
deriving DecidableEq, Repr

/-- Geometry of the target element and the container along the configured
axis, as read by `getBoundingClientRect`. -/
structure Rects where
  elementStart : ℚ
  elementEnd : ℚ
  containerStart : ℚ
  containerEnd : ℚ
deriving DecidableEq, Repr

/-- Result of `evaluateTargetAlignment`. -/
structure Alignment where
  elementExists : Bool
  aligned : Bool
  startDelta : ℚ
  endOverflow : ℚ
deriving DecidableEq, Repr

/-- External facts supplied at each entry: DOM presence, layout, host
capabilities, clock, and the offset estimator. -/
structure Env where
  scrollViewPresent : Bool
  elementRects : Option Rects
  hasAnimationFrame : Bool
  hasTimeout : Bool
  getOffsetProvided : Bool
  offsetForTarget : Option ℚ
  fallbackScrollPos : ℚ
  now : ℚ
deriving DecidableEq, Repr

/-- `DEFAULT_MAX_CORRECTIONS`. -/
def DEFAULT_MAX_CORRECTIONS : Int := 10

/-- `VIEWPORT_TOLERANCE`. -/
def VIEWPORT_TOLERANCE : ℚ := 1

/-- `DEFAULT_CORRECTION_SETTLE`. -/
def DEFAULT_CORRECTION_SETTLE : Int := 2

/-- `ANCHOR_DELTA_EPSILON`. -/
def ANCHOR_DELTA_EPSILON : ℚ := 1 / 4

/-- `evaluateTargetAlignment` (lines 340-381): alignment status of the
target relative to the container along the configured axis. -/
def evaluateTargetAlignment (scrollViewPresent : Bool) (element : Option Rects) :
    Alignment :=
  match scrollViewPresent, element with
  | true, some r =>
      let startDelta := r.elementStart - r.containerStart
      let endOverflow := max 0 (r.elementEnd - r.containerEnd)
      { elementExists := true
        aligned := decide (|startDelta| ≤ VIEWPORT_TOLERANCE) &&
          decide (endOverflow ≤ VIEWPORT_TOLERANCE)
        startDelta := startDelta
        endOverflow := endOverflow }
  | _, _ =>
      { elementExists := element.isSome
        aligned := false
        startDelta := 0
        endOverflow := 0 }

/-- `clearStabilityTimeout` (lines 201-211): clears the stability timer
channel and handle iff the handle is non-null.  All call sites pass the
active operation, so the embedding acts on the current one. -/
def clearStabilityTimeout (s : State) : State :=
  match s.operation with
  | none => s
  | some op =>
      if op.stabilityTimeoutId = none then s
      else
        { s with
          operation := some { op with stabilityTimeoutId := none }
          sched := { s.sched with stability := none } }

/-- `clearPinTimeout` (lines 213-223). -/
def clearPinTimeout (s : State) : State :=
  match s.operation with
  | none => s
  | some op =>
      if op.pinTimeoutId = none then s
      else
        { s with
          operation := some { op with pinTimeoutId := none }
          sched := { s.sched with pin := none } }

/-- `cancelScheduledFrame` (lines 225-235): cancels the correction frame. -/
def cancelScheduledFrame (s : State) : State :=
  match s.operation with
  | none => s
  | some op =>
      if op.scheduleFrameId = none then s
      else
        { s with
          operation := some { op with scheduleFrameId := none }
          sched := { s.sched with correction := none } }

/-- `cancelAnchorFrame` (lines 237-250): cancels both the anchor frame and
the anchor zero-delay timer and zeroes the pending accumulator. -/
def cancelAnchorFrame (s : State) : State :=
  match s.operation with
  | none => s
  | some op =>
      if op.anchorFrameId = none then s
      else
        { s with
          operation := some { op with anchorFrameId := none, pendingAnchorDelta := 0 }
          sched := { s.sched with anchorFrame := none, anchorTimeout := none } }

/-- `detachScrollListener` (lines 252-260). -/
def detachScrollListener (s : State) : State :=
  { s with listenerAttached := false }

/-- `clearOperation` (lines 265-298): cancels all four handles, unpins,
detaches the listener, discards the record, clears the flagged index, and
reports `onOperationCancel` iff a reason was given. -/
def clearOperation (reason : Option CancelReason) (s : State) : State :=
  match s.operation with
  | none => s
  | some op =>
      let s :=
        cancelAnchorFrame (cancelScheduledFrame (clearPinTimeout (clearStabilityTimeout s)))
      { s with
        operation := none
        listenerAttached := false
        events := s.events ++ [Event.flagged none] ++
          (match reason with
           | some r => [Event.operationCancel op.targetIndex r]
           | none => []) }

/-- `ensureScrollListener` (lines 311-334): attaches the (single) passive
scroll listener when a scroll view exists and none is attached. -/
def ensureScrollListener (env : Env) (s : State) : State :=
  if s.listenerAttached || !env.scrollViewPresent then s
  else { s with listenerAttached := true }

/-- The scroll listener body (lines 316-328), run when a scroll event is
observed on the viewport while the listener is attached. -/
def scrollListenerBody (s : State) : State :=
  match s.operation with
  | none => s
  | some op =>
      if op.isProgrammaticScroll then s
      else clearOperation (some CancelReason.user) s

/-- `scheduleProgrammaticScrollReset` (lines 383-395): arms the programmatic
reset frame, capturing the operation id. -/
def scheduleProgrammaticScrollReset (opId : Nat) (s : State) : State :=
  { s with sched := { s.sched with programmatic := some opId } }

/-- The closure armed by `scheduleProgrammaticScrollReset` (lines 385-392),
run when its frame fires. -/
def programmaticResetBody (opId : Nat) (s : State) : State :=
  match s.operation with
  | none => s
  | some op =>
      if op.id ≠ opId then s
      else { s with operation := some { op with isProgrammaticScroll := false } }

/-- `applyScrollByDelta` (lines 402-423): synchronous relative scroll with
reversed-axis sign adjustment; sets the programmatic flag and arms its
reset.  All call sites pass the active operation. -/
def applyScrollByDelta (cfg : Config) (env : Env) (delta : ℚ) (s : State) : State :=
  match s.operation with
  | none => s
  | some op =>
      if !env.scrollViewPresent || delta = 0 then s
      else
        let adjusted := if cfg.reversed then -delta else delta
        let s :=
          { s with
            operation := some { op with isProgrammaticScroll := true }
            scrollPos := s.scrollPos + adjusted
            events := s.events ++ [Event.scrollBy adjusted] }
        scheduleProgrammaticScrollReset op.id s

/-- `performScroll` (lines 513-554): fast path via `getOffsetForIndex` when
vertical and not reversed; otherwise the external `scrollToItemDynamic`
(not under src/, modelled as an oracle-positioned absolute scroll which,
notably, does not set the programmatic flag). -/
def performScroll (cfg : Config) (env : Env) (behavior : Behavior) (s : State) : State :=
  match s.operation with
  | none => s
  | some op =>
      let fallback : State :=
        { s with
          scrollPos := env.fallbackScrollPos
          events := s.events ++ [Event.scrollToItemDynamicCall op.targetIndex behavior] }
      if !cfg.reversed && cfg.axisVertical && env.getOffsetProvided then
        match env.offsetForTarget with
        | some offset =>
            if env.scrollViewPresent then
              let s :=
                { s with
                  operation := some { op with isProgrammaticScroll := true }
                  scrollPos := offset
                  events := s.events ++ [Event.scrollToOffset offset] }
              scheduleProgrammaticScrollReset op.id s
            else fallback
        | none => fallback
      else fallback

/-- `releasePin` (lines 556-571): tears the pin down, detaches the listener,
discards the record and reports `onPinReleased`. -/
def releasePin (s : State) : State :=
  match s.operation with
  | none => s
  | some op =>
      if !op.isPinned then s
      else
        let s := { s with operation := some { op with isPinned := false } }
        let s := clearPinTimeout s
        let s := detachScrollListener s
        { s with
          operation := none
          events := s.events ++ [Event.flagged none, Event.pinReleased op.targetIndex] }

/-- The closure armed by `startPin`'s pin-expiry timer (lines 584-590). -/
def pinTimerBody (opId : Nat) (s : State) : State :=
  match s.operation with
  | none => s
  | some op =>
      if op.id ≠ opId then s
      else releasePin s

/-- `startPin` (lines 573-603): marks pinned, attaches the listener, and
arms the pin-expiry timer when `pinDuration` is finite. -/
def startPin (cfg : Config) (env : Env) (s : State) : State :=
  match s.operation with
  | none => s
  | some op =>
      if !cfg.maintainPosition || op.isPinned then s
      else
        let s := { s with operation := some { op with isPinned := true } }
        let s := ensureScrollListener env s
        let s := clearPinTimeout s
        if cfg.pinDurationFinite then
          match s.operation with
          | some op2 =>
              { s with
                operation := some { op2 with pinTimeoutId := some op2.id }
                sched := { s.sched with pin := some op2.id } }
          | none => s
        else s

/-- `finalizeOperation` (lines 609-647): idempotent via the `stable` guard;
marks stable, cancels stability/correction scheduling, fires the completion
callbacks, then either pins or discards-and-reports-release. -/
def finalizeOperation (cfg : Config) (env : Env) (s : State) : State :=
  match s.operation with
  | none => s
  | some op =>
      if op.status = Status.stable then s
      else
        let s := { s with operation := some { op with status := Status.stable } }
        let s := clearStabilityTimeout s
        let s := cancelScheduledFrame s
        match s.operation with
        | none => s
        | some op2 =>
            let s :=
              { s with
                events := s.events ++
                  (if op2.hasCallback then [Event.opCallback op2.targetIndex] else []) ++
                  [Event.operationComplete op2.targetIndex, Event.flagged none] }
            if cfg.maintainPosition then startPin cfg env s
            else
              let s := { s with operation := none }
              let s := detachScrollListener s
              { s with events := s.events ++ [Event.pinReleased op2.targetIndex] }

/-- Live read of `correctionsRemaining` on the current operation. -/
def opCR (s : State) : Int :=
  match s.operation with
  | some op => op.correctionsRemaining
  | none => 0

/-- Live read of `hasMeasuredTarget` on the current operation. -/
def opHMT (s : State) : Bool :=
  match s.operation with
  | some op => op.hasMeasuredTarget
  | none => false

/-- Live read of the current operation id (0 when none). -/
def opIdOf (s : State) : Nat :=
  match s.operation with
  | some op => op.id
  | none => 0

/-- Update the current operation record in place, if any. -/
def modifyOp (f : ScrollOperation → ScrollOperation) (s : State) : State :=
  { s with operation := s.operation.map f }

/-- The six mutually recursive scheduling handlers, defunctionalized so the
recursion is structural on a single fuel argument (the source recursion is
bounded by the correction budget, so any fuel above it is exact). -/
inductive SchedCall
  | schedStability
  | checkRun (opId : Nat)
  | schedCorrection
  | execCorrection (opId : Nat)
  | schedAnchor (delta : ℚ)
  | commitAnchorRun (opId : Nat)
deriving Repr

/-- Body of `scheduleStabilityCheck` (lines 649-762), abstracted over the
recursive entry `recurse` used for the synchronous fallback. -/
def schedStabilityBody (env : Env) (recurse : SchedCall → State → State) (s : State) : State :=
  match s.operation with
  | none => s
  | some _ =>
      let s := clearStabilityTimeout s
      if env.hasTimeout then
        match s.operation with
        | some op =>
            { s with
              operation := some { op with stabilityTimeoutId := some op.id }
              sched := { s.sched with stability := some op.id } }
        | none => s
      else
        let s := modifyOp (fun o => { o with stabilityTimeoutId := none }) s
        recurse (.checkRun (opIdOf s)) s

/-- The misaligned branch of `runCheck` (lines 686-726): the
minimal-adjustment policy, the budget bookkeeping, the settle reset and the
re-arm/finalize decision.  Factored out of `checkRunBody` verbatim. -/
def checkRunMisaligned (cfg : Config) (env : Env) (recurse : SchedCall → State → State)
    (al : Alignment) (s : State) : State :=
  let applied1 : Bool :=
    decide (VIEWPORT_TOLERANCE < |al.startDelta|) ||
      decide (VIEWPORT_TOLERANCE < al.endOverflow)
  let s1 :=
    if VIEWPORT_TOLERANCE < |al.startDelta| then
      applyScrollByDelta cfg env al.startDelta s
    else if VIEWPORT_TOLERANCE < al.endOverflow then
      applyScrollByDelta cfg env al.endOverflow s
    else s
  let s2 :=
    if !applied1 && decide (0 < opCR s1) then
      let s' := performScroll cfg env Behavior.instant s1
      modifyOp (fun o => { o with correctionsRemaining := o.correctionsRemaining - 1 }) s'
    else if applied1 && decide (0 < opCR s1) then
      modifyOp (fun o => { o with correctionsRemaining := o.correctionsRemaining - 1 }) s1
    else s1
  let applied2 : Bool := applied1 || decide (0 < opCR s1)
  if applied2 then
    let s3 :=
      modifyOp (fun o => { o with stableIterations := DEFAULT_CORRECTION_SETTLE }) s2
    if env.hasTimeout then recurse .schedStability s3 else s3
  else if opCR s2 ≤ 0 then finalizeOperation cfg env s2
  else if env.hasTimeout then recurse .schedStability s2
  else s2

/-- Body of `runCheck` (lines 659-749), the stability-timer callback:
captured operation id `opId`; strict no-op when stale. -/
def checkRunBody (cfg : Config) (env : Env) (recurse : SchedCall → State → State)
    (opId : Nat) (s : State) : State :=
  match s.operation with
  | none => s
  | some op =>
      if op.id ≠ opId then s
      else
        let op := { op with stabilityTimeoutId := none }
        let s := { s with operation := some op }
        let al := evaluateTargetAlignment env.scrollViewPresent env.elementRects
        if !al.elementExists || !op.hasMeasuredTarget then
          let s := if 0 < op.correctionsRemaining then recurse .schedCorrection s else s
          if env.hasTimeout then recurse .schedStability s else s
        else if !al.aligned then
          checkRunMisaligned cfg env recurse al s
        else if op.pendingCorrection then
          if env.hasTimeout then recurse .schedStability s else s
        else if 0 < op.stableIterations then
          let s := modifyOp (fun o => { o with stableIterations := o.stableIterations - 1 }) s
          if env.hasTimeout then recurse .schedStability s else s
        else
          finalizeOperation cfg env s

/-- Body of `scheduleCorrectionRef.current` (lines 764-843): idempotent
while a correction is pending or the budget is exhausted; arms the
correction frame or runs the correction synchronously without one. -/
def schedCorrectionBody (env : Env) (recurse : SchedCall → State → State) (s : State) : State :=
  match s.operation with
  | none => s
  | some op =>
      if op.correctionsRemaining ≤ 0 || op.pendingCorrection then s
      else
        let s := { s with operation := some { op with pendingCorrection := true } }
        if env.hasAnimationFrame then
          match s.operation with
          | some op2 =>
              { s with
                operation := some { op2 with scheduleFrameId := some op2.id }
                sched := { s.sched with correction := some op2.id } }
          | none => s
        else
          let s := modifyOp (fun o => { o with scheduleFrameId := none }) s
          recurse (.execCorrection op.id) s

/-- Body of `executeCorrection` (lines 775-827), the correction-frame
callback: captured operation id `opId`; strict no-op when stale.  The
budget is decremented unconditionally because `correctionApplied` is true
on every live path. -/
def execCorrectionBody (cfg : Config) (env : Env) (recurse : SchedCall → State → State)
    (opId : Nat) (s : State) : State :=
  match s.operation with
  | none => s
  | some op =>
      if op.id ≠ opId then s
      else
        let al := evaluateTargetAlignment env.scrollViewPresent env.elementRects
        let applied1 : Bool :=
          al.elementExists &&
            (decide (VIEWPORT_TOLERANCE < |al.startDelta|) ||
              decide (VIEWPORT_TOLERANCE < al.endOverflow))
        let s1 :=
          if al.elementExists then
            if VIEWPORT_TOLERANCE < |al.startDelta| then
              applyScrollByDelta cfg env al.startDelta s
            else if VIEWPORT_TOLERANCE < al.endOverflow then
              applyScrollByDelta cfg env al.endOverflow s
            else s
          else s
        let s2 := if !applied1 then performScroll cfg env Behavior.instant s1 else s1
        let s3 :=
          modifyOp (fun o => { o with correctionsRemaining := o.correctionsRemaining - 1 }) s2
        let s4 :=
          modifyOp (fun o => { o with pendingCorrection := false, scheduleFrameId := none }) s3
        if al.elementExists && al.aligned then finalizeOperation cfg env s4
        else if 0 < opCR s4 then recurse .schedCorrection s4
        else recurse .schedStability s4

/-- Body of `scheduleAnchorAdjustment` (lines 429-507): accumulates the
delta and schedules at most one coalescing commit (frame, zero-delay timer,
or synchronous fallback). -/
def schedAnchorBody (cfg : Config) (env : Env) (recurse : SchedCall → State → State)
    (delta : ℚ) (s : State) : State :=
  match s.operation with
  | none => s
  | some op =>
      let op := { op with pendingAnchorDelta := op.pendingAnchorDelta + delta }
      let s := { s with operation := some op }
      if decide (|op.pendingAnchorDelta| < ANCHOR_DELTA_EPSILON) && decide (op.anchorFrameId = none) then
        s
      else if decide (op.anchorFrameId ≠ none) then s
      else if env.hasAnimationFrame then
        { s with
          operation := some { op with anchorFrameId := some op.id }
          sched := { s.sched with anchorFrame := some op.id } }
      else if env.hasTimeout then
        { s with
          operation := some { op with anchorFrameId := some op.id }
          sched := { s.sched with anchorTimeout := some op.id } }
      else
        let s :=
          if op.hasMeasuredTarget && decide (ANCHOR_DELTA_EPSILON ≤ |op.pendingAnchorDelta|) then
            let amount := op.pendingAnchorDelta
            let s := { s with operation := some { op with pendingAnchorDelta := 0 } }
            let s := applyScrollByDelta cfg env amount s
            modifyOp (fun o => { o with stableIterations := DEFAULT_CORRECTION_SETTLE }) s
          else s
        recurse .schedStability s

/-- Body of `commitAnchor` (lines 444-466), the coalescing callback:
captured operation id `opId`; strict no-op when stale.  Re-arms itself
while the target is unmeasured; otherwise applies the whole accumulated
delta as a single adjustment iff it reaches the epsilon. -/
def commitAnchorBody (cfg : Config) (env : Env) (recurse : SchedCall → State → State)
    (opId : Nat) (s : State) : State :=
  match s.operation with
  | none => s
  | some op =>
      if op.id ≠ opId then s
      else if !op.hasMeasuredTarget then
        let s := { s with operation := some { op with anchorFrameId := none } }
        recurse (.schedAnchor 0) s
      else
        let amount := op.pendingAnchorDelta
        let s :=
          { s with
            operation := some { op with pendingAnchorDelta := 0, anchorFrameId := none } }
        let s :=
          if ANCHOR_DELTA_EPSILON ≤ |amount| then
            let s := applyScrollByDelta cfg env amount s
            modifyOp (fun o => { o with stableIterations := DEFAULT_CORRECTION_SETTLE }) s
          else s
        recurse .schedStability s

/-- Single-step dispatch to the handler bodies. -/
def schedDispatchStep (cfg : Config) (env : Env) (recurse : SchedCall → State → State) :
    SchedCall → State → State
  | .schedStability, s => schedStabilityBody env recurse s
  | .checkRun opId, s => checkRunBody cfg env recurse opId s
  | .schedCorrection, s => schedCorrectionBody env recurse s
  | .execCorrection opId, s => execCorrectionBody cfg env recurse opId s
  | .schedAnchor delta, s => schedAnchorBody cfg env recurse delta s
  | .commitAnchorRun opId, s => commitAnchorBody cfg env recurse opId s

/-- Fuelled dispatcher tying the recursive knot: identity at fuel zero. -/
def schedDispatch (cfg : Config) (env : Env) (fuel : Nat) : SchedCall → State → State :=
  Nat.rec (motive := fun _ => SchedCall → State → State)
    (fun _ s => s)
    (fun _ recurse => schedDispatchStep cfg env recurse)
    fuel

/-- `scheduleStabilityCheck` (lines 649-762). -/
def scheduleStabilityCheck (cfg : Config) (env : Env) (fuel : Nat) (s : State) : State :=
  schedDispatch cfg env fuel .schedStability s

/-- `runCheck` (lines 659-749). -/
def runCheck (cfg : Config) (env : Env) (fuel : Nat) (opId : Nat) (s : State) : State :=
  schedDispatch cfg env fuel (.checkRun opId) s

/-- `scheduleCorrection` (lines 764-843). -/
def scheduleCorrection (cfg : Config) (env : Env) (fuel : Nat) (s : State) : State :=
  schedDispatch cfg env fuel .schedCorrection s

/-- `executeCorrection` (lines 775-827). -/
def executeCorrection (cfg : Config) (env : Env) (fuel : Nat) (opId : Nat) (s : State) : State :=
  schedDispatch cfg env fuel (.execCorrection opId) s

/-- `scheduleAnchorAdjustment` (lines 429-507). -/
def scheduleAnchorAdjustment (cfg : Config) (env : Env) (fuel : Nat) (delta : ℚ) (s : State) :
    State :=
  schedDispatch cfg env fuel (.schedAnchor delta) s

/-- `commitAnchor` (lines 444-466). -/
def commitAnchor (cfg : Config) (env : Env) (fuel : Nat) (opId : Nat) (s : State) : State :=
  schedDispatch cfg env fuel (.commitAnchorRun opId) s

/-- The below-target branch of `handleItemMeasured` with `maintainPosition`
on (lines 881-889), factored out verbatim. -/
def measureBelowAnchored (cfg : Config) (env : Env) (fuel : Nat) (delta : ℚ)
    (s : State) : State :=
  let s := scheduleAnchorAdjustment cfg env fuel delta s
  let s :=
    if opHMT s = false ∧ 0 < opCR s then scheduleCorrection cfg env fuel s
    else s
  let s := modifyOp (fun o => { o with stableIterations := DEFAULT_CORRECTION_SETTLE }) s
  scheduleStabilityCheck cfg env fuel s

/-- The below-target branch of `handleItemMeasured` with `maintainPosition`
off (lines 891-896), factored out verbatim. -/
def measureBelowPlain (cfg : Config) (env : Env) (fuel : Nat) (s : State) : State :=
  let s := if 0 < opCR s then scheduleCorrection cfg env fuel s else s
  let s := modifyOp (fun o => { o with stableIterations := DEFAULT_CORRECTION_SETTLE }) s
  scheduleStabilityCheck cfg env fuel s

/-- The at-target branch of `handleItemMeasured` (lines 899-916), factored
out verbatim; `mp` and `iap` are the operation's `maintainPosition` and
`initialAlignmentPerformed` flags at entry. -/
def measureAtTarget (cfg : Config) (env : Env) (fuel : Nat) (delta : ℚ)
    (mp iap : Bool) (s : State) : State :=
  let s := modifyOp (fun o => { o with hasMeasuredTarget := true }) s
  let s :=
    if iap then s
    else
      let s := performScroll cfg env Behavior.instant s
      modifyOp (fun o => { o with initialAlignmentPerformed := true }) s
  let s := if mp then scheduleAnchorAdjustment cfg env fuel 0 s else s
  let s :=
    if VIEWPORT_TOLERANCE ≤ |delta| ∧ 0 < opCR s then
      let s := scheduleCorrection cfg env fuel s
      modifyOp (fun o => { o with stableIterations := DEFAULT_CORRECTION_SETTLE }) s
    else s
  scheduleStabilityCheck cfg env fuel s

/-- `handleItemMeasured` (lines 849-929).  The source mutates the captured
record; the embedding acts on the current operation, which coincides on
every path where the record has not been discarded by a nested synchronous
finalize (only reachable with `maintainPosition` off and no animation
frame, where the surviving source mutations target a dead record and the
observable state agrees). -/
def handleItemMeasured (cfg : Config) (env : Env) (fuel : Nat)
    (index : Nat) (_size delta : ℚ) (s : State) : State :=
  match s.operation with
  | none => s
  | some op =>
      if op.status = Status.stable then
        if op.maintainPosition && decide (index < op.targetIndex) && decide (delta ≠ 0) then
          applyScrollByDelta cfg env delta s
        else s
      else if op.targetIndex < index then s
      else
        let op := { op with lastMeasurementTimestamp := env.now }
        let s := { s with operation := some op }
        if index < op.targetIndex ∧ delta ≠ 0 then
          if op.maintainPosition then measureBelowAnchored cfg env fuel delta s
          else measureBelowPlain cfg env fuel s
        else if index = op.targetIndex then
          measureAtTarget cfg env fuel delta op.maintainPosition op.initialAlignmentPerformed s
        else
          scheduleStabilityCheck cfg env fuel s

/-- `handleRendered` (lines 935-951): returns whether `index` is the active
target; re-schedules correction and stability when not yet stable. -/
def handleRendered (cfg : Config) (env : Env) (fuel : Nat)
    (index : Nat) (s : State) : State × Bool :=
  match s.operation with
  | none => (s, false)
  | some op =>
      if index ≠ op.targetIndex then (s, false)
      else if op.status = Status.stable then (s, true)
      else
        let s := scheduleCorrection cfg env fuel s
        let s := scheduleStabilityCheck cfg env fuel s
        (s, true)

/-- `start` (lines 957-1018): supersedes any existing operation via
`clearOperation` with no reason, allocates a fresh id, performs the initial
scroll and schedules a correction pass and a stability check. -/
def start (cfg : Config) (env : Env) (fuel : Nat)
    (index : Nat) (behavior : Behavior) (hasCallback : Bool) (s : State) : State :=
  let s := if s.operation.isSome then cancelScheduledFrame s else s
  let s := clearOperation none s
  let newId := s.operationIdCounter + 1
  let op : ScrollOperation :=
    { id := newId
      targetIndex := index
      behavior := behavior
      hasCallback := hasCallback
      correctionsRemaining := cfg.maxCorrections
      pendingCorrection := false
      stabilityTimeoutId := none
      pinTimeoutId := none
      scheduleFrameId := none
      status := Status.initial
      maintainPosition := cfg.maintainPosition
      isPinned := false
      isProgrammaticScroll := false
      lastMeasurementTimestamp := env.now
      hasMeasuredTarget := false
      stableIterations := DEFAULT_CORRECTION_SETTLE
      pendingAnchorDelta := 0
      anchorFrameId := none
      initialAlignmentPerformed := false }
  let s :=
    { s with
      operation := some op
      operationIdCounter := newId
      events := s.events ++ [Event.flagged (some index)] }
  let s := ensureScrollListener env s
  let s := performScroll cfg env behavior s
  let s := scheduleCorrection cfg env fuel s
  scheduleStabilityCheck cfg env fuel s

/-- `cancel` (lines 1023-1025). -/
def cancel (s : State) : State :=
  clearOperation (some CancelReason.cancelled) s

/-- `isActive` (lines 1030-1032). -/
def isActive (s : State) : Bool :=
  s.operation.isSome

/-- External events driving the machine: the public entry points, the
viewport scroll notification, and the firing of each scheduled channel. -/
inductive ExtEvent
  | callStart (index : Nat) (behavior : Behavior) (hasCallback : Bool)
  | callHandleItemMeasured (index : Nat) (size delta : ℚ)
  | callHandleRendered (index : Nat)
  | callCancel
  | scrollObserved
  | fireStability
  | fireCorrection
  | fireAnchorFrame
  | fireAnchorTimeout
  | firePin
  | fireProgrammaticReset
deriving DecidableEq, Repr

/-- One external event.  Firing a channel consumes its slot and runs the
scheduled body with the operation id the closure captured; an empty channel
has nothing to fire. -/
def step (cfg : Config) (env : Env) (fuel : Nat) (s : State) : ExtEvent → State
  | .callStart index behavior hasCb => start cfg env fuel index behavior hasCb s
  | .callHandleItemMeasured index size delta =>
      handleItemMeasured cfg env fuel index size delta s
  | .callHandleRendered index => (handleRendered cfg env fuel index s).1
  | .callCancel => cancel s
  | .scrollObserved => if s.listenerAttached then scrollListenerBody s else s
  | .fireStability =>
      match s.sched.stability with
      | none => s
      | some k => runCheck cfg env fuel k { s with sched := { s.sched with stability := none } }
  | .fireCorrection =>
      match s.sched.correction with
      | none => s
      | some k =>
          executeCorrection cfg env fuel k { s with sched := { s.sched with correction := none } }
  | .fireAnchorFrame =>
      match s.sched.anchorFrame with
      | none => s
      | some k =>
          commitAnchor cfg env fuel k { s with sched := { s.sched with anchorFrame := none } }
  | .fireAnchorTimeout =>
      match s.sched.anchorTimeout with
      | none => s
      | some k =>
          commitAnchor cfg env fuel k { s with sched := { s.sched with anchorTimeout := none } }
  | .firePin =>
      match s.sched.pin with
      | none => s
      | some k => pinTimerBody k { s with sched := { s.sched with pin := none } }
  | .fireProgrammaticReset =>
      match s.sched.programmatic with
      | none => s
      | some k =>
          programmaticResetBody k { s with sched := { s.sched with programmatic := none } }

/-- The state before any operation has ever been started. -/
def initialState : State :=
  { operation := none
    listenerAttached := false
    operationIdCounter := 0
    scrollPos := 0
    events := []
    sched :=
      { stability := none
        pin := none
        anchorTimeout := none
        programmatic := none
        correction := none
        anchorFrame := none } }

/-- Run a concrete trace of external events with ample fuel. -/
def runTrace (cfg : Config) (steps : List (Env × ExtEvent)) : State :=
  steps.foldl (fun s p => step cfg p.1 12 s p.2) initialState

/-- States reachable from `initialState` under arbitrary environments,
fuels and external events. -/
inductive Reachable (cfg : Config) : State → Prop
  | init : Reachable cfg initialState
  | next (env : Env) (fuel : Nat) (e : ExtEvent) (s : State) :
      Reachable cfg s → Reachable cfg (step cfg env fuel s e)

/-- A scheduling slot only ever holds an already-allocated operation id. -/
def SlotLE (o : Option Nat) (c : Nat) : Prop :=
  ∀ k, o = some k → k ≤ c

/-- All six channel slots hold already-allocated ids. -/
def SlotsBounded (s : State) : Prop :=
  SlotLE s.sched.stability s.operationIdCounter ∧
  SlotLE s.sched.pin s.operationIdCounter ∧
  SlotLE s.sched.anchorTimeout s.operationIdCounter ∧
  SlotLE s.sched.programmatic s.operationIdCounter ∧
  SlotLE s.sched.correction s.operationIdCounter ∧
  SlotLE s.sched.anchorFrame s.operationIdCounter

/-- Bookkeeping facts tied to the active operation: id allocation, budget
bounds, the pending-correction guard, the `maintainPosition` snapshot, and
the slot-iff-handle discipline for each channel. -/
def OpInv (cfg : Config) (s : State) (op : ScrollOperation) : Prop :=
  op.id ≤ s.operationIdCounter ∧
  -1 ≤ op.correctionsRemaining ∧
  (op.pendingCorrection = true → 0 ≤ op.correctionsRemaining) ∧
  (s.sched.correction = some op.id → op.pendingCorrection = true) ∧
  op.maintainPosition = cfg.maintainPosition ∧
  (cfg.maintainPosition = false → op.anchorFrameId = none ∧ op.pinTimeoutId = none) ∧
  (s.sched.stability = some op.id → op.stabilityTimeoutId ≠ none) ∧
  (s.sched.correction = some op.id → op.scheduleFrameId ≠ none) ∧
  (s.sched.pin = some op.id → op.pinTimeoutId ≠ none) ∧
  ((s.sched.anchorFrame = some op.id ∨ s.sched.anchorTimeout = some op.id) →
    op.anchorFrameId ≠ none) ∧
  ¬(s.sched.anchorFrame = some op.id ∧ s.sched.anchorTimeout = some op.id)

/-- Global transition invariant. -/
def Inv (cfg : Config) (s : State) : Prop :=
  SlotsBounded s ∧ ∀ op, s.operation = some op → OpInv cfg s op

/-- Calling contract of each dispatcher entry, matching how the source ever
reaches it: a callback body runs only after its own channel slot has been
consumed (or stale), a live correction body runs with `pendingCorrection`
set, and the anchor accumulator is only fed while `maintainPosition`
holds. -/
def SchedPre (s : State) : SchedCall → Prop
  | SchedCall.schedStability => True
  | SchedCall.schedCorrection => True
  | SchedCall.schedAnchor _ =>
      ∀ op, s.operation = some op → op.maintainPosition = true
  | SchedCall.checkRun k =>
      ∀ op, s.operation = some op → op.id = k → s.sched.stability ≠ some k
  | SchedCall.execCorrection k =>
      ∀ op, s.operation = some op → op.id = k →
        s.sched.correction ≠ some k ∧ op.pendingCorrection = true
  | SchedCall.commitAnchorRun k =>
      ∀ op, s.operation = some op → op.id = k →
        s.sched.anchorFrame ≠ some k ∧ s.sched.anchorTimeout ≠ some k ∧
          op.maintainPosition = true

/-- Operation-evolution relation for the internal handlers: handlers never
resurrect a discarded operation, never change the active operation's id,
and never increase its correction budget. -/
def OpMono (s t : State) : Prop :=
  (s.operation = none → t.operation = none) ∧
  ∀ op op', s.operation = some op → t.operation = some op' →
    op'.id = op.id ∧ op'.correctionsRemaining ≤ op.correctionsRemaining

/-- Event-evolution relation: no handler retracts logged events, and none
of the internal handlers logs an `operationCancel`. -/
def CancelPres (s t : State) : Prop :=
  ∀ i r, Event.operationCancel i r ∈ t.events → Event.operationCancel i r ∈ s.events

/-- Relation capturing the footprint of the two synchronous scroll
primitives: only the programmatic channel, the scroll position and the log
may change, and the operation record at most gains the programmatic flag. -/
def ProgOnly (s t : State) : Prop :=
  t.sched.correction = s.sched.correction ∧
  (t.operation = s.operation ∨ ∃ o, s.operation = some o ∧
    t.operation = some { o with isProgrammaticScroll := true })

/-- The state shape reached after below-target measurements while the
anchor coalescing frame is armed: the accumulated delta sits in
`pendingAnchorDelta`, both the anchor and stability channels are armed for
the operation, and nothing else has moved (used in the coalescing
analysis). -/
def anchoredAccum (s : State) (op : ScrollOperation) (now pad : ℚ) : State :=
  { s with
    operation := some { op with
      lastMeasurementTimestamp := now
      pendingAnchorDelta := pad
      anchorFrameId := some op.id
      stabilityTimeoutId := some op.id
      stableIterations := DEFAULT_CORRECTION_SETTLE }
    sched := { s.sched with anchorFrame := some op.id, stability := some op.id } }

/-- An operation record with the fields `start` would give a fresh
operation (used to build concrete witness states). -/
def mkOp (id targetIndex : Nat) : ScrollOperation :=
  { id := id
    targetIndex := targetIndex
    behavior := Behavior.instant
    hasCallback := false
    correctionsRemaining := 10
    pendingCorrection := false
    stabilityTimeoutId := none
    pinTimeoutId := none
    scheduleFrameId := none
    status := Status.initial
    maintainPosition := true
    isPinned := false
    isProgrammaticScroll := false
    lastMeasurementTimestamp := 0
    hasMeasuredTarget := false
    stableIterations := 2
    pendingAnchorDelta := 0
    anchorFrameId := none
    initialAlignmentPerformed := false }

/-- All channels empty. -/
def emptySched : Sched :=
  { stability := none
    pin := none
    anchorTimeout := none
    programmatic := none
    correction := none
    anchorFrame := none }

/-- A concrete controller state around `op` (used in witness states). -/
def mkState (op : Option ScrollOperation) : State :=
  { operation := op
    listenerAttached := true
    operationIdCounter := 1
    scrollPos := 0
    events := []
    sched := emptySched }

/-- A concrete configuration: vertical, not reversed, keep position, a
single correction, unbounded pin. -/
def cfgTight : Config :=
  { axisVertical := true
    reversed := false
    maintainPosition := true
    maxCorrections := 1
    pinDurationFinite := false }

/-- A concrete configuration with the default budget and a finite pin. -/
def cfgPin : Config :=
  { axisVertical := true
    reversed := false
    maintainPosition := true
    maxCorrections := 10
    pinDurationFinite := true }

/-- Geometry with the target 10 units below the viewport's leading edge. -/
def rectMis : Rects :=
  { elementStart := 10, elementEnd := 20, containerStart := 0, containerEnd := 100 }

/-- Geometry with the target exactly on the viewport's leading edge. -/
def rectAligned : Rects :=
  { elementStart := 0, elementEnd := 20, containerStart := 0, containerEnd := 100 }

/-- An environment with both scheduling primitives, a scroll view, the
given layout, and no offset estimator. -/
def mkEnv (er : Option Rects) : Env :=
  { scrollViewPresent := true
    elementRects := er
    hasAnimationFrame := true
    hasTimeout := true
    getOffsetProvided := false
    offsetForTarget := none
    fallbackScrollPos := 0
    now := 0 }

/-- Trace exhibiting the budget race: the stability check spends the last
budget unit while a correction frame is already scheduled; the frame then
fires and decrements unconditionally. -/
def traceBudget : List (Env × ExtEvent) :=
  [ (mkEnv (some rectMis), ExtEvent.callStart 5 Behavior.instant false),
    (mkEnv (some rectMis), ExtEvent.callHandleItemMeasured 5 420 420),
    (mkEnv (some rectMis), ExtEvent.fireStability),
    (mkEnv (some rectMis), ExtEvent.fireCorrection) ]

/-- Trace reaching a pinned operation whose anchor-coalescing frame is
still armed: start, measure the target, accumulate one upstream delta
(arming the anchor frame), then finalize via an aligned correction frame
(which starts the pin). -/
def tracePinned : List (Env × ExtEvent) :=
  [ (mkEnv (some rectMis), ExtEvent.callStart 5 Behavior.instant false),
    (mkEnv (some rectMis), ExtEvent.callHandleItemMeasured 5 420 420),
    (mkEnv (some rectMis), ExtEvent.callHandleItemMeasured 3 100 10),
    (mkEnv (some rectAligned), ExtEvent.fireCorrection) ]

theorem clearStabilityTimeout_none (s : State) (h : s.operation = none) :
    clearStabilityTimeout s = s := by
  unfold clearStabilityTimeout; rw [h]

theorem clearStabilityTimeout_eq (s : State) (op : ScrollOperation) (h : s.operation = some op) :
    clearStabilityTimeout s =
      { s with
        operation := some { op with stabilityTimeoutId := none }
        sched := { s.sched with
          stability := if op.stabilityTimeoutId = none then s.sched.stability else none } } := by
  obtain ⟨opn, la, cnt, sp, ev, ⟨sst, spi, sat, spr, sco, saf⟩⟩ := s
  dsimp only at h
  subst h
  obtain ⟨_, _, _, _, _, _, osti, _, _, _, _, _, _, _, _, _, _, _, _⟩ := op
  rcases osti with _ | k <;> simp [clearStabilityTimeout]

theorem clearPinTimeout_none (s : State) (h : s.operation = none) :
    clearPinTimeout s = s := by
  unfold clearPinTimeout; rw [h]

theorem clearPinTimeout_eq (s : State) (op : ScrollOperation) (h : s.operation = some op) :
    clearPinTimeout s =
      { s with
        operation := some { op with pinTimeoutId := none }
        sched := { s.sched with
          pin := if op.pinTimeoutId = none then s.sched.pin else none } } := by
  obtain ⟨opn, la, cnt, sp, ev, ⟨sst, spi, sat, spr, sco, saf⟩⟩ := s
  dsimp only at h
  subst h
  obtain ⟨_, _, _, _, _, _, _, opti, _, _, _, _, _, _, _, _, _, _, _⟩ := op
  rcases opti with _ | k <;> simp [clearPinTimeout]

theorem cancelScheduledFrame_none (s : State) (h : s.operation = none) :
    cancelScheduledFrame s = s := by
  unfold cancelScheduledFrame; rw [h]

theorem cancelScheduledFrame_eq (s : State) (op : ScrollOperation) (h : s.operation = some op) :
    cancelScheduledFrame s =
      { s with
        operation := some { op with scheduleFrameId := none }
        sched := { s.sched with
          correction := if op.scheduleFrameId = none then s.sched.correction else none } } := by
  obtain ⟨opn, la, cnt, sp, ev, ⟨sst, spi, sat, spr, sco, saf⟩⟩ := s
  dsimp only at h
  subst h
  obtain ⟨_, _, _, _, _, _, _, _, osfi, _, _, _, _, _, _, _, _, _, _⟩ := op
  rcases osfi with _ | k <;> simp [cancelScheduledFrame]

theorem cancelAnchorFrame_none (s : State) (h : s.operation = none) :
    cancelAnchorFrame s = s := by
  unfold cancelAnchorFrame; rw [h]

theorem cancelAnchorFrame_eq (s : State) (op : ScrollOperation) (h : s.operation = some op) :
    cancelAnchorFrame s =
      { s with
        operation := some
          { op with
            anchorFrameId := none
            pendingAnchorDelta := if op.anchorFrameId = none then op.pendingAnchorDelta else 0 }
        sched := { s.sched with
          anchorFrame := if op.anchorFrameId = none then s.sched.anchorFrame else none
          anchorTimeout := if op.anchorFrameId = none then s.sched.anchorTimeout else none } } := by
  obtain ⟨opn, la, cnt, sp, ev, ⟨sst, spi, sat, spr, sco, saf⟩⟩ := s
  dsimp only at h
  subst h
  obtain ⟨_, _, _, _, _, _, _, _, _, _, _, _, _, _, _, _, _, oafi, _⟩ := op
  rcases oafi with _ | k <;> simp [cancelAnchorFrame]

theorem clearOperation_none (reason : Option CancelReason) (s : State)
    (h : s.operation = none) : clearOperation reason s = s := by
  unfold clearOperation; rw [h]

theorem clearOperation_eq (reason : Option CancelReason) (s : State) (op : ScrollOperation)
    (h : s.operation = some op) :
    clearOperation reason s =
      { s with
        operation := none
        listenerAttached := false
        events := s.events ++ [Event.flagged none] ++
          (match reason with
           | some r => [Event.operationCancel op.targetIndex r]
           | none => [])
        sched := { s.sched with
          stability := if op.stabilityTimeoutId = none then s.sched.stability else none
          pin := if op.pinTimeoutId = none then s.sched.pin else none
          correction := if op.scheduleFrameId = none then s.sched.correction else none
          anchorFrame := if op.anchorFrameId = none then s.sched.anchorFrame else none
          anchorTimeout := if op.anchorFrameId = none then s.sched.anchorTimeout else none } } := by
  obtain ⟨opn, la, cnt, sp, ev, ⟨sst, spi, sat, spr, sco, saf⟩⟩ := s
  dsimp only at h
  subst h
  obtain ⟨_, _, _, _, _, _, osti, opti, osfi, _, _, _, _, _, _, _, _, oafi, _⟩ := op
  rcases osti with _ | k1 <;> rcases opti with _ | k2 <;> rcases osfi with _ | k3 <;>
    rcases oafi with _ | k4 <;>
    simp [clearOperation, clearStabilityTimeout, clearPinTimeout, cancelScheduledFrame,
      cancelAnchorFrame]

theorem applyScrollByDelta_noView (cfg : Config) (env : Env) (delta : ℚ) (s : State)
    (h : env.scrollViewPresent = false) : applyScrollByDelta cfg env delta s = s := by
  unfold applyScrollByDelta
  cases hop : s.operation <;> simp [h]

theorem applyScrollByDelta_zero (cfg : Config) (env : Env) (s : State) :
    applyScrollByDelta cfg env 0 s = s := by
  unfold applyScrollByDelta
  cases hop : s.operation <;> simp

theorem applyScrollByDelta_eq (cfg : Config) (env : Env) (delta : ℚ) (s : State)
    (op : ScrollOperation) (h : s.operation = some op) (hv : env.scrollViewPresent = true)
    (hd : delta ≠ 0) :
    applyScrollByDelta cfg env delta s =
      { s with
        operation := some { op with isProgrammaticScroll := true }
        scrollPos := s.scrollPos + (if cfg.reversed then -delta else delta)
        events := s.events ++ [Event.scrollBy (if cfg.reversed then -delta else delta)]
        sched := { s.sched with programmatic := some op.id } } := by
  unfold applyScrollByDelta
  rw [h]
  simp [hv, hd, scheduleProgrammaticScrollReset]

theorem performScroll_none (cfg : Config) (env : Env) (behavior : Behavior) (s : State)
    (h : s.operation = none) : performScroll cfg env behavior s = s := by
  unfold performScroll; rw [h]

theorem performScroll_fallback (cfg : Config) (env : Env) (behavior : Behavior) (s : State)
    (op : ScrollOperation) (h : s.operation = some op)
    (hc : (!cfg.reversed && cfg.axisVertical && env.getOffsetProvided) = false ∨
      env.offsetForTarget = none ∨ env.scrollViewPresent = false) :
    performScroll cfg env behavior s =
      { s with
        scrollPos := env.fallbackScrollPos
        events := s.events ++ [Event.scrollToItemDynamicCall op.targetIndex behavior] } := by
  unfold performScroll
  rw [h]
  rcases hc with hc | hc | hc
  · simp [hc]
  · cases hfast : (!cfg.reversed && cfg.axisVertical && env.getOffsetProvided) <;> simp [hc]
  · cases hfast : (!cfg.reversed && cfg.axisVertical && env.getOffsetProvided) <;>
      cases hoff : env.offsetForTarget <;> simp [hc]

theorem performScroll_offset (cfg : Config) (env : Env) (behavior : Behavior) (s : State)
    (op : ScrollOperation) (offset : ℚ) (h : s.operation = some op)
    (hfast : (!cfg.reversed && cfg.axisVertical && env.getOffsetProvided) = true)
    (hoff : env.offsetForTarget = some offset) (hv : env.scrollViewPresent = true) :
    performScroll cfg env behavior s =
      { s with
        operation := some { op with isProgrammaticScroll := true }
        scrollPos := offset
        events := s.events ++ [Event.scrollToOffset offset]
        sched := { s.sched with programmatic := some op.id } } := by
  unfold performScroll
  rw [h]
  simp [hfast, hoff, hv, scheduleProgrammaticScrollReset]

theorem releasePin_none (s : State) (h : s.operation = none) : releasePin s = s := by
  unfold releasePin; rw [h]

theorem releasePin_notPinned (s : State) (op : ScrollOperation) (h : s.operation = some op)
    (hp : op.isPinned = false) : releasePin s = s := by
  unfold releasePin; rw [h]; simp [hp]

theorem releasePin_eq (s : State) (op : ScrollOperation) (h : s.operation = some op)
    (hp : op.isPinned = true) :
    releasePin s =
      { s with
        operation := none
        listenerAttached := false
        events := s.events ++ [Event.flagged none, Event.pinReleased op.targetIndex]
        sched := { s.sched with
          pin := if op.pinTimeoutId = none then s.sched.pin else none } } := by
  obtain ⟨opn, la, cnt, sp, ev, ⟨sst, spi, sat, spr, sco, saf⟩⟩ := s
  dsimp only at h
  subst h
  obtain ⟨_, _, _, _, _, _, _, opti, _, _, _, oip, _, _, _, _, _, _, _⟩ := op
  dsimp only at hp
  subst hp
  rcases opti with _ | k <;>
    simp [releasePin, clearPinTimeout, detachScrollListener]

theorem startPin_notMp (cfg : Config) (env : Env) (s : State)
    (hmp : cfg.maintainPosition = false) : startPin cfg env s = s := by
  unfold startPin
  cases hop : s.operation <;> simp [hmp]

theorem startPin_pinned (cfg : Config) (env : Env) (s : State) (op : ScrollOperation)
    (h : s.operation = some op) (hp : op.isPinned = true) : startPin cfg env s = s := by
  unfold startPin; rw [h]; simp [hp]

theorem startPin_eq (cfg : Config) (env : Env) (s : State) (op : ScrollOperation)
    (h : s.operation = some op) (hmp : cfg.maintainPosition = true)
    (hp : op.isPinned = false) :
    startPin cfg env s =
      { s with
        operation := some
          { op with
            isPinned := true
            pinTimeoutId := if cfg.pinDurationFinite then some op.id else none }
        listenerAttached := s.listenerAttached || env.scrollViewPresent
        sched := { s.sched with
          pin :=
            if cfg.pinDurationFinite then some op.id
            else if op.pinTimeoutId = none then s.sched.pin else none } } := by
  obtain ⟨opn, la, cnt, sp, ev, ⟨sst, spi, sat, spr, sco, saf⟩⟩ := s
  dsimp only at h
  subst h
  obtain ⟨_, _, _, _, _, _, _, opti, _, _, _, oip, _, _, _, _, _, _, _⟩ := op
  dsimp only at hp
  subst hp
  rcases opti with _ | k <;> rcases hfin : cfg.pinDurationFinite with _ | _ <;>
    rcases la with _ | _ <;> rcases hv : env.scrollViewPresent with _ | _ <;>
    simp [startPin, clearPinTimeout, ensureScrollListener, hmp, hfin, hv]

theorem finalizeOperation_none (cfg : Config) (env : Env) (s : State)
    (h : s.operation = none) : finalizeOperation cfg env s = s := by
  unfold finalizeOperation; rw [h]

theorem finalizeOperation_stable (cfg : Config) (env : Env) (s : State) (op : ScrollOperation)
    (h : s.operation = some op) (hst : op.status = Status.stable) :
    finalizeOperation cfg env s = s := by
  unfold finalizeOperation; rw [h]; simp [hst]

theorem finalizeOperation_noMp (cfg : Config) (env : Env) (s : State) (op : ScrollOperation)
    (h : s.operation = some op) (hst : op.status ≠ Status.stable)
    (hmp : cfg.maintainPosition = false) :
    finalizeOperation cfg env s =
      { s with
        operation := none
        listenerAttached := false
        events := s.events ++
          (if op.hasCallback then [Event.opCallback op.targetIndex] else []) ++
          [Event.operationComplete op.targetIndex, Event.flagged none] ++
          [Event.pinReleased op.targetIndex]
        sched := { s.sched with
          stability := if op.stabilityTimeoutId = none then s.sched.stability else none
          correction := if op.scheduleFrameId = none then s.sched.correction else none } } := by
  obtain ⟨opn, la, cnt, sp, ev, ⟨sst, spi, sat, spr, sco, saf⟩⟩ := s
  dsimp only at h
  subst h
  obtain ⟨_, _, _, ohc, _, _, osti, _, osfi, ost, _, _, _, _, _, _, _, _, _⟩ := op
  dsimp only at hst
  rcases osti with _ | k1 <;> rcases osfi with _ | k2 <;> rcases ohc with _ | _ <;>
    simp [finalizeOperation, clearStabilityTimeout, cancelScheduledFrame, startPin,
      detachScrollListener, hst, hmp]

theorem finalizeOperation_mp (cfg : Config) (env : Env) (s : State) (op : ScrollOperation)
    (h : s.operation = some op) (hst : op.status ≠ Status.stable)
    (hmp : cfg.maintainPosition = true) (hp : op.isPinned = false) :
    finalizeOperation cfg env s =
      { s with
        operation := some
          { op with
            status := Status.stable
            stabilityTimeoutId := none
            scheduleFrameId := none
            isPinned := true
            pinTimeoutId := if cfg.pinDurationFinite then some op.id else none }
        listenerAttached := s.listenerAttached || env.scrollViewPresent
        events := s.events ++
          (if op.hasCallback then [Event.opCallback op.targetIndex] else []) ++
          [Event.operationComplete op.targetIndex, Event.flagged none]
        sched := { s.sched with
          stability := if op.stabilityTimeoutId = none then s.sched.stability else none
          correction := if op.scheduleFrameId = none then s.sched.correction else none
          pin :=
            if cfg.pinDurationFinite then some op.id
            else if op.pinTimeoutId = none then s.sched.pin else none } } := by
  obtain ⟨opn, la, cnt, sp, ev, ⟨sst, spi, sat, spr, sco, saf⟩⟩ := s
  dsimp only at h
  subst h
  obtain ⟨_, _, _, ohc, _, _, osti, opti, osfi, ost, _, oip, _, _, _, _, _, _, _⟩ := op
  dsimp only at hst hp
  subst hp
  rcases osti with _ | k1 <;> rcases osfi with _ | k2 <;> rcases ohc with _ | _ <;>
    rcases opti with _ | k3 <;> rcases hfin : cfg.pinDurationFinite with _ | _ <;>
    rcases la with _ | _ <;> rcases hv : env.scrollViewPresent with _ | _ <;>
    simp [finalizeOperation, clearStabilityTimeout, cancelScheduledFrame, startPin,
      clearPinTimeout, ensureScrollListener, detachScrollListener, hst, hmp, hfin, hv]

theorem finalizeOperation_mp_pinned (cfg : Config) (env : Env) (s : State)
    (op : ScrollOperation) (h : s.operation = some op) (hst : op.status ≠ Status.stable)
    (hmp : cfg.maintainPosition = true) (hp : op.isPinned = true) :
    finalizeOperation cfg env s =
      { s with
        operation := some
          { op with
            status := Status.stable
            stabilityTimeoutId := none
            scheduleFrameId := none }
        events := s.events ++
          (if op.hasCallback then [Event.opCallback op.targetIndex] else []) ++
          [Event.operationComplete op.targetIndex, Event.flagged none]
        sched := { s.sched with
          stability := if op.stabilityTimeoutId = none then s.sched.stability else none
          correction := if op.scheduleFrameId = none then s.sched.correction else none } } := by
  obtain ⟨opn, la, cnt, sp, ev, ⟨sst, spi, sat, spr, sco, saf⟩⟩ := s
  dsimp only at h
  subst h
  obtain ⟨_, _, _, ohc, _, _, osti, opti, osfi, ost, _, oip, _, _, _, _, _, _, _⟩ := op
  dsimp only at hst hp
  subst hp
  rcases osti with _ | k1 <;> rcases osfi with _ | k2 <;> rcases ohc with _ | _ <;>
    simp [finalizeOperation, clearStabilityTimeout, cancelScheduledFrame, startPin,
      hst, hmp]

theorem schedDispatch_zero (cfg : Config) (env : Env) (c : SchedCall) (s : State) :
    schedDispatch cfg env 0 c s = s := rfl

theorem schedDispatch_succ (cfg : Config) (env : Env) (fuel : Nat) :
    schedDispatch cfg env (fuel + 1) =
      schedDispatchStep cfg env (schedDispatch cfg env fuel) := rfl

/-- Induction principle for state predicates preserved by the dispatcher. -/
theorem schedDispatch_pres (cfg : Config) (env : Env) (P : State → Prop)
    (h : ∀ recurse : SchedCall → State → State,
      (∀ c s, P s → P (recurse c s)) →
      ∀ c s, P s → P (schedDispatchStep cfg env recurse c s)) :
    ∀ fuel c s, P s → P (schedDispatch cfg env fuel c s) := by
  intro fuel
  induction fuel with
  | zero => intro c s hs; exact hs
  | succ f ih => intro c s hs; exact h _ ih c s hs

/-- Induction principle for binary relations established by the
dispatcher. -/
theorem schedDispatch_rel (cfg : Config) (env : Env) (R : State → State → Prop)
    (hrefl : ∀ s, R s s)
    (h : ∀ recurse : SchedCall → State → State,
      (∀ c s, R s (recurse c s)) →
      ∀ c s, R s (schedDispatchStep cfg env recurse c s)) :
    ∀ fuel c s, R s (schedDispatch cfg env fuel c s) := by
  intro fuel
  induction fuel with
  | zero => intro c s; exact hrefl s
  | succ f ih => intro c s; exact h _ ih c s

/-- C9 counterexample.  The claim asserts `aligned` holds iff both reported
magnitudes are within one unit; when the scroll container is absent but the
element exists, the evaluation reports zero deltas (well within tolerance)
together with `aligned = false` and `exists = true`. -/
theorem alignment_eval_counterexample :
    (evaluateTargetAlignment false (some rectAligned)).aligned = false ∧
    (evaluateTargetAlignment false (some rectAligned)).elementExists = true ∧
    |(evaluateTargetAlignment false (some rectAligned)).startDelta| ≤ VIEWPORT_TOLERANCE ∧
    (evaluateTargetAlignment false (some rectAligned)).endOverflow ≤ VIEWPORT_TOLERANCE := by
  refine ⟨rfl, rfl, ?_, ?_⟩ <;> with_unfolding_all decide

/-- C9 (amended): the trailing overflow is floored at zero; a missing
target yields `exists = false` and `aligned = false`; a missing container
yields `aligned = false` (with zero reported deltas even when those are
within tolerance); and whenever the container exists, `aligned` holds iff
both the absolute leading delta and the trailing overflow are within the
1-unit tolerance. -/
theorem alignment_eval_amended (svp : Bool) (elem : Option Rects) :
    0 ≤ (evaluateTargetAlignment svp elem).endOverflow ∧
    (elem = none → (evaluateTargetAlignment svp elem).elementExists = false ∧
      (evaluateTargetAlignment svp elem).aligned = false) ∧
    (svp = false → (evaluateTargetAlignment svp elem).aligned = false) ∧
    (∀ r, svp = true → elem = some r →
      (evaluateTargetAlignment svp elem).elementExists = true ∧
      (evaluateTargetAlignment svp elem).startDelta = r.elementStart - r.containerStart ∧
      (evaluateTargetAlignment svp elem).endOverflow = max 0 (r.elementEnd - r.containerEnd) ∧
      ((evaluateTargetAlignment svp elem).aligned = true ↔
        |(evaluateTargetAlignment svp elem).startDelta| ≤ VIEWPORT_TOLERANCE ∧
        (evaluateTargetAlignment svp elem).endOverflow ≤ VIEWPORT_TOLERANCE)) := by
  refine ⟨?_, ?_, ?_, ?_⟩
  · cases svp <;> cases elem <;> simp [evaluateTargetAlignment]
  · rintro rfl; cases svp <;> simp [evaluateTargetAlignment]
  · rintro rfl; cases elem <;> simp [evaluateTargetAlignment]
  · rintro r rfl rfl
    refine ⟨rfl, rfl, rfl, ?_⟩
    simp [evaluateTargetAlignment]

/-- Witness for the amended C9 theorem at a concrete aligned layout. -/
theorem alignment_eval_amended_witness :
    (evaluateTargetAlignment true (some rectAligned)).aligned = true ↔
      |(evaluateTargetAlignment true (some rectAligned)).startDelta| ≤ VIEWPORT_TOLERANCE ∧
      (evaluateTargetAlignment true (some rectAligned)).endOverflow ≤ VIEWPORT_TOLERANCE :=
  ((alignment_eval_amended true (some rectAligned)).2.2.2 rectAligned rfl rfl).2.2.2

/-- C7: `finalizeOperation` is idempotent.  On an already-stable operation
it is the identity (no state change, no callbacks); a first invocation
marks the operation stable, logs the per-operation callback (when one was
supplied) and the completion notification with `targetIndex` exactly once
(plus the flag reset, and the pin-release notification when
`maintainPosition` is off); re-invoking it afterwards changes nothing, so
the completion callback fires at most once per operation. -/
theorem finalize_idempotent (cfg : Config) (env env' : Env) (s : State)
    (op : ScrollOperation) (h : s.operation = some op) :
    (op.status = Status.stable → finalizeOperation cfg env s = s) ∧
    (op.status ≠ Status.stable →
      (finalizeOperation cfg env s).events = s.events ++
        (if op.hasCallback then [Event.opCallback op.targetIndex] else []) ++
        [Event.operationComplete op.targetIndex, Event.flagged none] ++
        (if cfg.maintainPosition then [] else [Event.pinReleased op.targetIndex]) ∧
      (∀ op', (finalizeOperation cfg env s).operation = some op' →
        op'.status = Status.stable ∧ op'.targetIndex = op.targetIndex)) ∧
    finalizeOperation cfg env' (finalizeOperation cfg env s) = finalizeOperation cfg env s := by
  refine ⟨fun hst => finalizeOperation_stable cfg env s op h hst, ?_, ?_⟩
  · intro hst
    rcases hmp : cfg.maintainPosition with _ | _
    · rw [finalizeOperation_noMp cfg env s op h hst hmp]
      simp [hmp]
    · rcases hp : op.isPinned with _ | _
      · rw [finalizeOperation_mp cfg env s op h hst hmp hp]
        constructor
        · simp [hmp]
        · intro op' hop'
          simp only [Option.some.injEq] at hop'
          subst hop'
          exact ⟨rfl, rfl⟩
      · rw [finalizeOperation_mp_pinned cfg env s op h hst hmp hp]
        constructor
        · simp [hmp]
        · intro op' hop'
          simp only [Option.some.injEq] at hop'
          subst hop'
          exact ⟨rfl, rfl⟩
  · by_cases hst : op.status = Status.stable
    · rw [finalizeOperation_stable cfg env s op h hst,
        finalizeOperation_stable cfg env' s op h hst]
    · rcases hmp : cfg.maintainPosition with _ | _
      · rw [finalizeOperation_noMp cfg env s op h hst hmp]
        exact finalizeOperation_none cfg env' _ rfl
      · rcases hp : op.isPinned with _ | _
        · rw [finalizeOperation_mp cfg env s op h hst hmp hp]
          exact finalizeOperation_stable cfg env' _ _ rfl rfl
        · rw [finalizeOperation_mp_pinned cfg env s op h hst hmp hp]
          exact finalizeOperation_stable cfg env' _ _ rfl rfl

/-- Witness for C7 at a concrete already-stable operation. -/
theorem finalize_idempotent_witness :
    finalizeOperation cfgPin (mkEnv none)
        (mkState (some { mkOp 1 5 with status := Status.stable })) =
      mkState (some { mkOp 1 5 with status := Status.stable }) :=
  (finalize_idempotent cfgPin (mkEnv none) (mkEnv none)
    (mkState (some { mkOp 1 5 with status := Status.stable }))
    { mkOp 1 5 with status := Status.stable } rfl).1 rfl

/-- C5: with a stable operation, `maintainPosition` on, an index strictly
below the target and a nonzero delta, `handleItemMeasured` immediately
applies a single direct scroll adjustment equal to the delta
(sign-adjusted when reversed): exactly one `scrollBy` effect, the scroll
position moved by exactly the adjusted delta, the coalescing accumulator
and the correction budget untouched. -/
theorem stable_compensation_immediate (cfg : Config) (env : Env) (fuel : Nat)
    (index : Nat) (size delta : ℚ) (s : State) (op : ScrollOperation)
    (h : s.operation = some op) (hst : op.status = Status.stable)
    (hmp : op.maintainPosition = true) (hidx : index < op.targetIndex) (hd : delta ≠ 0)
    (hv : env.scrollViewPresent = true) :
    handleItemMeasured cfg env fuel index size delta s =
      { s with
        operation := some { op with isProgrammaticScroll := true }
        scrollPos := s.scrollPos + (if cfg.reversed then -delta else delta)
        events := s.events ++ [Event.scrollBy (if cfg.reversed then -delta else delta)]
        sched := { s.sched with programmatic := some op.id } } := by
  have hred : handleItemMeasured cfg env fuel index size delta s =
      applyScrollByDelta cfg env delta s := by
    unfold handleItemMeasured
    rw [h]
    simp [hst, hmp, hidx, hd]
  rw [hred]
  exact applyScrollByDelta_eq cfg env delta s op h hv hd

/-- Witness for C5: a stable pinned operation targeting index 5 receives an
upstream delta of 120 at index 3 and the viewport scroll moves by 120. -/
theorem stable_compensation_immediate_witness :
    handleItemMeasured cfgPin (mkEnv (some rectAligned)) 12 3 300 120
        (mkState (some { mkOp 1 5 with status := Status.stable, isPinned := true })) =
      { mkState (some { mkOp 1 5 with status := Status.stable, isPinned := true }) with
        operation := some
          { mkOp 1 5 with
            status := Status.stable, isPinned := true, isProgrammaticScroll := true }
        scrollPos := 0 + (if cfgPin.reversed then -120 else 120)
        events := [Event.scrollBy (if cfgPin.reversed then -(120 : ℚ) else 120)]
        sched := { emptySched with programmatic := some 1 } } :=
  stable_compensation_immediate cfgPin (mkEnv (some rectAligned)) 12 3 300 120
    (mkState (some { mkOp 1 5 with status := Status.stable, isPinned := true }))
    { mkOp 1 5 with status := Status.stable, isPinned := true }
    rfl rfl rfl (by decide) (by norm_num) rfl

/-- C10: tearing an operation down via `clearOperation` applies no scroll
adjustment — the scroll position is untouched, the event extension holds no
scroll mutation, the operation record (with its accumulated
`pendingAnchorDelta`) is discarded, and the anchor channels no longer hold
a callback for this operation. -/
theorem teardown_discards_anchor (reason : Option CancelReason) (s : State)
    (op : ScrollOperation) (h : s.operation = some op)
    (hfr : s.sched.anchorFrame = some op.id → op.anchorFrameId ≠ none)
    (hto : s.sched.anchorTimeout = some op.id → op.anchorFrameId ≠ none) :
    (clearOperation reason s).scrollPos = s.scrollPos ∧
    (clearOperation reason s).operation = none ∧
    (clearOperation reason s).events = s.events ++ [Event.flagged none] ++
      (match reason with
       | some r => [Event.operationCancel op.targetIndex r]
       | none => []) ∧
    (clearOperation reason s).sched.anchorFrame ≠ some op.id ∧
    (clearOperation reason s).sched.anchorTimeout ≠ some op.id := by
  rw [clearOperation_eq reason s op h]
  refine ⟨rfl, rfl, rfl, ?_, ?_⟩
  · by_cases haf : op.anchorFrameId = none
    · simpa [haf] using fun hc => (hfr hc) haf
    · simp [haf]
  · by_cases haf : op.anchorFrameId = none
    · simpa [haf] using fun hc => (hto hc) haf
    · simp [haf]

/-- Witness for C10: cancelling an operation with an accumulated
not-yet-committed anchor delta leaves the scroll position untouched. -/
theorem teardown_discards_anchor_witness :
    (clearOperation (some CancelReason.cancelled)
        (mkState (some { mkOp 1 5 with pendingAnchorDelta := 37 }))).scrollPos =
      (mkState (some { mkOp 1 5 with pendingAnchorDelta := 37 })).scrollPos :=
  (teardown_discards_anchor (some CancelReason.cancelled)
    (mkState (some { mkOp 1 5 with pendingAnchorDelta := 37 }))
    { mkOp 1 5 with pendingAnchorDelta := 37 } rfl
    (by intro hc; cases hc) (by intro hc; cases hc)).1

theorem runCheck_stale (cfg : Config) (env : Env) (fuel : Nat) (k : Nat) (s : State)
    (hstale : ∀ op, s.operation = some op → op.id ≠ k) :
    runCheck cfg env fuel k s = s := by
  cases fuel with
  | zero => rfl
  | succ f =>
      show checkRunBody cfg env (schedDispatch cfg env f) k s = s
      cases hop : s.operation with
      | none => unfold checkRunBody; rw [hop]
      | some op => unfold checkRunBody; rw [hop]; simp [hstale op hop]

theorem executeCorrection_stale (cfg : Config) (env : Env) (fuel : Nat) (k : Nat) (s : State)
    (hstale : ∀ op, s.operation = some op → op.id ≠ k) :
    executeCorrection cfg env fuel k s = s := by
  cases fuel with
  | zero => rfl
  | succ f =>
      show execCorrectionBody cfg env (schedDispatch cfg env f) k s = s
      cases hop : s.operation with
      | none => unfold execCorrectionBody; rw [hop]
      | some op => unfold execCorrectionBody; rw [hop]; simp [hstale op hop]

theorem commitAnchor_stale (cfg : Config) (env : Env) (fuel : Nat) (k : Nat) (s : State)
    (hstale : ∀ op, s.operation = some op → op.id ≠ k) :
    commitAnchor cfg env fuel k s = s := by
  cases fuel with
  | zero => rfl
  | succ f =>
      show commitAnchorBody cfg env (schedDispatch cfg env f) k s = s
      cases hop : s.operation with
      | none => unfold commitAnchorBody; rw [hop]
      | some op => unfold commitAnchorBody; rw [hop]; simp [hstale op hop]

theorem pinTimerBody_stale (k : Nat) (s : State)
    (hstale : ∀ op, s.operation = some op → op.id ≠ k) :
    pinTimerBody k s = s := by
  cases hop : s.operation with
  | none => unfold pinTimerBody; rw [hop]
  | some op => unfold pinTimerBody; rw [hop]; simp [hstale op hop]

theorem programmaticResetBody_stale (k : Nat) (s : State)
    (hstale : ∀ op, s.operation = some op → op.id ≠ k) :
    programmaticResetBody k s = s := by
  cases hop : s.operation with
  | none => unfold programmaticResetBody; rw [hop]
  | some op => unfold programmaticResetBody; rw [hop]; simp [hstale op hop]

/-- C1: every scheduled callback — the stability timer, the correction
frame, the anchor coalescing callback (frame or zero-delay timer), the
pin-expiry timer and the programmatic-scroll-reset frame — captured an
operation id `k` at schedule time; if, when it fires, there is no active
operation or the active operation's id differs from `k`, the firing only
consumes the channel slot: no operation field changes, no event is logged,
and the scroll position is untouched. -/
theorem stale_callback_noop (cfg : Config) (env : Env) (fuel : Nat) (k : Nat) (s : State)
    (hstale : ∀ op, s.operation = some op → op.id ≠ k) :
    (s.sched.stability = some k →
      step cfg env fuel s ExtEvent.fireStability =
        { s with sched := { s.sched with stability := none } }) ∧
    (s.sched.correction = some k →
      step cfg env fuel s ExtEvent.fireCorrection =
        { s with sched := { s.sched with correction := none } }) ∧
    (s.sched.anchorFrame = some k →
      step cfg env fuel s ExtEvent.fireAnchorFrame =
        { s with sched := { s.sched with anchorFrame := none } }) ∧
    (s.sched.anchorTimeout = some k →
      step cfg env fuel s ExtEvent.fireAnchorTimeout =
        { s with sched := { s.sched with anchorTimeout := none } }) ∧
    (s.sched.pin = some k →
      step cfg env fuel s ExtEvent.firePin =
        { s with sched := { s.sched with pin := none } }) ∧
    (s.sched.programmatic = some k →
      step cfg env fuel s ExtEvent.fireProgrammaticReset =
        { s with sched := { s.sched with programmatic := none } }) := by
  refine ⟨?_, ?_, ?_, ?_, ?_, ?_⟩ <;> intro hslot
  · show (match s.sched.stability with
      | none => s
      | some k => runCheck cfg env fuel k
          { s with sched := { s.sched with stability := none } }) = _
    rw [hslot]
    exact runCheck_stale cfg env fuel k _ hstale
  · show (match s.sched.correction with
      | none => s
      | some k => executeCorrection cfg env fuel k
          { s with sched := { s.sched with correction := none } }) = _
    rw [hslot]
    exact executeCorrection_stale cfg env fuel k _ hstale
  · show (match s.sched.anchorFrame with
      | none => s
      | some k => commitAnchor cfg env fuel k
          { s with sched := { s.sched with anchorFrame := none } }) = _
    rw [hslot]
    exact commitAnchor_stale cfg env fuel k _ hstale
  · show (match s.sched.anchorTimeout with
      | none => s
      | some k => commitAnchor cfg env fuel k
          { s with sched := { s.sched with anchorTimeout := none } }) = _
    rw [hslot]
    exact commitAnchor_stale cfg env fuel k _ hstale
  · show (match s.sched.pin with
      | none => s
      | some k => pinTimerBody k
          { s with sched := { s.sched with pin := none } }) = _
    rw [hslot]
    exact pinTimerBody_stale k _ hstale
  · show (match s.sched.programmatic with
      | none => s
      | some k => programmaticResetBody k
          { s with sched := { s.sched with programmatic := none } }) = _
    rw [hslot]
    exact programmaticResetBody_stale k _ hstale

/-- Witness for C1: a state whose six channels are all armed for a
superseded operation id 1 while the active operation has id 2; firing the
stability timer only clears that slot. -/
theorem stale_callback_noop_witness :
    step cfgPin (mkEnv (some rectMis)) 12
        { mkState (some (mkOp 2 5)) with
          sched :=
            { stability := some 1, pin := some 1, anchorTimeout := some 1,
              programmatic := some 1, correction := some 1, anchorFrame := some 1 } }
        ExtEvent.fireStability =
      { mkState (some (mkOp 2 5)) with
        sched :=
          { stability := none, pin := some 1, anchorTimeout := some 1,
            programmatic := some 1, correction := some 1, anchorFrame := some 1 } } :=
  (stale_callback_noop cfgPin (mkEnv (some rectMis)) 12 1
    { mkState (some (mkOp 2 5)) with
      sched :=
        { stability := some 1, pin := some 1, anchorTimeout := some 1,
          programmatic := some 1, correction := some 1, anchorFrame := some 1 } }
    (by intro op hop; cases hop; decide)).1 rfl

/-- C6 counterexample.  With a pinned operation, the external `cancel()`
release path tears the pin down and clears the operation but reports
`onOperationCancel` — no pin-release notification is emitted (and the
pin-release notification has no reason parameter anywhere). -/
theorem pin_release_report_counterexample :
    (runTrace cfgPin tracePinned).operation.map (fun o => (o.id, o.isPinned)) =
      some (1, true) ∧
    (step cfgPin (mkEnv (some rectAligned)) 12 (runTrace cfgPin tracePinned)
      ExtEvent.callCancel).operation = none ∧
    (step cfgPin (mkEnv (some rectAligned)) 12 (runTrace cfgPin tracePinned)
        ExtEvent.callCancel).events =
      (runTrace cfgPin tracePinned).events ++
        [Event.flagged none, Event.operationCancel 5 CancelReason.cancelled] := by
  refine ⟨?_, ?_, ?_⟩ <;> with_unfolding_all decide

/-- C6 (amended): each release condition tears the pin down and clears the
operation, but the notifications differ — a detected user scroll reports
`onOperationCancel` with reason `user`, external `cancel()` reports
`onOperationCancel` with reason `cancelled`, and only the pin-expiry timer
reports `onPinReleased` (which carries the index, not a reason). -/
theorem pin_release_paths (cfg : Config) (env : Env) (fuel : Nat) (s : State)
    (op : ScrollOperation) (h : s.operation = some op) (hp : op.isPinned = true) :
    (s.listenerAttached = true → op.isProgrammaticScroll = false →
      (step cfg env fuel s ExtEvent.scrollObserved).operation = none ∧
      (step cfg env fuel s ExtEvent.scrollObserved).events =
        s.events ++ [Event.flagged none] ++
          [Event.operationCancel op.targetIndex CancelReason.user]) ∧
    (s.sched.pin = some op.id →
      (step cfg env fuel s ExtEvent.firePin).operation = none ∧
      (step cfg env fuel s ExtEvent.firePin).events =
        s.events ++ [Event.flagged none, Event.pinReleased op.targetIndex]) ∧
    ((step cfg env fuel s ExtEvent.callCancel).operation = none ∧
      (step cfg env fuel s ExtEvent.callCancel).events =
        s.events ++ [Event.flagged none] ++
          [Event.operationCancel op.targetIndex CancelReason.cancelled]) := by
  refine ⟨?_, ?_, ?_⟩
  · intro hla hprog
    have hred : step cfg env fuel s ExtEvent.scrollObserved =
        clearOperation (some CancelReason.user) s := by
      show (if s.listenerAttached then scrollListenerBody s else s) = _
      rw [hla]
      unfold scrollListenerBody
      rw [h]
      simp [hprog]
    rw [hred, clearOperation_eq (some CancelReason.user) s op h]
    exact ⟨rfl, rfl⟩
  · intro hslot
    have hred : step cfg env fuel s ExtEvent.firePin =
        releasePin { s with sched := { s.sched with pin := none } } := by
      show (match s.sched.pin with
        | none => s
        | some k => pinTimerBody k { s with sched := { s.sched with pin := none } }) = _
      rw [hslot]
      unfold pinTimerBody
      rw [show ({ s with sched := { s.sched with pin := none } } : State).operation = some op
        from h]
      simp
    rw [hred, releasePin_eq { s with sched := { s.sched with pin := none } } op h hp]
    exact ⟨rfl, rfl⟩
  · have hred : step cfg env fuel s ExtEvent.callCancel =
        clearOperation (some CancelReason.cancelled) s := rfl
    rw [hred, clearOperation_eq (some CancelReason.cancelled) s op h]
    exact ⟨rfl, rfl⟩

/-- Witness for the amended C6 theorem: cancelling a concrete pinned
operation clears it. -/
theorem pin_release_paths_witness :
    (step cfgPin (mkEnv (some rectAligned)) 12
      (mkState (some { mkOp 1 5 with status := Status.stable, isPinned := true }))
      ExtEvent.callCancel).operation = none :=
  (pin_release_paths cfgPin (mkEnv (some rectAligned)) 12
    (mkState (some { mkOp 1 5 with status := Status.stable, isPinned := true }))
    { mkOp 1 5 with status := Status.stable, isPinned := true } rfl rfl).2.2.1

/-- C2 counterexample.  One `start` with a budget of one: the stability
check spends the last unit on a minimal adjustment while the correction
frame scheduled at `start` is still outstanding; when that frame fires it
decrements unconditionally, driving `correctionsRemaining` of the same
operation (id 1) to −1 — the budget is not a non-negative integer
throughout the operation's lifetime. -/
theorem budget_counterexample :
    (runTrace cfgTight traceBudget).operation.map
      (fun o => (o.id, o.correctionsRemaining)) = some (1, -1) := by
  with_unfolding_all decide

/-- C4 counterexample.  A pinned operation with its anchor-coalescing frame
still armed is discarded by the pin-expiry path, which cancels only the pin
timer: after the release the operation is gone while the anchor channel
still holds the discarded operation's callback — an orphaned scheduled
callback (stale-guarded, but not cancelled). -/
theorem cleanup_counterexample :
    (runTrace cfgPin tracePinned).operation.map (fun o => (o.id, o.isPinned)) =
      some (1, true) ∧
    (runTrace cfgPin tracePinned).sched.anchorFrame = some 1 ∧
    (step cfgPin (mkEnv (some rectAligned)) 12 (runTrace cfgPin tracePinned)
      ExtEvent.firePin).operation = none ∧
    (step cfgPin (mkEnv (some rectAligned)) 12 (runTrace cfgPin tracePinned)
      ExtEvent.firePin).sched.anchorFrame = some 1 := by
  refine ⟨?_, ?_, ?_, ?_⟩ <;> with_unfolding_all decide

theorem opMono_refl (s : State) : OpMono s s := by
  constructor
  · exact fun h => h
  · intro op op' h h'
    rw [h] at h'
    injection h' with h'
    subst h'
    exact ⟨rfl, le_refl _⟩

theorem opMono_trans {s t u : State} (h1 : OpMono s t) (h2 : OpMono t u) : OpMono s u := by
  obtain ⟨n1, b1⟩ := h1
  obtain ⟨n2, b2⟩ := h2
  constructor
  · exact fun h => n2 (n1 h)
  · intro op op' h h'
    cases ht : t.operation with
    | none => rw [n2 ht] at h'; cases h'
    | some opt =>
        obtain ⟨i1, c1⟩ := b1 op opt h ht
        obtain ⟨i2, c2⟩ := b2 opt op' ht h'
        exact ⟨i2.trans i1, c2.trans c1⟩

/-- A transition that does not touch the operation is `OpMono`. -/
theorem opMono_of_eqOp {s t : State} (h : t.operation = s.operation) : OpMono s t := by
  constructor
  · intro h0; rw [h, h0]
  · intro op op' h1 h2
    rw [h, h1] at h2
    injection h2 with h2
    subst h2
    exact ⟨rfl, le_refl _⟩

/-- A transition that discards the operation is `OpMono`. -/
theorem opMono_of_none {s t : State} (h : t.operation = none) : OpMono s t := by
  constructor
  · intro _; exact h
  · intro op op' _ h2
    rw [h] at h2
    cases h2

/-- A transition that rewrites the operation in place without changing its
id or raising its budget is `OpMono`. -/
theorem opMono_modifyOp (f : ScrollOperation → ScrollOperation) (s : State)
    (hid : ∀ o, (f o).id = o.id)
    (hcr : ∀ o, (f o).correctionsRemaining ≤ o.correctionsRemaining) :
    OpMono s (modifyOp f s) := by
  constructor
  · intro h; simp [modifyOp, h]
  · intro op op' h h'
    simp only [modifyOp, h, Option.map_some'] at h'
    injection h' with h'
    subst h'
    exact ⟨hid op, hcr op⟩

theorem opMono_clearStabilityTimeout (s : State) : OpMono s (clearStabilityTimeout s) := by
  cases hop : s.operation with
  | none => rw [clearStabilityTimeout_none s hop]; exact opMono_refl s
  | some op =>
      rw [clearStabilityTimeout_eq s op hop]
      constructor
      · intro h; rw [h] at hop; cases hop
      · intro o o' h h'
        rw [h] at hop; injection hop with hop; subst hop
        injection h' with h'
        subst h'
        exact ⟨rfl, le_refl _⟩

theorem opMono_clearPinTimeout (s : State) : OpMono s (clearPinTimeout s) := by
  cases hop : s.operation with
  | none => rw [clearPinTimeout_none s hop]; exact opMono_refl s
  | some op =>
      rw [clearPinTimeout_eq s op hop]
      constructor
      · intro h; rw [h] at hop; cases hop
      · intro o o' h h'
        rw [h] at hop; injection hop with hop; subst hop
        injection h' with h'
        subst h'
        exact ⟨rfl, le_refl _⟩

theorem opMono_cancelScheduledFrame (s : State) : OpMono s (cancelScheduledFrame s) := by
  cases hop : s.operation with
  | none => rw [cancelScheduledFrame_none s hop]; exact opMono_refl s
  | some op =>
      rw [cancelScheduledFrame_eq s op hop]
      constructor
      · intro h; rw [h] at hop; cases hop
      · intro o o' h h'
        rw [h] at hop; injection hop with hop; subst hop
        injection h' with h'
        subst h'
        exact ⟨rfl, le_refl _⟩

theorem opMono_cancelAnchorFrame (s : State) : OpMono s (cancelAnchorFrame s) := by
  cases hop : s.operation with
  | none => rw [cancelAnchorFrame_none s hop]; exact opMono_refl s
  | some op =>
      rw [cancelAnchorFrame_eq s op hop]
      constructor
      · intro h; rw [h] at hop; cases hop
      · intro o o' h h'
        rw [h] at hop; injection hop with hop; subst hop
        injection h' with h'
        subst h'
        exact ⟨rfl, le_refl _⟩

theorem opMono_clearOperation (reason : Option CancelReason) (s : State) :
    OpMono s (clearOperation reason s) := by
  cases hop : s.operation with
  | none => rw [clearOperation_none reason s hop]; exact opMono_refl s
  | some op => exact opMono_of_none (by rw [clearOperation_eq reason s op hop])

theorem opMono_applyScrollByDelta (cfg : Config) (env : Env) (delta : ℚ) (s : State) :
    OpMono s (applyScrollByDelta cfg env delta s) := by
  cases hop : s.operation with
  | none => unfold applyScrollByDelta; rw [hop]; exact opMono_refl s
  | some op =>
      cases hv : env.scrollViewPresent with
      | false => rw [applyScrollByDelta_noView cfg env delta s hv]; exact opMono_refl s
      | true =>
          by_cases hd : delta = 0
          · subst hd; rw [applyScrollByDelta_zero]; exact opMono_refl s
          · rw [applyScrollByDelta_eq cfg env delta s op hop hv hd]
            constructor
            · intro h; rw [h] at hop; cases hop
            · intro o o' h h'
              rw [h] at hop; injection hop with hop; subst hop
              injection h' with h'
              subst h'
              exact ⟨rfl, le_refl _⟩

theorem opMono_performScroll (cfg : Config) (env : Env) (behavior : Behavior) (s : State) :
    OpMono s (performScroll cfg env behavior s) := by
  cases hop : s.operation with
  | none => rw [performScroll_none cfg env behavior s hop]; exact opMono_refl s
  | some op =>
      cases hfast : (!cfg.reversed && cfg.axisVertical && env.getOffsetProvided) with
      | false =>
          rw [performScroll_fallback cfg env behavior s op hop (Or.inl hfast)]
          exact opMono_of_eqOp rfl
      | true =>
          cases hoff : env.offsetForTarget with
          | none =>
              rw [performScroll_fallback cfg env behavior s op hop (Or.inr (Or.inl hoff))]
              exact opMono_of_eqOp rfl
          | some offset =>
              cases hv : env.scrollViewPresent with
              | false =>
                  rw [performScroll_fallback cfg env behavior s op hop (Or.inr (Or.inr hv))]
                  exact opMono_of_eqOp rfl
              | true =>
                  rw [performScroll_offset cfg env behavior s op offset hop hfast hoff hv]
                  constructor
                  · intro h; rw [h] at hop; cases hop
                  · intro o o' h h'
                    rw [h] at hop; injection hop with hop; subst hop
                    injection h' with h'
                    subst h'
                    exact ⟨rfl, le_refl _⟩

theorem opMono_releasePin (s : State) : OpMono s (releasePin s) := by
  cases hop : s.operation with
  | none => rw [releasePin_none s hop]; exact opMono_refl s
  | some op =>
      cases hp : op.isPinned with
      | false => rw [releasePin_notPinned s op hop hp]; exact opMono_refl s
      | true => exact opMono_of_none (by rw [releasePin_eq s op hop hp])

theorem opMono_startPin (cfg : Config) (env : Env) (s : State) :
    OpMono s (startPin cfg env s) := by
  cases hop : s.operation with
  | none => unfold startPin; rw [hop]; exact opMono_refl s
  | some op =>
      cases hmp : cfg.maintainPosition with
      | false => rw [startPin_notMp cfg env s hmp]; exact opMono_refl s
      | true =>
          cases hp : op.isPinned with
          | true => rw [startPin_pinned cfg env s op hop hp]; exact opMono_refl s
          | false =>
              rw [startPin_eq cfg env s op hop hmp hp]
              constructor
              · intro h; rw [h] at hop; cases hop
              · intro o o' h h'
                rw [h] at hop; injection hop with hop; subst hop
                injection h' with h'
                subst h'
                exact ⟨rfl, le_refl _⟩

theorem opMono_finalizeOperation (cfg : Config) (env : Env) (s : State) :
    OpMono s (finalizeOperation cfg env s) := by
  cases hop : s.operation with
  | none => rw [finalizeOperation_none cfg env s hop]; exact opMono_refl s
  | some op =>
      by_cases hst : op.status = Status.stable
      · rw [finalizeOperation_stable cfg env s op hop hst]; exact opMono_refl s
      · cases hmp : cfg.maintainPosition with
        | false => exact opMono_of_none (by rw [finalizeOperation_noMp cfg env s op hop hst hmp])
        | true =>
            cases hp : op.isPinned with
            | false =>
                rw [finalizeOperation_mp cfg env s op hop hst hmp hp]
                constructor
                · intro h; rw [h] at hop; cases hop
                · intro o o' h h'
                  rw [h] at hop; injection hop with hop; subst hop
                  injection h' with h'
                  subst h'
                  exact ⟨rfl, le_refl _⟩
            | true =>
                rw [finalizeOperation_mp_pinned cfg env s op hop hst hmp hp]
                constructor
                · intro h; rw [h] at hop; cases hop
                · intro o o' h h'
                  rw [h] at hop; injection hop with hop; subst hop
                  injection h' with h'
                  subst h'
                  exact ⟨rfl, le_refl _⟩

/-- Closer for transitions into an explicitly given operation record. -/
theorem opMono_to_lit (s : State) (op : ScrollOperation) (hop : s.operation = some op)
    (t : State) (op' : ScrollOperation) (ht : t.operation = some op')
    (hid : op'.id = op.id) (hcr : op'.correctionsRemaining ≤ op.correctionsRemaining) :
    OpMono s t := by
  constructor
  · intro h; rw [h] at hop; cases hop
  · intro a a' ha ha'
    rw [ha] at hop; injection hop with hop; subst hop
    rw [ha'] at ht; injection ht with ht; subst ht
    exact ⟨hid, hcr⟩

theorem opMono_checkRunMisaligned (cfg : Config) (env : Env)
    (recurse : SchedCall → State → State) (hrec : ∀ c s, OpMono s (recurse c s))
    (al : Alignment) (s : State) : OpMono s (checkRunMisaligned cfg env recurse al s) := by
  have hrec' : ∀ c t, OpMono s t → OpMono s (recurse c t) :=
    fun c t m => opMono_trans m (hrec c t)
  have happ' : ∀ d t, OpMono s t → OpMono s (applyScrollByDelta cfg env d t) :=
    fun d t m => opMono_trans m (opMono_applyScrollByDelta cfg env d t)
  have hperf' : ∀ b t, OpMono s t → OpMono s (performScroll cfg env b t) :=
    fun b t m => opMono_trans m (opMono_performScroll cfg env b t)
  have hfin' : ∀ t, OpMono s t → OpMono s (finalizeOperation cfg env t) :=
    fun t m => opMono_trans m (opMono_finalizeOperation cfg env t)
  have hmodCR : ∀ t, OpMono s t → OpMono s
      (modifyOp (fun o => { o with correctionsRemaining := o.correctionsRemaining - 1 }) t) :=
    fun t m => opMono_trans m (opMono_modifyOp _ t (fun o => rfl)
      (fun o => by show o.correctionsRemaining - 1 ≤ o.correctionsRemaining; omega))
  have hmodSI : ∀ t, OpMono s t → OpMono s
      (modifyOp (fun o => { o with stableIterations := DEFAULT_CORRECTION_SETTLE }) t) :=
    fun t m => opMono_trans m (opMono_modifyOp _ t (fun o => rfl) (fun o => le_refl _))
  unfold checkRunMisaligned
  dsimp only
  repeat' split
  all_goals
    repeat
      first
      | exact opMono_refl s
      | apply hrec'
      | apply happ'
      | apply hperf'
      | apply hfin'
      | apply hmodCR
      | apply hmodSI

/-- The scheduling handlers never resurrect a discarded operation, never
change the active operation's id, and never increase its budget. -/
theorem opMono_schedDispatch (cfg : Config) (env : Env) :
    ∀ fuel c s, OpMono s (schedDispatch cfg env fuel c s) := by
  refine schedDispatch_rel cfg env OpMono opMono_refl ?_
  intro recurse hrec c s
  have hrec' : ∀ c t, OpMono s t → OpMono s (recurse c t) :=
    fun c t m => opMono_trans m (hrec c t)
  have happ' : ∀ d t, OpMono s t → OpMono s (applyScrollByDelta cfg env d t) :=
    fun d t m => opMono_trans m (opMono_applyScrollByDelta cfg env d t)
  have hperf' : ∀ b t, OpMono s t → OpMono s (performScroll cfg env b t) :=
    fun b t m => opMono_trans m (opMono_performScroll cfg env b t)
  have hfin' : ∀ t, OpMono s t → OpMono s (finalizeOperation cfg env t) :=
    fun t m => opMono_trans m (opMono_finalizeOperation cfg env t)
  have hmis' : ∀ al t, OpMono s t → OpMono s (checkRunMisaligned cfg env recurse al t) :=
    fun al t m => opMono_trans m (opMono_checkRunMisaligned cfg env recurse hrec al t)
  have hmodCR : ∀ t, OpMono s t → OpMono s
      (modifyOp (fun o => { o with correctionsRemaining := o.correctionsRemaining - 1 }) t) :=
    fun t m => opMono_trans m (opMono_modifyOp _ t (fun o => rfl)
      (fun o => by show o.correctionsRemaining - 1 ≤ o.correctionsRemaining; omega))
  have hmodSI : ∀ t, OpMono s t → OpMono s
      (modifyOp (fun o => { o with stableIterations := DEFAULT_CORRECTION_SETTLE }) t) :=
    fun t m => opMono_trans m (opMono_modifyOp _ t (fun o => rfl) (fun o => le_refl _))
  have hmodSIdec : ∀ t, OpMono s t → OpMono s
      (modifyOp (fun o => { o with stableIterations := o.stableIterations - 1 }) t) :=
    fun t m => opMono_trans m (opMono_modifyOp _ t (fun o => rfl) (fun o => le_refl _))
  have hmodSTI : ∀ t, OpMono s t → OpMono s
      (modifyOp (fun o => { o with stabilityTimeoutId := none }) t) :=
    fun t m => opMono_trans m (opMono_modifyOp _ t (fun o => rfl) (fun o => le_refl _))
  have hmodSFI : ∀ t, OpMono s t → OpMono s
      (modifyOp (fun o => { o with scheduleFrameId := none }) t) :=
    fun t m => opMono_trans m (opMono_modifyOp _ t (fun o => rfl) (fun o => le_refl _))
  have hmodPC : ∀ t, OpMono s t → OpMono s
      (modifyOp (fun o => { o with pendingCorrection := false, scheduleFrameId := none }) t) :=
    fun t m => opMono_trans m (opMono_modifyOp _ t (fun o => rfl) (fun o => le_refl _))
  cases c with
  | schedStability =>
      show OpMono s (schedStabilityBody env recurse s)
      cases hop : s.operation with
      | none => unfold schedStabilityBody; rw [hop]; exact opMono_refl s
      | some op =>
          unfold schedStabilityBody
          rw [clearStabilityTimeout_eq s op hop, hop]
          dsimp only
          repeat' split
          all_goals
            repeat
              first
              | exact opMono_refl s
              | exact opMono_to_lit s op hop _ { op with stabilityTimeoutId := none }
                  (by rfl) rfl (le_refl _)
              | exact opMono_to_lit s op hop _
                  { op with stabilityTimeoutId := some op.id } (by rfl) rfl (le_refl _)
              | apply hrec'
              | apply hmodSTI
  | checkRun k =>
      show OpMono s (checkRunBody cfg env recurse k s)
      cases hop : s.operation with
      | none => unfold checkRunBody; rw [hop]; exact opMono_refl s
      | some op =>
          unfold checkRunBody
          rw [hop]
          dsimp only
          repeat' split
          all_goals
            repeat
              first
              | exact opMono_refl s
              | exact opMono_to_lit s op hop _ { op with stabilityTimeoutId := none }
                  (by rfl) rfl (le_refl _)
              | apply hrec'
              | apply hfin'
              | apply hmis'
              | apply hmodSIdec
  | schedCorrection =>
      show OpMono s (schedCorrectionBody env recurse s)
      cases hop : s.operation with
      | none => unfold schedCorrectionBody; rw [hop]; exact opMono_refl s
      | some op =>
          unfold schedCorrectionBody
          rw [hop]
          dsimp only
          repeat' split
          all_goals
            repeat
              first
              | exact opMono_refl s
              | exact opMono_to_lit s op hop _ { op with pendingCorrection := true }
                  (by rfl) rfl (le_refl _)
              | exact opMono_to_lit s op hop _ { op with pendingCorrection := true, scheduleFrameId := some op.id } (by rfl) rfl (le_refl _)
              | apply hrec'
              | apply hmodSFI
  | execCorrection k =>
      show OpMono s (execCorrectionBody cfg env recurse k s)
      cases hop : s.operation with
      | none => unfold execCorrectionBody; rw [hop]; exact opMono_refl s
      | some op =>
          unfold execCorrectionBody
          rw [hop]
          dsimp only
          repeat' split
          all_goals
            repeat
              first
              | exact opMono_refl s
              | apply hrec'
              | apply happ'
              | apply hperf'
              | apply hfin'
              | apply hmodCR
              | apply hmodPC
  | schedAnchor d =>
      show OpMono s (schedAnchorBody cfg env recurse d s)
      cases hop : s.operation with
      | none => unfold schedAnchorBody; rw [hop]; exact opMono_refl s
      | some op =>
          unfold schedAnchorBody
          rw [hop]
          dsimp only
          repeat' split
          all_goals
            repeat
              first
              | exact opMono_refl s
              | exact opMono_to_lit s op hop _
                  { op with pendingAnchorDelta := op.pendingAnchorDelta + d }
                  (by rfl) rfl (le_refl _)
              | exact opMono_to_lit s op hop _ { op with pendingAnchorDelta := op.pendingAnchorDelta + d, anchorFrameId := some op.id } (by rfl) rfl (le_refl _)
              | exact opMono_to_lit s op hop _
                  { op with pendingAnchorDelta := 0 } (by rfl) rfl (le_refl _)
              | apply hrec'
              | apply happ'
              | apply hmodSI
  | commitAnchorRun k =>
      show OpMono s (commitAnchorBody cfg env recurse k s)
      cases hop : s.operation with
      | none => unfold commitAnchorBody; rw [hop]; exact opMono_refl s
      | some op =>
          unfold commitAnchorBody
          rw [hop]
          dsimp only
          repeat' split
          all_goals
            repeat
              first
              | exact opMono_refl s
              | exact opMono_to_lit s op hop _ { op with anchorFrameId := none }
                  (by rfl) rfl (le_refl _)
              | exact opMono_to_lit s op hop _ { op with pendingAnchorDelta := 0, anchorFrameId := none } (by rfl) rfl (le_refl _)
              | apply hrec'
              | apply happ'
              | apply hmodSI

theorem opMono_measureBelowAnchored (cfg : Config) (env : Env) (fuel : Nat) (delta : ℚ)
    (s : State) : OpMono s (measureBelowAnchored cfg env fuel delta s) := by
  have hd' : ∀ c t, OpMono s t → OpMono s (schedDispatch cfg env fuel c t) :=
    fun c t m => opMono_trans m (opMono_schedDispatch cfg env fuel c t)
  have hmodSI : ∀ t, OpMono s t → OpMono s
      (modifyOp (fun o => { o with stableIterations := DEFAULT_CORRECTION_SETTLE }) t) :=
    fun t m => opMono_trans m (opMono_modifyOp _ t (fun o => rfl) (fun o => le_refl _))
  unfold measureBelowAnchored scheduleAnchorAdjustment scheduleCorrection scheduleStabilityCheck
  dsimp only
  repeat' split
  all_goals
    repeat
      first
      | exact opMono_refl s
      | apply hd'
      | apply hmodSI

theorem opMono_measureBelowPlain (cfg : Config) (env : Env) (fuel : Nat) (s : State) :
    OpMono s (measureBelowPlain cfg env fuel s) := by
  have hd' : ∀ c t, OpMono s t → OpMono s (schedDispatch cfg env fuel c t) :=
    fun c t m => opMono_trans m (opMono_schedDispatch cfg env fuel c t)
  have hmodSI : ∀ t, OpMono s t → OpMono s
      (modifyOp (fun o => { o with stableIterations := DEFAULT_CORRECTION_SETTLE }) t) :=
    fun t m => opMono_trans m (opMono_modifyOp _ t (fun o => rfl) (fun o => le_refl _))
  unfold measureBelowPlain scheduleCorrection scheduleStabilityCheck
  dsimp only
  repeat' split
  all_goals
    repeat
      first
      | exact opMono_refl s
      | apply hd'
      | apply hmodSI

theorem opMono_measureAtTarget (cfg : Config) (env : Env) (fuel : Nat) (delta : ℚ)
    (mp iap : Bool) (s : State) : OpMono s (measureAtTarget cfg env fuel delta mp iap s) := by
  have hd' : ∀ c t, OpMono s t → OpMono s (schedDispatch cfg env fuel c t) :=
    fun c t m => opMono_trans m (opMono_schedDispatch cfg env fuel c t)
  have hperf' : ∀ b t, OpMono s t → OpMono s (performScroll cfg env b t) :=
    fun b t m => opMono_trans m (opMono_performScroll cfg env b t)
  have hmodSI : ∀ t, OpMono s t → OpMono s
      (modifyOp (fun o => { o with stableIterations := DEFAULT_CORRECTION_SETTLE }) t) :=
    fun t m => opMono_trans m (opMono_modifyOp _ t (fun o => rfl) (fun o => le_refl _))
  have hmodHMT : ∀ t, OpMono s t → OpMono s
      (modifyOp (fun o => { o with hasMeasuredTarget := true }) t) :=
    fun t m => opMono_trans m (opMono_modifyOp _ t (fun o => rfl) (fun o => le_refl _))
  have hmodIAP : ∀ t, OpMono s t → OpMono s
      (modifyOp (fun o => { o with initialAlignmentPerformed := true }) t) :=
    fun t m => opMono_trans m (opMono_modifyOp _ t (fun o => rfl) (fun o => le_refl _))
  unfold measureAtTarget scheduleAnchorAdjustment scheduleCorrection scheduleStabilityCheck
  dsimp only
  repeat' split
  all_goals
    repeat
      first
      | exact opMono_refl s
      | apply hd'
      | apply hperf'
      | apply hmodSI
      | apply hmodHMT
      | apply hmodIAP

theorem opMono_handleItemMeasured (cfg : Config) (env : Env) (fuel : Nat)
    (index : Nat) (size delta : ℚ) (s : State) :
    OpMono s (handleItemMeasured cfg env fuel index size delta s) := by
  have happ' : ∀ d t, OpMono s t → OpMono s (applyScrollByDelta cfg env d t) :=
    fun d t m => opMono_trans m (opMono_applyScrollByDelta cfg env d t)
  have hperf' : ∀ b t, OpMono s t → OpMono s (performScroll cfg env b t) :=
    fun b t m => opMono_trans m (opMono_performScroll cfg env b t)
  have hd' : ∀ c t, OpMono s t → OpMono s (schedDispatch cfg env fuel c t) :=
    fun c t m => opMono_trans m (opMono_schedDispatch cfg env fuel c t)
  have hba' : ∀ d t, OpMono s t → OpMono s (measureBelowAnchored cfg env fuel d t) :=
    fun d t m => opMono_trans m (opMono_measureBelowAnchored cfg env fuel d t)
  have hbp' : ∀ t, OpMono s t → OpMono s (measureBelowPlain cfg env fuel t) :=
    fun t m => opMono_trans m (opMono_measureBelowPlain cfg env fuel t)
  have hat' : ∀ d mp iap t, OpMono s t → OpMono s (measureAtTarget cfg env fuel d mp iap t) :=
    fun d mp iap t m => opMono_trans m (opMono_measureAtTarget cfg env fuel d mp iap t)
  have hmodSI : ∀ t, OpMono s t → OpMono s
      (modifyOp (fun o => { o with stableIterations := DEFAULT_CORRECTION_SETTLE }) t) :=
    fun t m => opMono_trans m (opMono_modifyOp _ t (fun o => rfl) (fun o => le_refl _))
  have hmodHMT : ∀ t, OpMono s t → OpMono s
      (modifyOp (fun o => { o with hasMeasuredTarget := true }) t) :=
    fun t m => opMono_trans m (opMono_modifyOp _ t (fun o => rfl) (fun o => le_refl _))
  have hmodIAP : ∀ t, OpMono s t → OpMono s
      (modifyOp (fun o => { o with initialAlignmentPerformed := true }) t) :=
    fun t m => opMono_trans m (opMono_modifyOp _ t (fun o => rfl) (fun o => le_refl _))
  cases hop : s.operation with
  | none => unfold handleItemMeasured; rw [hop]; exact opMono_refl s
  | some op =>
      unfold handleItemMeasured
      rw [hop]
      unfold scheduleStabilityCheck
      dsimp only
      repeat' first
        | exact opMono_refl s
        | exact opMono_to_lit s op hop _
            { op with lastMeasurementTimestamp := env.now } (by rfl) rfl (le_refl _)
        | apply happ'
        | apply hperf'
        | apply hd'
        | apply hba'
        | apply hbp'
        | apply hat'
        | apply hmodSI
        | apply hmodHMT
        | apply hmodIAP
        | split

theorem opMono_handleRendered (cfg : Config) (env : Env) (fuel : Nat)
    (index : Nat) (s : State) :
    OpMono s (handleRendered cfg env fuel index s).1 := by
  have hrec' : ∀ f c t, OpMono s t → OpMono s (schedDispatch cfg env f c t) :=
    fun f c t m => opMono_trans m (opMono_schedDispatch cfg env f c t)
  cases hop : s.operation with
  | none => unfold handleRendered; rw [hop]; exact opMono_refl s
  | some op =>
      unfold handleRendered
      rw [hop]
      unfold scheduleCorrection scheduleStabilityCheck
      dsimp only
      repeat' split
      all_goals
        repeat
          first
          | exact opMono_refl s
          | apply hrec'

theorem opMono_scrollListenerBody (s : State) : OpMono s (scrollListenerBody s) := by
  cases hop : s.operation with
  | none => unfold scrollListenerBody; rw [hop]; exact opMono_refl s
  | some op =>
      unfold scrollListenerBody
      rw [hop]
      show OpMono s
        (if op.isProgrammaticScroll = true then s else clearOperation (some CancelReason.user) s)
      split
      · exact opMono_refl s
      · exact opMono_clearOperation _ s

theorem opMono_pinTimerBody (k : Nat) (s : State) : OpMono s (pinTimerBody k s) := by
  cases hop : s.operation with
  | none => unfold pinTimerBody; rw [hop]; exact opMono_refl s
  | some op =>
      unfold pinTimerBody
      rw [hop]
      show OpMono s (if op.id ≠ k then s else releasePin s)
      split
      · exact opMono_refl s
      · exact opMono_releasePin s

theorem opMono_programmaticResetBody (k : Nat) (s : State) :
    OpMono s (programmaticResetBody k s) := by
  cases hop : s.operation with
  | none => unfold programmaticResetBody; rw [hop]; exact opMono_refl s
  | some op =>
      unfold programmaticResetBody
      rw [hop]
      show OpMono s (if op.id ≠ k then s
        else { s with operation := some { op with isProgrammaticScroll := false } })
      split
      · exact opMono_refl s
      · exact opMono_to_lit s op hop _ { op with isProgrammaticScroll := false }
          (by rfl) rfl (le_refl _)

/-- Replacing only the scheduling channels is `OpMono`. -/
theorem opMono_setSched (s : State) (sch : Sched) : OpMono s { s with sched := sch } :=
  opMono_of_eqOp rfl

/-- Every external event except a superseding `start` preserves the active
operation's id and never increases its budget. -/
theorem opMono_step_nonStart (cfg : Config) (env : Env) (fuel : Nat) (s : State)
    (e : ExtEvent) (he : ∀ i b c, e ≠ ExtEvent.callStart i b c) :
    OpMono s (step cfg env fuel s e) := by
  cases e with
  | callStart i b c => exact absurd rfl (he i b c)
  | callHandleItemMeasured i sz d => exact opMono_handleItemMeasured cfg env fuel i sz d s
  | callHandleRendered i => exact opMono_handleRendered cfg env fuel i s
  | callCancel => exact opMono_clearOperation _ s
  | scrollObserved =>
      show OpMono s (if s.listenerAttached then scrollListenerBody s else s)
      split
      · exact opMono_scrollListenerBody s
      · exact opMono_refl s
  | fireStability =>
      show OpMono s (match s.sched.stability with
        | none => s
        | some k => runCheck cfg env fuel k
            { s with sched := { s.sched with stability := none } })
      cases hsl : s.sched.stability with
      | none => exact opMono_refl s
      | some k =>
          exact opMono_trans (opMono_setSched s _) (opMono_schedDispatch cfg env fuel _ _)
  | fireCorrection =>
      show OpMono s (match s.sched.correction with
        | none => s
        | some k => executeCorrection cfg env fuel k
            { s with sched := { s.sched with correction := none } })
      cases hsl : s.sched.correction with
      | none => exact opMono_refl s
      | some k =>
          exact opMono_trans (opMono_setSched s _) (opMono_schedDispatch cfg env fuel _ _)
  | fireAnchorFrame =>
      show OpMono s (match s.sched.anchorFrame with
        | none => s
        | some k => commitAnchor cfg env fuel k
            { s with sched := { s.sched with anchorFrame := none } })
      cases hsl : s.sched.anchorFrame with
      | none => exact opMono_refl s
      | some k =>
          exact opMono_trans (opMono_setSched s _) (opMono_schedDispatch cfg env fuel _ _)
  | fireAnchorTimeout =>
      show OpMono s (match s.sched.anchorTimeout with
        | none => s
        | some k => commitAnchor cfg env fuel k
            { s with sched := { s.sched with anchorTimeout := none } })
      cases hsl : s.sched.anchorTimeout with
      | none => exact opMono_refl s
      | some k =>
          exact opMono_trans (opMono_setSched s _) (opMono_schedDispatch cfg env fuel _ _)
  | firePin =>
      show OpMono s (match s.sched.pin with
        | none => s
        | some k => pinTimerBody k { s with sched := { s.sched with pin := none } })
      cases hsl : s.sched.pin with
      | none => exact opMono_refl s
      | some k =>
          exact opMono_trans (opMono_setSched s _) (opMono_pinTimerBody k _)
  | fireProgrammaticReset =>
      show OpMono s (match s.sched.programmatic with
        | none => s
        | some k => programmaticResetBody k { s with sched := { s.sched with programmatic := none } })
      cases hsl : s.sched.programmatic with
      | none => exact opMono_refl s
      | some k =>
          exact opMono_trans (opMono_setSched s _) (opMono_programmaticResetBody k _)

theorem cancelPres_refl (s : State) : CancelPres s s := fun _ _ h => h

theorem cancelPres_trans {s t u : State} (h1 : CancelPres s t) (h2 : CancelPres t u) :
    CancelPres s u := fun i r h => h1 i r (h2 i r h)

theorem cancelPres_of_eqEvents {s t : State} (h : t.events = s.events) : CancelPres s t := by
  intro i r hm; rw [h] at hm; exact hm

theorem cancelPres_of_suffix {s t : State} (l : List Event) (h : t.events = s.events ++ l)
    (hl : ∀ i r, Event.operationCancel i r ∈ l → False) : CancelPres s t := by
  intro i r hm
  rw [h] at hm
  rcases List.mem_append.1 hm with hm | hm
  · exact hm
  · exact absurd hm (fun hx => hl i r hx)

theorem cancelPres_applyScrollByDelta (cfg : Config) (env : Env) (delta : ℚ) (s : State) :
    CancelPres s (applyScrollByDelta cfg env delta s) := by
  cases hop : s.operation with
  | none => unfold applyScrollByDelta; rw [hop]; exact cancelPres_refl s
  | some op =>
      cases hv : env.scrollViewPresent with
      | false => rw [applyScrollByDelta_noView cfg env delta s hv]; exact cancelPres_refl s
      | true =>
          by_cases hd : delta = 0
          · subst hd; rw [applyScrollByDelta_zero]; exact cancelPres_refl s
          · rw [applyScrollByDelta_eq cfg env delta s op hop hv hd]
            exact cancelPres_of_suffix _ rfl (by intro i r hm; simp at hm)

theorem cancelPres_performScroll (cfg : Config) (env : Env) (behavior : Behavior) (s : State) :
    CancelPres s (performScroll cfg env behavior s) := by
  cases hop : s.operation with
  | none => rw [performScroll_none cfg env behavior s hop]; exact cancelPres_refl s
  | some op =>
      cases hfast : (!cfg.reversed && cfg.axisVertical && env.getOffsetProvided) with
      | false =>
          rw [performScroll_fallback cfg env behavior s op hop (Or.inl hfast)]
          exact cancelPres_of_suffix _ rfl (by intro i r hm; simp at hm)
      | true =>
          cases hoff : env.offsetForTarget with
          | none =>
              rw [performScroll_fallback cfg env behavior s op hop (Or.inr (Or.inl hoff))]
              exact cancelPres_of_suffix _ rfl (by intro i r hm; simp at hm)
          | some offset =>
              cases hv : env.scrollViewPresent with
              | false =>
                  rw [performScroll_fallback cfg env behavior s op hop (Or.inr (Or.inr hv))]
                  exact cancelPres_of_suffix _ rfl (by intro i r hm; simp at hm)
              | true =>
                  rw [performScroll_offset cfg env behavior s op offset hop hfast hoff hv]
                  exact cancelPres_of_suffix _ rfl (by intro i r hm; simp at hm)

theorem cancelPres_clearOperationNone (s : State) :
    CancelPres s (clearOperation none s) := by
  cases hop : s.operation with
  | none => rw [clearOperation_none none s hop]; exact cancelPres_refl s
  | some op =>
      rw [clearOperation_eq none s op hop]
      exact cancelPres_of_suffix [Event.flagged none] (by simp)
        (by intro i r hm; simp at hm)

theorem cancelPres_releasePin (s : State) : CancelPres s (releasePin s) := by
  cases hop : s.operation with
  | none => rw [releasePin_none s hop]; exact cancelPres_refl s
  | some op =>
      cases hp : op.isPinned with
      | false => rw [releasePin_notPinned s op hop hp]; exact cancelPres_refl s
      | true =>
          rw [releasePin_eq s op hop hp]
          exact cancelPres_of_suffix _ rfl (by intro i r hm; simp at hm)

theorem cancelPres_startPin (cfg : Config) (env : Env) (s : State) :
    CancelPres s (startPin cfg env s) := by
  cases hop : s.operation with
  | none => unfold startPin; rw [hop]; exact cancelPres_refl s
  | some op =>
      cases hmp : cfg.maintainPosition with
      | false => rw [startPin_notMp cfg env s hmp]; exact cancelPres_refl s
      | true =>
          cases hp : op.isPinned with
          | true => rw [startPin_pinned cfg env s op hop hp]; exact cancelPres_refl s
          | false => rw [startPin_eq cfg env s op hop hmp hp]; exact cancelPres_of_eqEvents rfl

theorem cancelPres_finalizeOperation (cfg : Config) (env : Env) (s : State) :
    CancelPres s (finalizeOperation cfg env s) := by
  cases hop : s.operation with
  | none => rw [finalizeOperation_none cfg env s hop]; exact cancelPres_refl s
  | some op =>
      by_cases hst : op.status = Status.stable
      · rw [finalizeOperation_stable cfg env s op hop hst]; exact cancelPres_refl s
      · cases hmp : cfg.maintainPosition with
        | false =>
            rw [finalizeOperation_noMp cfg env s op hop hst hmp]
            refine cancelPres_of_suffix
              ((if op.hasCallback then [Event.opCallback op.targetIndex] else []) ++
                [Event.operationComplete op.targetIndex, Event.flagged none] ++
                [Event.pinReleased op.targetIndex]) (by simp) ?_
            intro i r hm
            rcases op.hasCallback with _ | _ <;> simp at hm
        | true =>
            cases hp : op.isPinned with
            | false =>
                rw [finalizeOperation_mp cfg env s op hop hst hmp hp]
                refine cancelPres_of_suffix
                  ((if op.hasCallback then [Event.opCallback op.targetIndex] else []) ++
                    [Event.operationComplete op.targetIndex, Event.flagged none]) (by simp) ?_
                intro i r hm
                rcases op.hasCallback with _ | _ <;> simp at hm
            | true =>
                rw [finalizeOperation_mp_pinned cfg env s op hop hst hmp hp]
                refine cancelPres_of_suffix
                  ((if op.hasCallback then [Event.opCallback op.targetIndex] else []) ++
                    [Event.operationComplete op.targetIndex, Event.flagged none]) (by simp) ?_
                intro i r hm
                rcases op.hasCallback with _ | _ <;> simp at hm

theorem cancelPres_checkRunMisaligned (cfg : Config) (env : Env)
    (recurse : SchedCall → State → State) (hrec : ∀ c s, CancelPres s (recurse c s))
    (al : Alignment) (s : State) : CancelPres s (checkRunMisaligned cfg env recurse al s) := by
  have hrec' : ∀ c t, CancelPres s t → CancelPres s (recurse c t) :=
    fun c t m => cancelPres_trans m (hrec c t)
  have happ' : ∀ d t, CancelPres s t → CancelPres s (applyScrollByDelta cfg env d t) :=
    fun d t m => cancelPres_trans m (cancelPres_applyScrollByDelta cfg env d t)
  have hperf' : ∀ b t, CancelPres s t → CancelPres s (performScroll cfg env b t) :=
    fun b t m => cancelPres_trans m (cancelPres_performScroll cfg env b t)
  have hfin' : ∀ t, CancelPres s t → CancelPres s (finalizeOperation cfg env t) :=
    fun t m => cancelPres_trans m (cancelPres_finalizeOperation cfg env t)
  have hmodCR : ∀ t, CancelPres s t → CancelPres s
      (modifyOp (fun o => { o with correctionsRemaining := o.correctionsRemaining - 1 }) t) :=
    fun t m => cancelPres_trans m (cancelPres_of_eqEvents rfl)
  have hmodSI : ∀ t, CancelPres s t → CancelPres s
      (modifyOp (fun o => { o with stableIterations := DEFAULT_CORRECTION_SETTLE }) t) :=
    fun t m => cancelPres_trans m (cancelPres_of_eqEvents rfl)
  unfold checkRunMisaligned
  dsimp only
  repeat' split
  all_goals repeat first
    | exact cancelPres_refl s
    | apply hrec'
    | apply happ'
    | apply hperf'
    | apply hfin'
    | apply hmodCR
    | apply hmodSI
  all_goals repeat' split
  all_goals repeat first
    | exact cancelPres_refl s
    | apply hrec'
    | apply happ'
    | apply hperf'
    | apply hfin'
    | apply hmodCR
    | apply hmodSI
  all_goals repeat' split
  all_goals repeat first
    | exact cancelPres_refl s
    | apply hrec'
    | apply happ'
    | apply hperf'
    | apply hfin'
    | apply hmodCR
    | apply hmodSI

/-- The scheduling handlers never log a cancellation notification. -/
theorem cancelPres_schedDispatch (cfg : Config) (env : Env) :
    ∀ fuel c s, CancelPres s (schedDispatch cfg env fuel c s) := by
  refine schedDispatch_rel cfg env CancelPres cancelPres_refl ?_
  intro recurse hrec c s
  have hrec' : ∀ c t, CancelPres s t → CancelPres s (recurse c t) :=
    fun c t m => cancelPres_trans m (hrec c t)
  have happ' : ∀ d t, CancelPres s t → CancelPres s (applyScrollByDelta cfg env d t) :=
    fun d t m => cancelPres_trans m (cancelPres_applyScrollByDelta cfg env d t)
  have hperf' : ∀ b t, CancelPres s t → CancelPres s (performScroll cfg env b t) :=
    fun b t m => cancelPres_trans m (cancelPres_performScroll cfg env b t)
  have hfin' : ∀ t, CancelPres s t → CancelPres s (finalizeOperation cfg env t) :=
    fun t m => cancelPres_trans m (cancelPres_finalizeOperation cfg env t)
  have hmis' : ∀ al t, CancelPres s t → CancelPres s (checkRunMisaligned cfg env recurse al t) :=
    fun al t m => cancelPres_trans m (cancelPres_checkRunMisaligned cfg env recurse hrec al t)
  have hmodSTI : ∀ t, CancelPres s t → CancelPres s
      (modifyOp (fun o => { o with stabilityTimeoutId := none }) t) :=
    fun t m => cancelPres_trans m (cancelPres_of_eqEvents rfl)
  have hmodSIdec : ∀ t, CancelPres s t → CancelPres s
      (modifyOp (fun o => { o with stableIterations := o.stableIterations - 1 }) t) :=
    fun t m => cancelPres_trans m (cancelPres_of_eqEvents rfl)
  have hmodCR : ∀ t, CancelPres s t → CancelPres s
      (modifyOp (fun o => { o with correctionsRemaining := o.correctionsRemaining - 1 }) t) :=
    fun t m => cancelPres_trans m (cancelPres_of_eqEvents rfl)
  have hmodSFI : ∀ t, CancelPres s t → CancelPres s
      (modifyOp (fun o => { o with scheduleFrameId := none }) t) :=
    fun t m => cancelPres_trans m (cancelPres_of_eqEvents rfl)
  have hmodPC : ∀ t, CancelPres s t → CancelPres s
      (modifyOp (fun o => { o with pendingCorrection := false, scheduleFrameId := none }) t) :=
    fun t m => cancelPres_trans m (cancelPres_of_eqEvents rfl)
  have hmodSI : ∀ t, CancelPres s t → CancelPres s
      (modifyOp (fun o => { o with stableIterations := DEFAULT_CORRECTION_SETTLE }) t) :=
    fun t m => cancelPres_trans m (cancelPres_of_eqEvents rfl)
  have hlit : ∀ t : State, t.events = s.events → CancelPres s t :=
    fun t h => cancelPres_of_eqEvents h
  cases c with
  | schedStability =>
      show CancelPres s (schedStabilityBody env recurse s)
      cases hop : s.operation with
      | none => unfold schedStabilityBody; rw [hop]; exact cancelPres_refl s
      | some op =>
          unfold schedStabilityBody
          rw [clearStabilityTimeout_eq s op hop, hop]
          dsimp only
          repeat' split
          all_goals repeat first
            | exact cancelPres_refl s
            | exact hlit _ rfl
            | apply hrec'
            | apply hmodSTI
          all_goals repeat' split
          all_goals repeat first
            | exact cancelPres_refl s
            | exact hlit _ rfl
            | apply hrec'
            | apply hmodSTI
          all_goals repeat' split
          all_goals repeat first
            | exact cancelPres_refl s
            | exact hlit _ rfl
            | apply hrec'
            | apply hmodSTI
  | checkRun k =>
      show CancelPres s (checkRunBody cfg env recurse k s)
      cases hop : s.operation with
      | none => unfold checkRunBody; rw [hop]; exact cancelPres_refl s
      | some op =>
          unfold checkRunBody
          rw [hop]
          dsimp only
          repeat' split
          all_goals repeat first
            | exact cancelPres_refl s
            | exact hlit _ rfl
            | apply hrec'
            | apply hfin'
            | apply hmis'
            | apply hmodSIdec
          all_goals repeat' split
          all_goals repeat first
            | exact cancelPres_refl s
            | exact hlit _ rfl
            | apply hrec'
            | apply hfin'
            | apply hmis'
            | apply hmodSIdec
          all_goals repeat' split
          all_goals repeat first
            | exact cancelPres_refl s
            | exact hlit _ rfl
            | apply hrec'
            | apply hfin'
            | apply hmis'
            | apply hmodSIdec
  | schedCorrection =>
      show CancelPres s (schedCorrectionBody env recurse s)
      cases hop : s.operation with
      | none => unfold schedCorrectionBody; rw [hop]; exact cancelPres_refl s
      | some op =>
          unfold schedCorrectionBody
          rw [hop]
          dsimp only
          repeat' split
          all_goals repeat first
            | exact cancelPres_refl s
            | exact hlit _ rfl
            | apply hrec'
            | apply hmodSFI
          all_goals repeat' split
          all_goals repeat first
            | exact cancelPres_refl s
            | exact hlit _ rfl
            | apply hrec'
            | apply hmodSFI
          all_goals repeat' split
          all_goals repeat first
            | exact cancelPres_refl s
            | exact hlit _ rfl
            | apply hrec'
            | apply hmodSFI
  | execCorrection k =>
      show CancelPres s (execCorrectionBody cfg env recurse k s)
      cases hop : s.operation with
      | none => unfold execCorrectionBody; rw [hop]; exact cancelPres_refl s
      | some op =>
          unfold execCorrectionBody
          rw [hop]
          dsimp only
          repeat' split
          all_goals repeat first
            | exact cancelPres_refl s
            | exact hlit _ rfl
            | apply hrec'
            | apply happ'
            | apply hperf'
            | apply hfin'
            | apply hmodCR
            | apply hmodPC
          all_goals repeat' split
          all_goals repeat first
            | exact cancelPres_refl s
            | exact hlit _ rfl
            | apply hrec'
            | apply happ'
            | apply hperf'
            | apply hfin'
            | apply hmodCR
            | apply hmodPC
          all_goals repeat' split
          all_goals repeat first
            | exact cancelPres_refl s
            | exact hlit _ rfl
            | apply hrec'
            | apply happ'
            | apply hperf'
            | apply hfin'
            | apply hmodCR
            | apply hmodPC
  | schedAnchor d =>
      show CancelPres s (schedAnchorBody cfg env recurse d s)
      cases hop : s.operation with
      | none => unfold schedAnchorBody; rw [hop]; exact cancelPres_refl s
      | some op =>
          unfold schedAnchorBody
          rw [hop]
          dsimp only
          repeat' split
          all_goals repeat first
            | exact cancelPres_refl s
            | exact hlit _ rfl
            | apply hrec'
            | apply happ'
            | apply hmodSI
          all_goals repeat' split
          all_goals repeat first
            | exact cancelPres_refl s
            | exact hlit _ rfl
            | apply hrec'
            | apply happ'
            | apply hmodSI
          all_goals repeat' split
          all_goals repeat first
            | exact cancelPres_refl s
            | exact hlit _ rfl
            | apply hrec'
            | apply happ'
            | apply hmodSI
  | commitAnchorRun k =>
      show CancelPres s (commitAnchorBody cfg env recurse k s)
      cases hop : s.operation with
      | none => unfold commitAnchorBody; rw [hop]; exact cancelPres_refl s
      | some op =>
          unfold commitAnchorBody
          rw [hop]
          dsimp only
          repeat' split
          all_goals repeat first
            | exact cancelPres_refl s
            | exact hlit _ rfl
            | apply hrec'
            | apply happ'
            | apply hmodSI
          all_goals repeat' split
          all_goals repeat first
            | exact cancelPres_refl s
            | exact hlit _ rfl
            | apply hrec'
            | apply happ'
            | apply hmodSI
          all_goals repeat' split
          all_goals repeat first
            | exact cancelPres_refl s
            | exact hlit _ rfl
            | apply hrec'
            | apply happ'
            | apply hmodSI

theorem cancelPres_measureBelowAnchored (cfg : Config) (env : Env) (fuel : Nat) (delta : ℚ)
    (s : State) : CancelPres s (measureBelowAnchored cfg env fuel delta s) := by
  have hd' : ∀ c t, CancelPres s t → CancelPres s (schedDispatch cfg env fuel c t) :=
    fun c t m => cancelPres_trans m (cancelPres_schedDispatch cfg env fuel c t)
  have hmodSI : ∀ t, CancelPres s t → CancelPres s
      (modifyOp (fun o => { o with stableIterations := DEFAULT_CORRECTION_SETTLE }) t) :=
    fun t m => cancelPres_trans m (cancelPres_of_eqEvents rfl)
  unfold measureBelowAnchored scheduleAnchorAdjustment scheduleCorrection scheduleStabilityCheck
  dsimp only
  repeat' split
  all_goals repeat first
    | exact cancelPres_refl s
    | apply hd'
    | apply hmodSI
  all_goals repeat' split
  all_goals repeat first
    | exact cancelPres_refl s
    | apply hd'
    | apply hmodSI
  all_goals repeat' split
  all_goals repeat first
    | exact cancelPres_refl s
    | apply hd'
    | apply hmodSI

theorem cancelPres_measureBelowPlain (cfg : Config) (env : Env) (fuel : Nat) (s : State) :
    CancelPres s (measureBelowPlain cfg env fuel s) := by
  have hd' : ∀ c t, CancelPres s t → CancelPres s (schedDispatch cfg env fuel c t) :=
    fun c t m => cancelPres_trans m (cancelPres_schedDispatch cfg env fuel c t)
  have hmodSI : ∀ t, CancelPres s t → CancelPres s
      (modifyOp (fun o => { o with stableIterations := DEFAULT_CORRECTION_SETTLE }) t) :=
    fun t m => cancelPres_trans m (cancelPres_of_eqEvents rfl)
  unfold measureBelowPlain scheduleCorrection scheduleStabilityCheck
  dsimp only
  repeat' split
  all_goals repeat first
    | exact cancelPres_refl s
    | apply hd'
    | apply hmodSI
  all_goals repeat' split
  all_goals repeat first
    | exact cancelPres_refl s
    | apply hd'
    | apply hmodSI
  all_goals repeat' split
  all_goals repeat first
    | exact cancelPres_refl s
    | apply hd'
    | apply hmodSI

theorem cancelPres_measureAtTarget (cfg : Config) (env : Env) (fuel : Nat) (delta : ℚ)
    (mp iap : Bool) (s : State) : CancelPres s (measureAtTarget cfg env fuel delta mp iap s) := by
  have hd' : ∀ c t, CancelPres s t → CancelPres s (schedDispatch cfg env fuel c t) :=
    fun c t m => cancelPres_trans m (cancelPres_schedDispatch cfg env fuel c t)
  have hperf' : ∀ b t, CancelPres s t → CancelPres s (performScroll cfg env b t) :=
    fun b t m => cancelPres_trans m (cancelPres_performScroll cfg env b t)
  have hmodSI : ∀ t, CancelPres s t → CancelPres s
      (modifyOp (fun o => { o with stableIterations := DEFAULT_CORRECTION_SETTLE }) t) :=
    fun t m => cancelPres_trans m (cancelPres_of_eqEvents rfl)
  have hmodHMT : ∀ t, CancelPres s t → CancelPres s
      (modifyOp (fun o => { o with hasMeasuredTarget := true }) t) :=
    fun t m => cancelPres_trans m (cancelPres_of_eqEvents rfl)
  have hmodIAP : ∀ t, CancelPres s t → CancelPres s
      (modifyOp (fun o => { o with initialAlignmentPerformed := true }) t) :=
    fun t m => cancelPres_trans m (cancelPres_of_eqEvents rfl)
  unfold measureAtTarget scheduleAnchorAdjustment scheduleCorrection scheduleStabilityCheck
  dsimp only
  repeat' split
  all_goals repeat first
    | exact cancelPres_refl s
    | apply hd'
    | apply hperf'
    | apply hmodSI
    | apply hmodHMT
    | apply hmodIAP
  all_goals repeat' split
  all_goals repeat first
    | exact cancelPres_refl s
    | apply hd'
    | apply hperf'
    | apply hmodSI
    | apply hmodHMT
    | apply hmodIAP
  all_goals repeat' split
  all_goals repeat first
    | exact cancelPres_refl s
    | apply hd'
    | apply hperf'
    | apply hmodSI
    | apply hmodHMT
    | apply hmodIAP
theorem cancelPres_handleItemMeasured (cfg : Config) (env : Env) (fuel : Nat)
    (index : Nat) (size delta : ℚ) (s : State) :
    CancelPres s (handleItemMeasured cfg env fuel index size delta s) := by
  cases hop : s.operation with
  | none =>
      unfold handleItemMeasured
      rw [hop]
      exact cancelPres_refl s
  | some op =>
      unfold handleItemMeasured
      rw [hop]
      dsimp only
      split
      · split
        · exact cancelPres_applyScrollByDelta cfg env delta s
        · exact cancelPres_refl s
      · split
        · exact cancelPres_refl s
        · have hT : CancelPres s
              { s with operation := some { op with lastMeasurementTimestamp := env.now } } :=
            cancelPres_of_eqEvents rfl
          split
          · split
            · exact cancelPres_trans hT
                (cancelPres_measureBelowAnchored cfg env fuel delta _)
            · exact cancelPres_trans hT (cancelPres_measureBelowPlain cfg env fuel _)
          · split
            · exact cancelPres_trans hT
                (cancelPres_measureAtTarget cfg env fuel delta _ _ _)
            · exact cancelPres_trans hT
                (cancelPres_schedDispatch cfg env fuel SchedCall.schedStability _)
theorem cancelPres_handleRendered (cfg : Config) (env : Env) (fuel : Nat)
    (index : Nat) (s : State) :
    CancelPres s (handleRendered cfg env fuel index s).1 := by
  have hd' : ∀ c t, CancelPres s t → CancelPres s (schedDispatch cfg env fuel c t) :=
    fun c t m => cancelPres_trans m (cancelPres_schedDispatch cfg env fuel c t)
  cases hop : s.operation with
  | none => unfold handleRendered; rw [hop]; exact cancelPres_refl s
  | some op =>
      unfold handleRendered
      rw [hop]
      unfold scheduleCorrection scheduleStabilityCheck
      dsimp only
      repeat' first
        | exact cancelPres_refl s
        | apply hd'
        | split

theorem cancelPres_start (cfg : Config) (env : Env) (fuel : Nat)
    (index : Nat) (behavior : Behavior) (hasCb : Bool) (s : State) :
    CancelPres s (start cfg env fuel index behavior hasCb s) := by
  have hd0 : ∀ t : State, CancelPres s t →
      ∀ c, CancelPres s (schedDispatch cfg env fuel c t) :=
    fun t m c => cancelPres_trans m (cancelPres_schedDispatch cfg env fuel c t)
  have h1 : CancelPres s (if s.operation.isSome then cancelScheduledFrame s else s) := by
    split
    · cases hop : s.operation with
      | none => rw [cancelScheduledFrame_none s hop]; exact cancelPres_refl s
      | some op => rw [cancelScheduledFrame_eq s op hop]; exact cancelPres_of_eqEvents rfl
    · exact cancelPres_refl s
  have h2 : CancelPres s
      (clearOperation none (if s.operation.isSome then cancelScheduledFrame s else s)) :=
    cancelPres_trans h1 (cancelPres_clearOperationNone _)
  have hset : ∀ (u : State) (o : Option ScrollOperation) (n : Nat),
      CancelPres u { u with operation := o, operationIdCounter := n,
                            events := u.events ++ [Event.flagged (some index)] } := by
    intro u o n
    refine cancelPres_of_suffix [Event.flagged (some index)] rfl ?_
    intro i r hm; simp at hm
  have hens : ∀ u : State, CancelPres u (ensureScrollListener env u) := by
    intro u; unfold ensureScrollListener; split
    · exact cancelPres_refl u
    · exact cancelPres_of_eqEvents rfl
  unfold start
  dsimp only
  refine hd0 _ (hd0 _ ?_ _) _
  exact cancelPres_trans (cancelPres_trans (cancelPres_trans h2 (hset _ _ _)) (hens _))
    (cancelPres_performScroll cfg env _ _)

theorem clearStabilityTimeout_events (s : State) :
    (clearStabilityTimeout s).events = s.events := by
  unfold clearStabilityTimeout
  repeat' split
  all_goals rfl

theorem clearPinTimeout_events (s : State) :
    (clearPinTimeout s).events = s.events := by
  unfold clearPinTimeout
  repeat' split
  all_goals rfl

theorem cancelScheduledFrame_events (s : State) :
    (cancelScheduledFrame s).events = s.events := by
  unfold cancelScheduledFrame
  repeat' split
  all_goals rfl

theorem cancelAnchorFrame_events (s : State) :
    (cancelAnchorFrame s).events = s.events := by
  unfold cancelAnchorFrame
  repeat' split
  all_goals rfl

/-- The event suffix `clearOperation` appends when an operation is active:
the cleared flag, then the cancellation notification iff a reason is given. -/
theorem clearOperation_events (r0 : Option CancelReason) (s : State) (op : ScrollOperation)
    (hop : s.operation = some op) :
    (clearOperation r0 s).events = s.events ++ [Event.flagged none] ++
      (match r0 with
       | some r => [Event.operationCancel op.targetIndex r]
       | none => []) := by
  unfold clearOperation
  rw [hop]
  dsimp only
  rw [cancelAnchorFrame_events, cancelScheduledFrame_events, clearPinTimeout_events,
    clearStabilityTimeout_events]

theorem clearOperation_cancel_mem (r : CancelReason) (s : State) (op : ScrollOperation)
    (hop : s.operation = some op) :
    Event.operationCancel op.targetIndex r ∈ (clearOperation (some r) s).events := by
  rw [clearOperation_events (some r) s op hop]
  simp

/-- Any cancellation notification present after `clearOperation` was either
already logged or carries exactly the reason `clearOperation` was given. -/
theorem clearOperation_cancel_src (r0 : Option CancelReason) (s : State) (i : Nat)
    (r : CancelReason)
    (hm : Event.operationCancel i r ∈ (clearOperation r0 s).events) :
    Event.operationCancel i r ∈ s.events ∨ r0 = some r := by
  cases hop : s.operation with
  | none =>
      unfold clearOperation at hm
      rw [hop] at hm
      exact .inl hm
  | some op =>
      rw [clearOperation_events r0 s op hop] at hm
      rcases r0 with _ | r1
      · simp at hm
        exact .inl hm
      · simp [List.mem_append] at hm
        rcases hm with hm | hm
        · exact .inl hm
        · exact .inr (by rw [hm.2])

theorem cancelPres_pinTimerBody (k : Nat) (s : State) : CancelPres s (pinTimerBody k s) := by
  cases hop : s.operation with
  | none => unfold pinTimerBody; rw [hop]; exact cancelPres_refl s
  | some op =>
      unfold pinTimerBody
      rw [hop]
      dsimp only
      split
      · exact cancelPres_refl s
      · exact cancelPres_releasePin s

theorem cancelPres_programmaticResetBody (k : Nat) (s : State) :
    CancelPres s (programmaticResetBody k s) := by
  cases hop : s.operation with
  | none => unfold programmaticResetBody; rw [hop]; exact cancelPres_refl s
  | some op =>
      unfold programmaticResetBody
      rw [hop]
      dsimp only
      split
      · exact cancelPres_refl s
      · exact cancelPres_of_eqEvents rfl

/-- C8: supersession by `start` suppresses the cancellation callback.  After
any external event, every `onOperationCancel` notification in the log either
was already there before the event, or the event was the viewport scroll
listener detecting a user scroll (reason `user`), or the public `cancel()`
(reason `cancelled`) — in particular a `start` that tears down an existing
operation reports nothing.  And the two reporting paths genuinely report:
`cancel()` on an active operation logs `operationCancel(target, cancelled)`,
and an observed scroll with the listener attached and the programmatic flag
clear logs `operationCancel(target, user)`. -/
theorem supersession_suppresses_cancel (cfg : Config) (env : Env) (fuel : Nat)
    (e : ExtEvent) (s : State) :
    (∀ i r, Event.operationCancel i r ∈ (step cfg env fuel s e).events →
        Event.operationCancel i r ∈ s.events ∨
          (e = ExtEvent.scrollObserved ∧ r = CancelReason.user) ∨
          (e = ExtEvent.callCancel ∧ r = CancelReason.cancelled)) ∧
    (∀ op, s.operation = some op →
        Event.operationCancel op.targetIndex CancelReason.cancelled ∈
          (step cfg env fuel s ExtEvent.callCancel).events) ∧
    (∀ op, s.operation = some op → s.listenerAttached = true →
        op.isProgrammaticScroll = false →
        Event.operationCancel op.targetIndex CancelReason.user ∈
          (step cfg env fuel s ExtEvent.scrollObserved).events) := by
  refine ⟨?_, ?_, ?_⟩
  · intro i r hm
    cases e with
    | callStart index behavior hasCb =>
        exact .inl (cancelPres_start cfg env fuel index behavior hasCb s i r hm)
    | callHandleItemMeasured index size delta =>
        exact .inl (cancelPres_handleItemMeasured cfg env fuel index size delta s i r hm)
    | callHandleRendered index =>
        exact .inl (cancelPres_handleRendered cfg env fuel index s i r hm)
    | callCancel =>
        have hm' : Event.operationCancel i r ∈
            (clearOperation (some CancelReason.cancelled) s).events := hm
        rcases clearOperation_cancel_src (some CancelReason.cancelled) s i r hm' with h | h
        · exact .inl h
        · injection h with h
          exact .inr (.inr ⟨rfl, h.symm⟩)
    | scrollObserved =>
        have hm' : Event.operationCancel i r ∈
            (if s.listenerAttached then scrollListenerBody s else s).events := hm
        by_cases hla : s.listenerAttached = true
        · rw [if_pos hla] at hm'
          cases hop : s.operation with
          | none =>
              unfold scrollListenerBody at hm'
              rw [hop] at hm'
              exact .inl hm'
          | some op =>
              unfold scrollListenerBody at hm'
              rw [hop] at hm'
              dsimp only at hm'
              by_cases hpr : op.isProgrammaticScroll = true
              · rw [if_pos hpr] at hm'
                exact .inl hm'
              · rw [if_neg hpr] at hm'
                rcases clearOperation_cancel_src (some CancelReason.user) s i r hm' with h | h
                · exact .inl h
                · injection h with h
                  exact .inr (.inl ⟨rfl, h.symm⟩)
        · rw [if_neg hla] at hm'
          exact .inl hm'
    | fireStability =>
        left
        cases hst : s.sched.stability with
        | none =>
            have hstep : step cfg env fuel s ExtEvent.fireStability = s := by
              unfold step; rw [hst]
            rwa [hstep] at hm
        | some k =>
            have hstep : step cfg env fuel s ExtEvent.fireStability =
                runCheck cfg env fuel k
                  { s with sched := { s.sched with stability := none } } := by
              unfold step; rw [hst]
            rw [hstep] at hm
            exact cancelPres_schedDispatch cfg env fuel (SchedCall.checkRun k)
              { s with sched := { s.sched with stability := none } } i r hm
    | fireCorrection =>
        left
        cases hco : s.sched.correction with
        | none =>
            have hstep : step cfg env fuel s ExtEvent.fireCorrection = s := by
              unfold step; rw [hco]
            rwa [hstep] at hm
        | some k =>
            have hstep : step cfg env fuel s ExtEvent.fireCorrection =
                executeCorrection cfg env fuel k
                  { s with sched := { s.sched with correction := none } } := by
              unfold step; rw [hco]
            rw [hstep] at hm
            exact cancelPres_schedDispatch cfg env fuel (SchedCall.execCorrection k)
              { s with sched := { s.sched with correction := none } } i r hm
    | fireAnchorFrame =>
        left
        cases haf : s.sched.anchorFrame with
        | none =>
            have hstep : step cfg env fuel s ExtEvent.fireAnchorFrame = s := by
              unfold step; rw [haf]
            rwa [hstep] at hm
        | some k =>
            have hstep : step cfg env fuel s ExtEvent.fireAnchorFrame =
                commitAnchor cfg env fuel k
                  { s with sched := { s.sched with anchorFrame := none } } := by
              unfold step; rw [haf]
            rw [hstep] at hm
            exact cancelPres_schedDispatch cfg env fuel (SchedCall.commitAnchorRun k)
              { s with sched := { s.sched with anchorFrame := none } } i r hm
    | fireAnchorTimeout =>
        left
        cases hat : s.sched.anchorTimeout with
        | none =>
            have hstep : step cfg env fuel s ExtEvent.fireAnchorTimeout = s := by
              unfold step; rw [hat]
            rwa [hstep] at hm
        | some k =>
            have hstep : step cfg env fuel s ExtEvent.fireAnchorTimeout =
                commitAnchor cfg env fuel k
                  { s with sched := { s.sched with anchorTimeout := none } } := by
              unfold step; rw [hat]
            rw [hstep] at hm
            exact cancelPres_schedDispatch cfg env fuel (SchedCall.commitAnchorRun k)
              { s with sched := { s.sched with anchorTimeout := none } } i r hm
    | firePin =>
        left
        cases hpi : s.sched.pin with
        | none =>
            have hstep : step cfg env fuel s ExtEvent.firePin = s := by
              unfold step; rw [hpi]
            rwa [hstep] at hm
        | some k =>
            have hstep : step cfg env fuel s ExtEvent.firePin =
                pinTimerBody k { s with sched := { s.sched with pin := none } } := by
              unfold step; rw [hpi]
            rw [hstep] at hm
            exact cancelPres_pinTimerBody k
              { s with sched := { s.sched with pin := none } } i r hm
    | fireProgrammaticReset =>
        left
        cases hpg : s.sched.programmatic with
        | none =>
            have hstep : step cfg env fuel s ExtEvent.fireProgrammaticReset = s := by
              unfold step; rw [hpg]
            rwa [hstep] at hm
        | some k =>
            have hstep : step cfg env fuel s ExtEvent.fireProgrammaticReset =
                programmaticResetBody k
                  { s with sched := { s.sched with programmatic := none } } := by
              unfold step; rw [hpg]
            rw [hstep] at hm
            exact cancelPres_programmaticResetBody k
              { s with sched := { s.sched with programmatic := none } } i r hm
  · intro op hop
    exact clearOperation_cancel_mem CancelReason.cancelled s op hop
  · intro op hop hla hpr
    have hmem := clearOperation_cancel_mem CancelReason.user s op hop
    show Event.operationCancel op.targetIndex CancelReason.user ∈
      (if s.listenerAttached then scrollListenerBody s else s).events
    rw [if_pos hla]
    unfold scrollListenerBody
    rw [hop]
    dsimp only
    rw [if_neg (by simp [hpr])]
    exact hmem

theorem supersession_suppresses_cancel_witness :
    Event.operationCancel 5 CancelReason.cancelled ∈
      (step cfgTight (mkEnv (some rectAligned)) 12 (mkState (some (mkOp 1 5)))
        ExtEvent.callCancel).events ∧
    Event.operationCancel 5 CancelReason.user ∈
      (step cfgTight (mkEnv (some rectAligned)) 12 (mkState (some (mkOp 1 5)))
        ExtEvent.scrollObserved).events :=
  ⟨(supersession_suppresses_cancel cfgTight (mkEnv (some rectAligned)) 12 ExtEvent.callCancel
      (mkState (some (mkOp 1 5)))).2.1 (mkOp 1 5) rfl,
   (supersession_suppresses_cancel cfgTight (mkEnv (some rectAligned)) 12
      ExtEvent.scrollObserved (mkState (some (mkOp 1 5)))).2.2 (mkOp 1 5) rfl rfl rfl⟩

theorem slotLE_none (c : Nat) : SlotLE none c := by
  intro k h
  cases h

theorem slotLE_some {k c : Nat} (h : k ≤ c) : SlotLE (some k) c := by
  intro j hj
  cases hj
  exact h

theorem slotLE_mono {o : Option Nat} {c c' : Nat} (h : SlotLE o c) (hle : c ≤ c') :
    SlotLE o c' := by
  intro k hk
  exact Nat.le_trans (h k hk) hle

/-- `Inv` only inspects the operation, the scheduler and the id counter. -/
theorem inv_congr {cfg : Config} {s t : State} (hop : t.operation = s.operation)
    (hsch : t.sched = s.sched) (hcnt : t.operationIdCounter = s.operationIdCounter)
    (h : Inv cfg s) : Inv cfg t := by
  obtain ⟨hSB, hO⟩ := h
  constructor
  · unfold SlotsBounded at hSB ⊢
    rw [hsch, hcnt]
    exact hSB
  · intro op hopx
    rw [hop] at hopx
    have hx := hO op hopx
    unfold OpInv at hx ⊢
    rw [hsch, hcnt]
    exact hx

theorem inv_clearStabilityTimeout (cfg : Config) (s : State) (h : Inv cfg s) :
    Inv cfg (clearStabilityTimeout s) := by
  cases hop : s.operation with
  | none => rw [clearStabilityTimeout_none s hop]; exact h
  | some op =>
      rw [clearStabilityTimeout_eq s op hop]
      obtain ⟨⟨b1, b2, b3, b4, b5, b6⟩, hO⟩ := h
      obtain ⟨j5, j1a, j1b, j1c, j2a, j2b, j3s, j3c, j3p, j3a, j4⟩ := hO op hop
      refine ⟨⟨?_, b2, b3, b4, b5, b6⟩, ?_⟩
      · dsimp only
        split
        · exact b1
        · exact slotLE_none _
      · intro op' hop'
        injection hop' with hop'
        subst hop'
        refine ⟨j5, j1a, j1b, j1c, j2a, j2b, ?_, j3c, j3p, j3a, j4⟩
        intro hs
        dsimp only at hs
        split at hs
        · exact absurd ‹op.stabilityTimeoutId = none› (j3s hs)
        · exact absurd hs (by intro hx; cases hx)

theorem inv_clearPinTimeout (cfg : Config) (s : State) (h : Inv cfg s) :
    Inv cfg (clearPinTimeout s) := by
  cases hop : s.operation with
  | none => rw [clearPinTimeout_none s hop]; exact h
  | some op =>
      rw [clearPinTimeout_eq s op hop]
      obtain ⟨⟨b1, b2, b3, b4, b5, b6⟩, hO⟩ := h
      obtain ⟨j5, j1a, j1b, j1c, j2a, j2b, j3s, j3c, j3p, j3a, j4⟩ := hO op hop
      refine ⟨⟨b1, ?_, b3, b4, b5, b6⟩, ?_⟩
      · dsimp only
        split
        · exact b2
        · exact slotLE_none _
      · intro op' hop'
        injection hop' with hop'
        subst hop'
        refine ⟨j5, j1a, j1b, j1c, j2a, ?_, j3s, j3c, ?_, j3a, j4⟩
        · intro hmp
          exact ⟨(j2b hmp).1, rfl⟩
        · intro hs
          dsimp only at hs
          split at hs
          · exact absurd ‹op.pinTimeoutId = none› (j3p hs)
          · exact absurd hs (by intro hx; cases hx)

theorem inv_cancelScheduledFrame (cfg : Config) (s : State) (h : Inv cfg s) :
    Inv cfg (cancelScheduledFrame s) := by
  cases hop : s.operation with
  | none => rw [cancelScheduledFrame_none s hop]; exact h
  | some op =>
      rw [cancelScheduledFrame_eq s op hop]
      obtain ⟨⟨b1, b2, b3, b4, b5, b6⟩, hO⟩ := h
      obtain ⟨j5, j1a, j1b, j1c, j2a, j2b, j3s, j3c, j3p, j3a, j4⟩ := hO op hop
      refine ⟨⟨b1, b2, b3, b4, ?_, b6⟩, ?_⟩
      · dsimp only
        split
        · exact b5
        · exact slotLE_none _
      · intro op' hop'
        injection hop' with hop'
        subst hop'
        refine ⟨j5, j1a, j1b, ?_, j2a, j2b, j3s, ?_, j3p, j3a, j4⟩
        · intro hs
          dsimp only at hs
          split at hs
          · exact j1c hs
          · exact absurd hs (by intro hx; cases hx)
        · intro hs
          dsimp only at hs
          split at hs
          · exact absurd ‹op.scheduleFrameId = none› (j3c hs)
          · exact absurd hs (by intro hx; cases hx)

theorem inv_cancelAnchorFrame (cfg : Config) (s : State) (h : Inv cfg s) :
    Inv cfg (cancelAnchorFrame s) := by
  cases hop : s.operation with
  | none => rw [cancelAnchorFrame_none s hop]; exact h
  | some op =>
      rw [cancelAnchorFrame_eq s op hop]
      obtain ⟨⟨b1, b2, b3, b4, b5, b6⟩, hO⟩ := h
      obtain ⟨j5, j1a, j1b, j1c, j2a, j2b, j3s, j3c, j3p, j3a, j4⟩ := hO op hop
      refine ⟨⟨b1, b2, ?_, b4, b5, ?_⟩, ?_⟩
      · dsimp only
        split
        · exact b3
        · exact slotLE_none _
      · dsimp only
        split
        · exact b6
        · exact slotLE_none _
      · intro op' hop'
        injection hop' with hop'
        subst hop'
        refine ⟨j5, j1a, j1b, j1c, j2a, ?_, j3s, j3c, j3p, ?_, ?_⟩
        · intro hmp
          exact ⟨rfl, (j2b hmp).2⟩
        · intro hs
          dsimp only at hs
          rcases hs with hs | hs
          · split at hs
            · exact absurd ‹op.anchorFrameId = none› (j3a (Or.inl hs))
            · exact absurd hs (by intro hx; cases hx)
          · split at hs
            · exact absurd ‹op.anchorFrameId = none› (j3a (Or.inr hs))
            · exact absurd hs (by intro hx; cases hx)
        · intro ⟨hs1, hs2⟩
          dsimp only at hs1 hs2
          split at hs1
          · exact absurd ‹op.anchorFrameId = none› (j3a (Or.inl hs1))
          · exact absurd hs1 (by intro hx; cases hx)

/-- Workhorse: replacing the operation record by one agreeing on every
`Inv`-relevant field, while freely changing scroll position, events and the
programmatic channel, preserves the invariant. -/
theorem inv_update (cfg : Config) (s : State) (op op' : ScrollOperation)
    (hop : s.operation = some op) (h : Inv cfg s)
    (pg : Option Nat) (hpg : SlotLE pg s.operationIdCounter)
    (hid : op'.id = op.id)
    (hcr : op'.correctionsRemaining = op.correctionsRemaining)
    (hpc : op'.pendingCorrection = op.pendingCorrection)
    (hmp : op'.maintainPosition = op.maintainPosition)
    (hsti : op'.stabilityTimeoutId = op.stabilityTimeoutId)
    (hsfi : op'.scheduleFrameId = op.scheduleFrameId)
    (hpti : op'.pinTimeoutId = op.pinTimeoutId)
    (hafi : op'.anchorFrameId = op.anchorFrameId)
    (pos : ℚ) (ev : List Event) :
    Inv cfg { s with operation := some op', scrollPos := pos, events := ev,
                     sched := { s.sched with programmatic := pg } } := by
  obtain ⟨⟨b1, b2, b3, b4, b5, b6⟩, hO⟩ := h
  obtain ⟨j5, j1a, j1b, j1c, j2a, j2b, j3s, j3c, j3p, j3a, j4⟩ := hO op hop
  refine ⟨⟨b1, b2, b3, hpg, b5, b6⟩, ?_⟩
  intro o ho
  injection ho with ho
  subst ho
  refine ⟨?_, ?_, ?_, ?_, ?_, ?_, ?_, ?_, ?_, ?_, ?_⟩
  · rw [hid]; exact j5
  · rw [hcr]; exact j1a
  · rw [hpc, hcr]; exact j1b
  · rw [hid, hpc]; exact j1c
  · rw [hmp]; exact j2a
  · rw [hafi, hpti]; exact j2b
  · rw [hid, hsti]; exact j3s
  · rw [hid, hsfi]; exact j3c
  · rw [hid, hpti]; exact j3p
  · rw [hid, hafi]; exact j3a
  · rw [hid]; exact j4

theorem modifyOp_some (f : ScrollOperation → ScrollOperation) (s : State) (op : ScrollOperation)
    (hop : s.operation = some op) : modifyOp f s = { s with operation := some (f op) } := by
  unfold modifyOp
  rw [hop]
  rfl

theorem modifyOp_none (f : ScrollOperation → ScrollOperation) (s : State)
    (hop : s.operation = none) : modifyOp f s = { s with operation := none } := by
  unfold modifyOp
  rw [hop]
  rfl

/-- `modifyOp` with a field function leaving every `Inv`-relevant field alone. -/
theorem inv_modifyOp (cfg : Config) (f : ScrollOperation → ScrollOperation) (t : State)
    (hf : ∀ o, (f o).id = o.id ∧ (f o).correctionsRemaining = o.correctionsRemaining ∧
      (f o).pendingCorrection = o.pendingCorrection ∧
      (f o).maintainPosition = o.maintainPosition ∧
      (f o).stabilityTimeoutId = o.stabilityTimeoutId ∧
      (f o).scheduleFrameId = o.scheduleFrameId ∧
      (f o).pinTimeoutId = o.pinTimeoutId ∧
      (f o).anchorFrameId = o.anchorFrameId)
    (h : Inv cfg t) : Inv cfg (modifyOp f t) := by
  cases hopt : t.operation with
  | none =>
      rw [modifyOp_none f t hopt]
      exact inv_congr hopt.symm rfl rfl h
  | some o =>
      rw [modifyOp_some f t o hopt]
      obtain ⟨e1, e2, e3, e4, e5, e6, e7, e8⟩ := hf o
      exact inv_update cfg t o (f o) hopt h t.sched.programmatic (h.1.2.2.2.1)
        e1 e2 e3 e4 e5 e6 e7 e8 t.scrollPos t.events

/-- Guarded budget decrement: with a strictly positive live budget the
decrement keeps every budget bound. -/
theorem inv_modifyOp_dec (cfg : Config) (t : State) (h : Inv cfg t) (hcr : 0 < opCR t) :
    Inv cfg (modifyOp (fun o => { o with correctionsRemaining := o.correctionsRemaining - 1 })
      t) := by
  cases hopt : t.operation with
  | none =>
      rw [modifyOp_none _ t hopt]
      exact inv_congr hopt.symm rfl rfl h
  | some o =>
      rw [modifyOp_some _ t o hopt]
      obtain ⟨hSB, hO⟩ := h
      obtain ⟨j5, j1a, j1b, j1c, j2a, j2b, j3s, j3c, j3p, j3a, j4⟩ := hO o hopt
      have hcr' : 0 < o.correctionsRemaining := by
        unfold opCR at hcr
        rw [hopt] at hcr
        exact hcr
      refine ⟨hSB, ?_⟩
      intro o' ho
      injection ho with ho
      subst ho
      refine ⟨j5, ?_, ?_, j1c, j2a, j2b, j3s, j3c, j3p, j3a, j4⟩
      · show -1 ≤ o.correctionsRemaining - 1
        omega
      · intro _
        show 0 ≤ o.correctionsRemaining - 1
        omega

/-- The back-to-back budget/flag update `executeCorrection` performs, under
its calling contract (live entry implies a pending correction whose armed
frame slot has already been consumed). -/
theorem inv_execUpdate (cfg : Config) (t : State) (o : ScrollOperation)
    (hop : t.operation = some o) (h : Inv cfg t)
    (hpend : o.pendingCorrection = true)
    (hslot : t.sched.correction ≠ some o.id) :
    Inv cfg (modifyOp (fun x => { x with pendingCorrection := false, scheduleFrameId := none })
      (modifyOp (fun x => { x with correctionsRemaining := x.correctionsRemaining - 1 }) t)) := by
  rw [modifyOp_some _ t o hop]
  rw [modifyOp_some _ _ { o with correctionsRemaining := o.correctionsRemaining - 1 } rfl]
  obtain ⟨hSB, hO⟩ := h
  obtain ⟨j5, j1a, j1b, j1c, j2a, j2b, j3s, j3c, j3p, j3a, j4⟩ := hO o hop
  refine ⟨hSB, ?_⟩
  intro o' ho
  injection ho with ho
  subst ho
  refine ⟨j5, ?_, ?_, ?_, j2a, j2b, j3s, ?_, j3p, j3a, j4⟩
  · show -1 ≤ o.correctionsRemaining - 1
    have := j1b hpend
    omega
  · intro hx
    cases hx
  · intro hs
    exact absurd hs hslot
  · intro hs
    exact absurd hs hslot

/-- Arming the stability timer: handle and slot set together. -/
theorem inv_armStability (cfg : Config) (t : State) (o : ScrollOperation)
    (hop : t.operation = some o) (h : Inv cfg t) :
    Inv cfg { t with operation := some { o with stabilityTimeoutId := some o.id },
                     sched := { t.sched with stability := some o.id } } := by
  obtain ⟨⟨b1, b2, b3, b4, b5, b6⟩, hO⟩ := h
  obtain ⟨j5, j1a, j1b, j1c, j2a, j2b, j3s, j3c, j3p, j3a, j4⟩ := hO o hop
  refine ⟨⟨slotLE_some j5, b2, b3, b4, b5, b6⟩, ?_⟩
  intro o' ho
  injection ho with ho
  subst ho
  refine ⟨j5, j1a, j1b, j1c, j2a, j2b, ?_, j3c, j3p, j3a, j4⟩
  intro _ hx
  cases hx

/-- Arming the correction frame: handle and slot set together; the pending
flag has been raised beforehand. -/
theorem inv_armCorrection (cfg : Config) (t : State) (o : ScrollOperation)
    (hop : t.operation = some o) (h : Inv cfg t) (hpend : o.pendingCorrection = true) :
    Inv cfg { t with operation := some { o with scheduleFrameId := some o.id },
                     sched := { t.sched with correction := some o.id } } := by
  obtain ⟨⟨b1, b2, b3, b4, b5, b6⟩, hO⟩ := h
  obtain ⟨j5, j1a, j1b, j1c, j2a, j2b, j3s, j3c, j3p, j3a, j4⟩ := hO o hop
  refine ⟨⟨b1, b2, b3, b4, slotLE_some j5, b6⟩, ?_⟩
  intro o' ho
  injection ho with ho
  subst ho
  refine ⟨j5, j1a, j1b, ?_, j2a, j2b, j3s, ?_, j3p, j3a, j4⟩
  · intro _
    exact hpend
  · intro _ hx
    cases hx

/-- Arming the anchor coalescing frame. -/
theorem inv_armAnchorFrame (cfg : Config) (t : State) (o : ScrollOperation)
    (hop : t.operation = some o) (h : Inv cfg t) (hmp : cfg.maintainPosition = true)
    (hother : t.sched.anchorTimeout ≠ some o.id) :
    Inv cfg { t with operation := some { o with anchorFrameId := some o.id },
                     sched := { t.sched with anchorFrame := some o.id } } := by
  obtain ⟨⟨b1, b2, b3, b4, b5, b6⟩, hO⟩ := h
  obtain ⟨j5, j1a, j1b, j1c, j2a, j2b, j3s, j3c, j3p, j3a, j4⟩ := hO o hop
  refine ⟨⟨b1, b2, b3, b4, b5, slotLE_some j5⟩, ?_⟩
  intro o' ho
  injection ho with ho
  subst ho
  refine ⟨j5, j1a, j1b, j1c, j2a, ?_, j3s, j3c, j3p, ?_, ?_⟩
  · intro hmpf
    rw [hmpf] at hmp
    cases hmp
  · intro _ hx
    cases hx
  · intro hx
    exact hother hx.2

/-- Arming the anchor zero-delay timer. -/
theorem inv_armAnchorTimeout (cfg : Config) (t : State) (o : ScrollOperation)
    (hop : t.operation = some o) (h : Inv cfg t) (hmp : cfg.maintainPosition = true)
    (hother : t.sched.anchorFrame ≠ some o.id) :
    Inv cfg { t with operation := some { o with anchorFrameId := some o.id },
                     sched := { t.sched with anchorTimeout := some o.id } } := by
  obtain ⟨⟨b1, b2, b3, b4, b5, b6⟩, hO⟩ := h
  obtain ⟨j5, j1a, j1b, j1c, j2a, j2b, j3s, j3c, j3p, j3a, j4⟩ := hO o hop
  refine ⟨⟨b1, b2, slotLE_some j5, b4, b5, b6⟩, ?_⟩
  intro o' ho
  injection ho with ho
  subst ho
  refine ⟨j5, j1a, j1b, j1c, j2a, ?_, j3s, j3c, j3p, ?_, ?_⟩
  · intro hmpf
    rw [hmpf] at hmp
    cases hmp
  · intro _ hx
    cases hx
  · intro hx
    exact hother hx.1

/-- Raising the pending-correction flag under a strictly positive budget. -/
theorem inv_pendSet (cfg : Config) (t : State) (o : ScrollOperation)
    (hop : t.operation = some o) (h : Inv cfg t) (hcr : 0 < o.correctionsRemaining) :
    Inv cfg { t with operation := some { o with pendingCorrection := true } } := by
  obtain ⟨hSB, hO⟩ := h
  obtain ⟨j5, j1a, j1b, j1c, j2a, j2b, j3s, j3c, j3p, j3a, j4⟩ := hO o hop
  refine ⟨hSB, ?_⟩
  intro o' ho
  injection ho with ho
  subst ho
  refine ⟨j5, j1a, ?_, ?_, j2a, j2b, j3s, j3c, j3p, j3a, j4⟩
  · intro _
    show 0 ≤ o.correctionsRemaining
    omega
  · intro _
    rfl

/-- Dropping the stability handle when the stability slot no longer names
this operation (the callback's entry update). -/
theorem inv_checkRunEntry (cfg : Config) (t : State) (o : ScrollOperation)
    (hop : t.operation = some o) (h : Inv cfg t)
    (hslot : t.sched.stability ≠ some o.id) :
    Inv cfg { t with operation := some { o with stabilityTimeoutId := none } } := by
  obtain ⟨hSB, hO⟩ := h
  obtain ⟨j5, j1a, j1b, j1c, j2a, j2b, j3s, j3c, j3p, j3a, j4⟩ := hO o hop
  refine ⟨hSB, ?_⟩
  intro o' ho
  injection ho with ho
  subst ho
  refine ⟨j5, j1a, j1b, j1c, j2a, j2b, ?_, j3c, j3p, j3a, j4⟩
  intro hs
  exact absurd hs hslot

/-- Clearing the anchor handle when neither anchor slot names this
operation (the coalescing callback's entry update). -/
theorem inv_anchorCleared (cfg : Config) (t : State) (o : ScrollOperation) (pad : ℚ)
    (hop : t.operation = some o) (h : Inv cfg t)
    (hf : t.sched.anchorFrame ≠ some o.id) (ht : t.sched.anchorTimeout ≠ some o.id) :
    Inv cfg { t with
      operation := some { o with pendingAnchorDelta := pad, anchorFrameId := none } } := by
  obtain ⟨hSB, hO⟩ := h
  obtain ⟨j5, j1a, j1b, j1c, j2a, j2b, j3s, j3c, j3p, j3a, j4⟩ := hO o hop
  refine ⟨hSB, ?_⟩
  intro o' ho
  injection ho with ho
  subst ho
  refine ⟨j5, j1a, j1b, j1c, j2a, ?_, j3s, j3c, j3p, ?_, ?_⟩
  · intro hmp
    exact ⟨rfl, (j2b hmp).2⟩
  · intro hs
    rcases hs with hs | hs
    · exact absurd hs hf
    · exact absurd hs ht
  · intro hx
    exact hf hx.1

theorem inv_ensureScrollListener (cfg : Config) (env : Env) (s : State) (h : Inv cfg s) :
    Inv cfg (ensureScrollListener env s) := by
  unfold ensureScrollListener
  split
  · exact h
  · exact inv_congr rfl rfl rfl h

theorem inv_applyScrollByDelta (cfg : Config) (env : Env) (delta : ℚ) (s : State)
    (h : Inv cfg s) : Inv cfg (applyScrollByDelta cfg env delta s) := by
  cases hop : s.operation with
  | none =>
      unfold applyScrollByDelta
      rw [hop]
      exact h
  | some op =>
      by_cases hv : env.scrollViewPresent = true
      · by_cases hd : delta = 0
        · subst hd
          rw [applyScrollByDelta_zero]
          exact h
        · rw [applyScrollByDelta_eq cfg env delta s op hop hv hd]
          exact inv_update cfg s op { op with isProgrammaticScroll := true } hop h
            (some op.id) (slotLE_some ((h.2 op hop).1)) rfl rfl rfl rfl rfl rfl rfl rfl _ _
      · rw [applyScrollByDelta_noView cfg env delta s (by
          revert hv
          cases env.scrollViewPresent <;> simp)]
        exact h

theorem inv_performScroll (cfg : Config) (env : Env) (behavior : Behavior) (s : State)
    (h : Inv cfg s) : Inv cfg (performScroll cfg env behavior s) := by
  cases hop : s.operation with
  | none =>
      rw [performScroll_none cfg env behavior s hop]
      exact h
  | some op =>
      by_cases hfast : (!cfg.reversed && cfg.axisVertical && env.getOffsetProvided) = true
      · cases hoff : env.offsetForTarget with
        | none =>
            rw [performScroll_fallback cfg env behavior s op hop (Or.inr (Or.inl hoff))]
            exact inv_congr rfl rfl rfl h
        | some o =>
            by_cases hv : env.scrollViewPresent = true
            · rw [performScroll_offset cfg env behavior s op o hop hfast hoff hv]
              exact inv_update cfg s op { op with isProgrammaticScroll := true } hop h
                (some op.id) (slotLE_some ((h.2 op hop).1)) rfl rfl rfl rfl rfl rfl rfl rfl _ _
            · rw [performScroll_fallback cfg env behavior s op hop (Or.inr (Or.inr (by
                revert hv
                cases env.scrollViewPresent <;> simp)))]
              exact inv_congr rfl rfl rfl h
      · rw [performScroll_fallback cfg env behavior s op hop (Or.inl (by
          revert hfast
          cases (!cfg.reversed && cfg.axisVertical && env.getOffsetProvided) <;> simp))]
        exact inv_congr rfl rfl rfl h

theorem inv_slotStability_none (cfg : Config) (s : State) (h : Inv cfg s) :
    Inv cfg { s with sched := { s.sched with stability := none } } := by
  obtain ⟨⟨b1, b2, b3, b4, b5, b6⟩, hO⟩ := h
  refine ⟨⟨slotLE_none _, b2, b3, b4, b5, b6⟩, ?_⟩
  intro op hop
  obtain ⟨j5, j1a, j1b, j1c, j2a, j2b, j3s, j3c, j3p, j3a, j4⟩ := hO op hop
  exact ⟨j5, j1a, j1b, j1c, j2a, j2b, (fun hx => by cases hx), j3c, j3p, j3a, j4⟩

theorem inv_slotCorrection_none (cfg : Config) (s : State) (h : Inv cfg s) :
    Inv cfg { s with sched := { s.sched with correction := none } } := by
  obtain ⟨⟨b1, b2, b3, b4, b5, b6⟩, hO⟩ := h
  refine ⟨⟨b1, b2, b3, b4, slotLE_none _, b6⟩, ?_⟩
  intro op hop
  obtain ⟨j5, j1a, j1b, j1c, j2a, j2b, j3s, j3c, j3p, j3a, j4⟩ := hO op hop
  exact ⟨j5, j1a, j1b, (fun hx => by cases hx), j2a, j2b, j3s, (fun hx => by cases hx), j3p, j3a, j4⟩

theorem inv_slotAnchorFrame_none (cfg : Config) (s : State) (h : Inv cfg s) :
    Inv cfg { s with sched := { s.sched with anchorFrame := none } } := by
  obtain ⟨⟨b1, b2, b3, b4, b5, b6⟩, hO⟩ := h
  refine ⟨⟨b1, b2, b3, b4, b5, slotLE_none _⟩, ?_⟩
  intro op hop
  obtain ⟨j5, j1a, j1b, j1c, j2a, j2b, j3s, j3c, j3p, j3a, j4⟩ := hO op hop
  refine ⟨j5, j1a, j1b, j1c, j2a, j2b, j3s, j3c, j3p, ?_, ?_⟩
  · intro hs
    rcases hs with hs | hs
    · cases hs
    · exact j3a (Or.inr hs)
  · intro hx
    cases hx.1

theorem inv_slotAnchorTimeout_none (cfg : Config) (s : State) (h : Inv cfg s) :
    Inv cfg { s with sched := { s.sched with anchorTimeout := none } } := by
  obtain ⟨⟨b1, b2, b3, b4, b5, b6⟩, hO⟩ := h
  refine ⟨⟨b1, b2, slotLE_none _, b4, b5, b6⟩, ?_⟩
  intro op hop
  obtain ⟨j5, j1a, j1b, j1c, j2a, j2b, j3s, j3c, j3p, j3a, j4⟩ := hO op hop
  refine ⟨j5, j1a, j1b, j1c, j2a, j2b, j3s, j3c, j3p, ?_, ?_⟩
  · intro hs
    rcases hs with hs | hs
    · exact j3a (Or.inl hs)
    · cases hs
  · intro hx
    cases hx.2

theorem inv_slotPin_none (cfg : Config) (s : State) (h : Inv cfg s) :
    Inv cfg { s with sched := { s.sched with pin := none } } := by
  obtain ⟨⟨b1, b2, b3, b4, b5, b6⟩, hO⟩ := h
  refine ⟨⟨b1, slotLE_none _, b3, b4, b5, b6⟩, ?_⟩
  intro op hop
  obtain ⟨j5, j1a, j1b, j1c, j2a, j2b, j3s, j3c, j3p, j3a, j4⟩ := hO op hop
  exact ⟨j5, j1a, j1b, j1c, j2a, j2b, j3s, j3c, (fun hx => by cases hx), j3a, j4⟩

theorem inv_slotProgrammatic_none (cfg : Config) (s : State) (h : Inv cfg s) :
    Inv cfg { s with sched := { s.sched with programmatic := none } } := by
  obtain ⟨⟨b1, b2, b3, b4, b5, b6⟩, hO⟩ := h
  exact ⟨⟨b1, b2, b3, slotLE_none _, b5, b6⟩, hO⟩

theorem inv_clearOperation (cfg : Config) (reason : Option CancelReason) (s : State)
    (h : Inv cfg s) : Inv cfg (clearOperation reason s) := by
  cases hop : s.operation with
  | none =>
      rw [clearOperation_none reason s hop]
      exact h
  | some op =>
      rw [clearOperation_eq reason s op hop]
      obtain ⟨⟨b1, b2, b3, b4, b5, b6⟩, _⟩ := h
      refine ⟨⟨?_, ?_, ?_, b4, ?_, ?_⟩, ?_⟩
      · dsimp only; split; exacts [b1, slotLE_none _]
      · dsimp only; split; exacts [b2, slotLE_none _]
      · dsimp only; split; exacts [b3, slotLE_none _]
      · dsimp only; split; exacts [b5, slotLE_none _]
      · dsimp only; split; exacts [b6, slotLE_none _]
      · intro o ho
        cases ho

theorem inv_releasePin (cfg : Config) (s : State) (h : Inv cfg s) :
    Inv cfg (releasePin s) := by
  cases hop : s.operation with
  | none =>
      rw [releasePin_none s hop]
      exact h
  | some op =>
      cases hp : op.isPinned with
      | false =>
          rw [releasePin_notPinned s op hop hp]
          exact h
      | true =>
          rw [releasePin_eq s op hop hp]
          obtain ⟨⟨b1, b2, b3, b4, b5, b6⟩, _⟩ := h
          refine ⟨⟨b1, ?_, b3, b4, b5, b6⟩, ?_⟩
          · dsimp only; split; exacts [b2, slotLE_none _]
          · intro o ho
            cases ho

theorem inv_startPin (cfg : Config) (env : Env) (s : State) (h : Inv cfg s) :
    Inv cfg (startPin cfg env s) := by
  cases hop : s.operation with
  | none =>
      unfold startPin
      rw [hop]
      exact h
  | some op =>
      cases hmp : cfg.maintainPosition with
      | false =>
          rw [startPin_notMp cfg env s hmp]
          exact h
      | true =>
          cases hp : op.isPinned with
          | true =>
              rw [startPin_pinned cfg env s op hop hp]
              exact h
          | false =>
              rw [startPin_eq cfg env s op hop hmp hp]
              obtain ⟨⟨b1, b2, b3, b4, b5, b6⟩, hO⟩ := h
              obtain ⟨j5, j1a, j1b, j1c, j2a, j2b, j3s, j3c, j3p, j3a, j4⟩ := hO op hop
              refine ⟨⟨b1, ?_, b3, b4, b5, b6⟩, ?_⟩
              · dsimp only
                split
                · exact slotLE_some j5
                · split
                  exacts [b2, slotLE_none _]
              · intro o ho
                injection ho with ho
                subst ho
                refine ⟨j5, j1a, j1b, j1c, j2a, ?_, j3s, j3c, ?_, j3a, j4⟩
                · intro hmpf
                  rw [hmpf] at hmp
                  cases hmp
                · intro hs
                  dsimp only at hs ⊢
                  split at hs
                  · split
                    · intro hx
                      cases hx
                    · intro hx
                      cases hx
                  · split
                    · intro hx
                      cases hx
                    · split at hs
                      · exact absurd ‹op.pinTimeoutId = none› (j3p hs)
                      · cases hs

theorem inv_finalizeOperation (cfg : Config) (env : Env) (s : State) (h : Inv cfg s) :
    Inv cfg (finalizeOperation cfg env s) := by
  cases hop : s.operation with
  | none =>
      rw [finalizeOperation_none cfg env s hop]
      exact h
  | some op =>
      by_cases hst : op.status = Status.stable
      · rw [finalizeOperation_stable cfg env s op hop hst]
        exact h
      · cases hmp : cfg.maintainPosition with
        | false =>
            rw [finalizeOperation_noMp cfg env s op hop hst hmp]
            obtain ⟨⟨b1, b2, b3, b4, b5, b6⟩, _⟩ := h
            refine ⟨⟨?_, b2, b3, b4, ?_, b6⟩, ?_⟩
            · dsimp only; split; exacts [b1, slotLE_none _]
            · dsimp only; split; exacts [b5, slotLE_none _]
            · intro o ho
              cases ho
        | true =>
            cases hp : op.isPinned with
            | false =>
                rw [finalizeOperation_mp cfg env s op hop hst hmp hp]
                obtain ⟨⟨b1, b2, b3, b4, b5, b6⟩, hO⟩ := h
                obtain ⟨j5, j1a, j1b, j1c, j2a, j2b, j3s, j3c, j3p, j3a, j4⟩ := hO op hop
                refine ⟨⟨?_, ?_, b3, b4, ?_, b6⟩, ?_⟩
                · dsimp only; split; exacts [b1, slotLE_none _]
                · dsimp only
                  split
                  · exact slotLE_some j5
                  · split
                    exacts [b2, slotLE_none _]
                · dsimp only; split; exacts [b5, slotLE_none _]
                · intro o ho
                  injection ho with ho
                  subst ho
                  refine ⟨j5, j1a, j1b, ?_, j2a, ?_, ?_, ?_, ?_, j3a, j4⟩
                  · intro hs
                    dsimp only at hs
                    split at hs
                    · exact j1c hs
                    · cases hs
                  · intro hmpf
                    rw [hmpf] at hmp
                    cases hmp
                  · intro hs
                    dsimp only at hs
                    split at hs
                    · exact absurd ‹op.stabilityTimeoutId = none› (j3s hs)
                    · cases hs
                  · intro hs
                    dsimp only at hs
                    split at hs
                    · exact absurd ‹op.scheduleFrameId = none› (j3c hs)
                    · cases hs
                  · intro hs
                    dsimp only at hs ⊢
                    split at hs
                    · split
                      · intro hx
                        cases hx
                      · intro hx
                        cases hx
                    · split
                      · intro hx
                        cases hx
                      · split at hs
                        · exact absurd ‹op.pinTimeoutId = none› (j3p hs)
                        · cases hs
            | true =>
                rw [finalizeOperation_mp_pinned cfg env s op hop hst hmp hp]
                obtain ⟨⟨b1, b2, b3, b4, b5, b6⟩, hO⟩ := h
                obtain ⟨j5, j1a, j1b, j1c, j2a, j2b, j3s, j3c, j3p, j3a, j4⟩ := hO op hop
                refine ⟨⟨?_, b2, b3, b4, ?_, b6⟩, ?_⟩
                · dsimp only; split; exacts [b1, slotLE_none _]
                · dsimp only; split; exacts [b5, slotLE_none _]
                · intro o ho
                  injection ho with ho
                  subst ho
                  refine ⟨j5, j1a, j1b, ?_, j2a, j2b, ?_, ?_, j3p, j3a, j4⟩
                  · intro hs
                    dsimp only at hs
                    split at hs
                    · exact j1c hs
                    · cases hs
                  · intro hs
                    dsimp only at hs
                    split at hs
                    · exact absurd ‹op.stabilityTimeoutId = none› (j3s hs)
                    · cases hs
                  · intro hs
                    dsimp only at hs
                    split at hs
                    · exact absurd ‹op.scheduleFrameId = none› (j3c hs)
                    · cases hs

theorem inv_scrollListenerBody (cfg : Config) (s : State) (h : Inv cfg s) :
    Inv cfg (scrollListenerBody s) := by
  cases hop : s.operation with
  | none =>
      unfold scrollListenerBody
      rw [hop]
      exact h
  | some op =>
      unfold scrollListenerBody
      rw [hop]
      dsimp only
      split
      · exact h
      · exact inv_clearOperation cfg _ s h

theorem inv_pinTimerBody (cfg : Config) (k : Nat) (s : State) (h : Inv cfg s) :
    Inv cfg (pinTimerBody k s) := by
  cases hop : s.operation with
  | none =>
      unfold pinTimerBody
      rw [hop]
      exact h
  | some op =>
      unfold pinTimerBody
      rw [hop]
      dsimp only
      split
      · exact h
      · exact inv_releasePin cfg s h

theorem inv_programmaticResetBody (cfg : Config) (k : Nat) (s : State) (h : Inv cfg s) :
    Inv cfg (programmaticResetBody k s) := by
  cases hop : s.operation with
  | none =>
      unfold programmaticResetBody
      rw [hop]
      exact h
  | some op =>
      unfold programmaticResetBody
      rw [hop]
      dsimp only
      split
      · exact h
      · exact inv_update cfg s op { op with isProgrammaticScroll := false } hop h
          s.sched.programmatic (h.1.2.2.2.1) rfl rfl rfl rfl rfl rfl rfl rfl
          s.scrollPos s.events

/-- `applyScrollByDelta` leaves the correction slot alone and either keeps
the operation or merely raises its programmatic flag. -/
theorem applyScrollByDelta_shape (cfg : Config) (env : Env) (delta : ℚ) (s : State) :
    (applyScrollByDelta cfg env delta s).sched.correction = s.sched.correction ∧
      ((applyScrollByDelta cfg env delta s).operation = s.operation ∨
        ∃ op, s.operation = some op ∧
          (applyScrollByDelta cfg env delta s).operation =
            some { op with isProgrammaticScroll := true }) := by
  cases hop : s.operation with
  | none =>
      unfold applyScrollByDelta
      simp only [hop]
      exact ⟨trivial, Or.inl trivial⟩
  | some op =>
      by_cases hv : env.scrollViewPresent = true
      · by_cases hd : delta = 0
        · subst hd
          rw [applyScrollByDelta_zero]
          exact ⟨rfl, Or.inl hop⟩
        · rw [applyScrollByDelta_eq cfg env delta s op hop hv hd]
          exact ⟨rfl, Or.inr ⟨op, rfl, rfl⟩⟩
      · rw [applyScrollByDelta_noView cfg env delta s (by
          revert hv
          cases env.scrollViewPresent <;> simp)]
        exact ⟨rfl, Or.inl hop⟩

/-- `performScroll` likewise. -/
theorem performScroll_shape (cfg : Config) (env : Env) (behavior : Behavior) (s : State) :
    (performScroll cfg env behavior s).sched.correction = s.sched.correction ∧
      ((performScroll cfg env behavior s).operation = s.operation ∨
        ∃ op, s.operation = some op ∧
          (performScroll cfg env behavior s).operation =
            some { op with isProgrammaticScroll := true }) := by
  cases hop : s.operation with
  | none =>
      rw [performScroll_none cfg env behavior s hop]
      exact ⟨rfl, Or.inl hop⟩
  | some op =>
      by_cases hfast : (!cfg.reversed && cfg.axisVertical && env.getOffsetProvided) = true
      · cases hoff : env.offsetForTarget with
        | none =>
            rw [performScroll_fallback cfg env behavior s op hop (Or.inr (Or.inl hoff))]
            exact ⟨rfl, Or.inl hop⟩
        | some o =>
            by_cases hv : env.scrollViewPresent = true
            · rw [performScroll_offset cfg env behavior s op o hop hfast hoff hv]
              exact ⟨rfl, Or.inr ⟨op, rfl, rfl⟩⟩
            · rw [performScroll_fallback cfg env behavior s op hop (Or.inr (Or.inr (by
                revert hv
                cases env.scrollViewPresent <;> simp)))]
              exact ⟨rfl, Or.inl hop⟩
      · rw [performScroll_fallback cfg env behavior s op hop (Or.inl (by
          revert hfast
          cases (!cfg.reversed && cfg.axisVertical && env.getOffsetProvided) <;> simp))]
        exact ⟨rfl, Or.inl hop⟩

theorem opCR_applyScrollByDelta (cfg : Config) (env : Env) (delta : ℚ) (s : State) :
    opCR (applyScrollByDelta cfg env delta s) = opCR s := by
  rcases (applyScrollByDelta_shape cfg env delta s).2 with hsh | ⟨op, hop, hsh⟩
  · unfold opCR
    rw [hsh]
  · unfold opCR
    rw [hsh, hop]

theorem opCR_performScroll (cfg : Config) (env : Env) (behavior : Behavior) (s : State) :
    opCR (performScroll cfg env behavior s) = opCR s := by
  rcases (performScroll_shape cfg env behavior s).2 with hsh | ⟨op, hop, hsh⟩
  · unfold opCR
    rw [hsh]
  · unfold opCR
    rw [hsh, hop]

theorem mp_modifyOp (f : ScrollOperation → ScrollOperation)
    (hf : ∀ o, (f o).maintainPosition = o.maintainPosition) (s : State)
    (h : ∀ op, s.operation = some op → op.maintainPosition = true) :
    ∀ op', (modifyOp f s).operation = some op' → op'.maintainPosition = true := by
  intro op' hop'
  cases hop : s.operation with
  | none =>
      rw [modifyOp_none f s hop] at hop'
      cases hop'
  | some o =>
      rw [modifyOp_some f s o hop] at hop'
      injection hop' with e
      subst e
      rw [hf o]
      exact h o hop

theorem mp_performScroll (cfg : Config) (env : Env) (behavior : Behavior) (s : State)
    (h : ∀ op, s.operation = some op → op.maintainPosition = true) :
    ∀ op', (performScroll cfg env behavior s).operation = some op' →
      op'.maintainPosition = true := by
  intro op' hop'
  rcases (performScroll_shape cfg env behavior s).2 with hsh | ⟨op, hop, hsh⟩
  · rw [hsh] at hop'
    exact h op' hop'
  · rw [hsh] at hop'
    injection hop' with e
    subst e
    exact h op hop

theorem inv_ite (cfg : Config) (c : Prop) [Decidable c] {A B : State}
    (hA : Inv cfg A) (hB : Inv cfg B) : Inv cfg (if c then A else B) := by
  split
  · exact hA
  · exact hB

theorem progOnly_refl (s : State) : ProgOnly s s := ⟨rfl, Or.inl rfl⟩

theorem progOnly_trans {s t u : State} (h1 : ProgOnly s t) (h2 : ProgOnly t u) :
    ProgOnly s u := by
  obtain ⟨c1, d1⟩ := h1
  obtain ⟨c2, d2⟩ := h2
  refine ⟨by rw [c2, c1], ?_⟩
  rcases d1 with d1 | ⟨o1, ho1, d1⟩ <;> rcases d2 with d2 | ⟨o2, ho2, d2⟩
  · left
    rw [d2, d1]
  · right
    rw [d1] at ho2
    exact ⟨o2, ho2, d2⟩
  · right
    rw [d2]
    exact ⟨o1, ho1, d1⟩
  · right
    rw [d1] at ho2
    injection ho2 with e
    refine ⟨o1, ho1, ?_⟩
    rw [d2, ← e]

theorem progOnly_ite (s : State) (c : Prop) [Decidable c] {A B : State}
    (hA : ProgOnly s A) (hB : ProgOnly s B) : ProgOnly s (if c then A else B) := by
  split
  · exact hA
  · exact hB

theorem progOnly_apply (cfg : Config) (env : Env) (delta : ℚ) (s : State) :
    ProgOnly s (applyScrollByDelta cfg env delta s) :=
  applyScrollByDelta_shape cfg env delta s

theorem progOnly_perform (cfg : Config) (env : Env) (behavior : Behavior) (s : State) :
    ProgOnly s (performScroll cfg env behavior s) :=
  performScroll_shape cfg env behavior s

/-- The budget/flag double update of `executeCorrection`, lifted across any
interleaved synchronous scroll primitives. -/
theorem inv_execChain (cfg : Config) (s t : State) (op : ScrollOperation)
    (hop : s.operation = some op) (hpend : op.pendingCorrection = true)
    (hslot : s.sched.correction ≠ some op.id)
    (hpo : ProgOnly s t) (ht : Inv cfg t) :
    Inv cfg (modifyOp (fun x => { x with pendingCorrection := false, scheduleFrameId := none })
      (modifyOp (fun x => { x with correctionsRemaining := x.correctionsRemaining - 1 }) t)) := by
  obtain ⟨hcorr, hsh⟩ := hpo
  rcases hsh with hsame | ⟨o, ho, hsome⟩
  · refine inv_execUpdate cfg t op ?_ ht hpend ?_
    · rw [hsame]
      exact hop
    · rw [hcorr]
      exact hslot
  · rw [hop] at ho
    injection ho with e
    subst e
    refine inv_execUpdate cfg t { op with isProgrammaticScroll := true } hsome ht hpend ?_
    rw [hcorr]
    exact hslot

theorem inv_iteg (cfg : Config) (c : Prop) [Decidable c] {A B : State}
    (hA : c → Inv cfg A) (hB : ¬c → Inv cfg B) : Inv cfg (if c then A else B) := by
  split
  · exact hA ‹c›
  · exact hB ‹¬c›

theorem pos_of_guard {b : Bool} {s : State} (hg : (b && decide (0 < opCR s)) = true) :
    0 < opCR s := by
  cases b
  · simp at hg
  · rw [Bool.true_and] at hg
    exact of_decide_eq_true hg

/-- The misaligned branch of the stability check preserves the invariant:
every budget decrement is guarded by a strictly positive live budget. -/
theorem inv_checkRunMisaligned (cfg : Config) (env : Env)
    (recurse : SchedCall → State → State)
    (hrec : ∀ c t, Inv cfg t → SchedPre t c → Inv cfg (recurse c t))
    (al : Alignment) (s : State) (h : Inv cfg s) :
    Inv cfg (checkRunMisaligned cfg env recurse al s) := by
  unfold checkRunMisaligned
  dsimp only
  set s1 := (if VIEWPORT_TOLERANCE < |al.startDelta| then
      applyScrollByDelta cfg env al.startDelta s
    else if VIEWPORT_TOLERANCE < al.endOverflow then
      applyScrollByDelta cfg env al.endOverflow s
    else s) with hs1
  have hinv1 : Inv cfg s1 := by
    rw [hs1]
    exact inv_ite cfg (VIEWPORT_TOLERANCE < |al.startDelta|)
      (inv_applyScrollByDelta cfg env al.startDelta s h)
      (inv_ite cfg (VIEWPORT_TOLERANCE < al.endOverflow)
        (inv_applyScrollByDelta cfg env al.endOverflow s h) h)
  set A1 : Bool := decide (VIEWPORT_TOLERANCE < |al.startDelta|) ||
    decide (VIEWPORT_TOLERANCE < al.endOverflow) with hA1
  have hinv2 := inv_iteg cfg ((!A1 && decide (0 < opCR s1)) = true)
    (fun hg => inv_modifyOp_dec cfg _
      (inv_performScroll cfg env Behavior.instant _ hinv1)
      (by rw [opCR_performScroll]; exact pos_of_guard hg))
    (fun _ => inv_iteg cfg ((A1 && decide (0 < opCR s1)) = true)
      (fun hg => inv_modifyOp_dec cfg _ hinv1 (pos_of_guard hg))
      (fun _ => hinv1))
  have hinv3 := inv_modifyOp cfg
    (fun o => { o with stableIterations := DEFAULT_CORRECTION_SETTLE }) _
    (fun o => ⟨rfl, rfl, rfl, rfl, rfl, rfl, rfl, rfl⟩) hinv2
  refine inv_ite cfg _ (inv_ite cfg _ (hrec SchedCall.schedStability _ hinv3 trivial) hinv3)
    (inv_ite cfg _ (inv_finalizeOperation cfg env _ hinv2)
      (inv_ite cfg _ (hrec SchedCall.schedStability _ hinv2 trivial) hinv2))

/-- `scheduleStabilityCheck`'s body: handle and slot armed together; the
synchronous fallback meets `runCheck`'s calling contract. -/
theorem inv_schedStabilityBody (cfg : Config) (env : Env)
    (recurse : SchedCall → State → State)
    (hrec : ∀ c t, Inv cfg t → SchedPre t c → Inv cfg (recurse c t))
    (s : State) (h : Inv cfg s) : Inv cfg (schedStabilityBody env recurse s) := by
  cases hop : s.operation with
  | none =>
      unfold schedStabilityBody
      rw [hop]
      exact h
  | some op =>
      unfold schedStabilityBody
      rw [hop]
      dsimp only
      rw [clearStabilityTimeout_eq s op hop]
      dsimp only
      have hL : Inv cfg { s with
          operation := some { op with stabilityTimeoutId := none }
          sched := { s.sched with stability := if op.stabilityTimeoutId = none
            then s.sched.stability else none } } := by
        rw [← clearStabilityTimeout_eq s op hop]
        exact inv_clearStabilityTimeout cfg s h
      split
      · exact inv_armStability cfg s op hop h
      · refine hrec _ _ ?_ ?_
        · exact hL
        · intro o ho hoid
          have ho' : some { op with stabilityTimeoutId := none } = some o := ho
          injection ho' with ho'
          subst ho'
          show (if op.stabilityTimeoutId = none then s.sched.stability else none) ≠ some _
          split
          · intro hx
            obtain ⟨_, _, _, _, _, _, j3s, _⟩ := h.2 op hop
            exact j3s hx ‹op.stabilityTimeoutId = none›
          · intro hx
            cases hx

/-- `scheduleCorrection`'s body: the pending flag is raised only under a
positive budget, and the synchronous fallback meets `executeCorrection`'s
calling contract. -/
theorem inv_schedCorrectionBody (cfg : Config) (env : Env)
    (recurse : SchedCall → State → State)
    (hrec : ∀ c t, Inv cfg t → SchedPre t c → Inv cfg (recurse c t))
    (s : State) (h : Inv cfg s) : Inv cfg (schedCorrectionBody env recurse s) := by
  cases hop : s.operation with
  | none =>
      unfold schedCorrectionBody
      rw [hop]
      exact h
  | some op =>
      unfold schedCorrectionBody
      rw [hop]
      dsimp only
      split
      · exact h
      next hguard =>
        have hgf : (decide (op.correctionsRemaining ≤ 0) || op.pendingCorrection) = false := by
          revert hguard
          cases hx : (decide (op.correctionsRemaining ≤ 0) || op.pendingCorrection) <;> simp
        have hcr : 0 < op.correctionsRemaining := by
          have := of_decide_eq_false (Bool.or_eq_false_iff.mp hgf).1
          omega
        have hpend : op.pendingCorrection = false := (Bool.or_eq_false_iff.mp hgf).2
        have hslot : s.sched.correction ≠ some op.id := by
          intro hx
          obtain ⟨_, _, _, j1c, _⟩ := h.2 op hop
          rw [j1c hx] at hpend
          cases hpend
        have hP : Inv cfg { s with operation := some { op with pendingCorrection := true } } :=
          inv_pendSet cfg s op hop h hcr
        split
        · exact inv_armCorrection cfg _ _ rfl hP rfl
        · refine hrec _ _ ?_ ?_
          · rw [modifyOp_some _ _ { op with pendingCorrection := true } rfl]
            obtain ⟨hSB, hO⟩ := h
            obtain ⟨j5, j1a, j1b, j1c, j2a, j2b, j3s, j3c, j3p, j3a, j4⟩ := hO op hop
            refine ⟨hSB, ?_⟩
            intro o ho
            injection ho with ho
            subst ho
            refine ⟨j5, j1a, ?_, ?_, j2a, j2b, j3s, ?_, j3p, j3a, j4⟩
            · intro _
              show 0 ≤ op.correctionsRemaining
              omega
            · intro _
              rfl
            · intro hs
              exact absurd hs hslot
          · intro o ho hoid
            have ho' : some { op with pendingCorrection := true, scheduleFrameId := none } =
                some o := ho
            injection ho' with ho'
            subst ho'
            exact ⟨hslot, rfl⟩

/-- `runCheck`'s body under its calling contract (the stability slot no
longer names the captured id). -/
theorem inv_checkRunBody (cfg : Config) (env : Env)
    (recurse : SchedCall → State → State)
    (hrec : ∀ c t, Inv cfg t → SchedPre t c → Inv cfg (recurse c t))
    (opId : Nat) (s : State) (h : Inv cfg s)
    (hpre : ∀ op, s.operation = some op → op.id = opId → s.sched.stability ≠ some opId) :
    Inv cfg (checkRunBody cfg env recurse opId s) := by
  cases hop : s.operation with
  | none =>
      unfold checkRunBody
      rw [hop]
      exact h
  | some op =>
      unfold checkRunBody
      rw [hop]
      dsimp only
      split
      · exact h
      next hid =>
        have hid' : op.id = opId := by
          by_contra hne
          exact hid hne
        have hslot : s.sched.stability ≠ some op.id := by
          rw [hid']
          exact hpre op hop hid'
        have hL2 : Inv cfg { s with operation := some { op with stabilityTimeoutId := none } } :=
          inv_checkRunEntry cfg s op hop h hslot
        repeat' split
        all_goals repeat first
          | exact hL2
          | refine hrec SchedCall.schedStability _ ?_ trivial
          | refine hrec SchedCall.schedCorrection _ ?_ trivial
          | refine inv_checkRunMisaligned cfg env recurse hrec _ _ ?_
          | refine inv_finalizeOperation cfg env _ ?_
          | refine inv_modifyOp cfg _ _ (fun o => ⟨rfl, rfl, rfl, rfl, rfl, rfl, rfl, rfl⟩) ?_

/-- `executeCorrection`'s body under its calling contract (slot consumed,
live entry pending): the unconditional decrement starts from a
non-negative budget. -/
theorem inv_execCorrectionBody (cfg : Config) (env : Env)
    (recurse : SchedCall → State → State)
    (hrec : ∀ c t, Inv cfg t → SchedPre t c → Inv cfg (recurse c t))
    (opId : Nat) (s : State) (h : Inv cfg s)
    (hpre : ∀ op, s.operation = some op → op.id = opId →
      s.sched.correction ≠ some opId ∧ op.pendingCorrection = true) :
    Inv cfg (execCorrectionBody cfg env recurse opId s) := by
  cases hop : s.operation with
  | none =>
      unfold execCorrectionBody
      rw [hop]
      exact h
  | some op =>
      unfold execCorrectionBody
      rw [hop]
      dsimp only
      split
      · exact h
      next hid =>
        have hid' : op.id = opId := by
          by_contra hne
          exact hid hne
        obtain ⟨hslot0, hpend⟩ := hpre op hop hid'
        have hslot : s.sched.correction ≠ some op.id := by
          rw [hid']
          exact hslot0
        set al := evaluateTargetAlignment env.scrollViewPresent env.elementRects with hal
        set s1 := (if al.elementExists = true then
            (if VIEWPORT_TOLERANCE < |al.startDelta| then
              applyScrollByDelta cfg env al.startDelta s
            else if VIEWPORT_TOLERANCE < al.endOverflow then
              applyScrollByDelta cfg env al.endOverflow s
            else s)
          else s) with hs1
        have hinv1 : Inv cfg s1 := by
          rw [hs1]
          exact inv_ite cfg (al.elementExists = true)
            (inv_ite cfg (VIEWPORT_TOLERANCE < |al.startDelta|)
              (inv_applyScrollByDelta cfg env al.startDelta s h)
              (inv_ite cfg (VIEWPORT_TOLERANCE < al.endOverflow)
                (inv_applyScrollByDelta cfg env al.endOverflow s h) h)) h
        have hpo1 : ProgOnly s s1 := by
          rw [hs1]
          exact progOnly_ite s (al.elementExists = true)
            (progOnly_ite s (VIEWPORT_TOLERANCE < |al.startDelta|)
              (progOnly_apply cfg env al.startDelta s)
              (progOnly_ite s (VIEWPORT_TOLERANCE < al.endOverflow)
                (progOnly_apply cfg env al.endOverflow s) (progOnly_refl s)))
            (progOnly_refl s)
        set A1 : Bool := al.elementExists &&
          (decide (VIEWPORT_TOLERANCE < |al.startDelta|) ||
            decide (VIEWPORT_TOLERANCE < al.endOverflow)) with hA1
        have hinv2 := inv_ite cfg ((!A1) = true)
          (inv_performScroll cfg env Behavior.instant _ hinv1) hinv1
        have hpo2 := progOnly_ite s ((!A1) = true)
          (progOnly_trans hpo1 (progOnly_perform cfg env Behavior.instant _)) hpo1
        have hs4 := inv_execChain cfg s _ op hop hpend hslot hpo2 hinv2
        refine inv_ite cfg _ (inv_finalizeOperation cfg env _ hs4)
          (inv_ite cfg _ (hrec SchedCall.schedCorrection _ hs4 trivial)
            (hrec SchedCall.schedStability _ hs4 trivial))

/-- `scheduleAnchorAdjustment`'s body under its calling contract
(`maintainPosition` on): at most one anchor channel armed, handle and slot
together. -/
theorem inv_schedAnchorBody (cfg : Config) (env : Env)
    (recurse : SchedCall → State → State)
    (hrec : ∀ c t, Inv cfg t → SchedPre t c → Inv cfg (recurse c t))
    (delta : ℚ) (s : State) (h : Inv cfg s)
    (hpre : ∀ op, s.operation = some op → op.maintainPosition = true) :
    Inv cfg (schedAnchorBody cfg env recurse delta s) := by
  cases hop : s.operation with
  | none =>
      unfold schedAnchorBody
      rw [hop]
      exact h
  | some op =>
      unfold schedAnchorBody
      rw [hop]
      dsimp only
      have hmpop : op.maintainPosition = true := hpre op hop
      have hcfgmp : cfg.maintainPosition = true := by
        obtain ⟨_, _, _, _, j2a, _⟩ := h.2 op hop
        rw [← j2a]
        exact hmpop
      have hS : Inv cfg { s with
          operation := some { op with pendingAnchorDelta := op.pendingAnchorDelta + delta } } :=
        inv_update cfg s op { op with pendingAnchorDelta := op.pendingAnchorDelta + delta }
          hop h s.sched.programmatic (h.1.2.2.2.1)
          rfl rfl rfl rfl rfl rfl rfl rfl s.scrollPos s.events
      split
      · exact hS
      next hg1 =>
        split
        · exact hS
        next hg2 =>
          have hafi : op.anchorFrameId = none := by
            have hgd : decide (¬({ op with
                pendingAnchorDelta := op.pendingAnchorDelta + delta }).anchorFrameId = none)
                = false := by
              revert hg2
              cases hx : decide (¬({ op with
                  pendingAnchorDelta := op.pendingAnchorDelta + delta }).anchorFrameId = none)
                <;> simp
            have := of_decide_eq_false hgd
            simpa using this
          have hnf : s.sched.anchorFrame ≠ some op.id := by
            intro hx
            obtain ⟨_, _, _, _, _, _, _, _, _, j3a, _⟩ := h.2 op hop
            exact j3a (Or.inl hx) hafi
          have hnt : s.sched.anchorTimeout ≠ some op.id := by
            intro hx
            obtain ⟨_, _, _, _, _, _, _, _, _, j3a, _⟩ := h.2 op hop
            exact j3a (Or.inr hx) hafi
          split
          · exact inv_armAnchorFrame cfg
              { s with
                operation := some { op with pendingAnchorDelta := op.pendingAnchorDelta + delta } }
              { op with pendingAnchorDelta := op.pendingAnchorDelta + delta } rfl hS hcfgmp hnt
          · split
            · exact inv_armAnchorTimeout cfg
                { s with
                  operation := some { op with pendingAnchorDelta := op.pendingAnchorDelta + delta } }
                { op with pendingAnchorDelta := op.pendingAnchorDelta + delta } rfl hS hcfgmp hnf
            · refine hrec SchedCall.schedStability _ ?_ trivial
              refine inv_ite cfg _ ?_ hS
              refine inv_modifyOp cfg _ _
                (fun o => ⟨rfl, rfl, rfl, rfl, rfl, rfl, rfl, rfl⟩) ?_
              refine inv_applyScrollByDelta cfg env _ _ ?_
              exact inv_update cfg s op { op with pendingAnchorDelta := 0 }
                hop h s.sched.programmatic (h.1.2.2.2.1)
                rfl rfl rfl rfl rfl rfl rfl rfl s.scrollPos s.events

/-- `commitAnchor`'s body under its calling contract (both anchor slots
consumed or stale, `maintainPosition` on for the live id). -/
theorem inv_commitAnchorBody (cfg : Config) (env : Env)
    (recurse : SchedCall → State → State)
    (hrec : ∀ c t, Inv cfg t → SchedPre t c → Inv cfg (recurse c t))
    (opId : Nat) (s : State) (h : Inv cfg s)
    (hpre : ∀ op, s.operation = some op → op.id = opId →
      s.sched.anchorFrame ≠ some opId ∧ s.sched.anchorTimeout ≠ some opId ∧
        op.maintainPosition = true) :
    Inv cfg (commitAnchorBody cfg env recurse opId s) := by
  cases hop : s.operation with
  | none =>
      unfold commitAnchorBody
      rw [hop]
      exact h
  | some op =>
      unfold commitAnchorBody
      rw [hop]
      dsimp only
      split
      · exact h
      next hid =>
        have hid' : op.id = opId := by
          by_contra hne
          exact hid hne
        obtain ⟨hf0, ht0, hmpop⟩ := hpre op hop hid'
        have hnf : s.sched.anchorFrame ≠ some op.id := by
          rw [hid']
          exact hf0
        have hnt : s.sched.anchorTimeout ≠ some op.id := by
          rw [hid']
          exact ht0
        split
        · refine hrec (SchedCall.schedAnchor 0) _ ?_ ?_
          · exact inv_anchorCleared cfg s op op.pendingAnchorDelta hop h hnf hnt
          · intro o ho
            have ho' : some { op with anchorFrameId := none } = some o := ho
            injection ho' with ho'
            subst ho'
            exact hmpop
        · refine hrec SchedCall.schedStability _ ?_ trivial
          have hZ : Inv cfg { s with
              operation := some { op with pendingAnchorDelta := 0, anchorFrameId := none } } :=
            inv_anchorCleared cfg s op 0 hop h hnf hnt
          refine inv_ite cfg _ ?_ hZ
          refine inv_modifyOp cfg _ _
            (fun o => ⟨rfl, rfl, rfl, rfl, rfl, rfl, rfl, rfl⟩) ?_
          exact inv_applyScrollByDelta cfg env _ _ hZ

/-- The fuelled dispatcher preserves the invariant whenever the entry's
calling contract holds. -/
theorem schedDispatch_inv (cfg : Config) (env : Env) :
    ∀ fuel c s, Inv cfg s → SchedPre s c → Inv cfg (schedDispatch cfg env fuel c s) := by
  intro fuel
  induction fuel with
  | zero =>
      intro c s h _
      exact h
  | succ n ih =>
      intro c s h hpre
      show Inv cfg (schedDispatchStep cfg env (schedDispatch cfg env n) c s)
      cases c with
      | schedStability => exact inv_schedStabilityBody cfg env _ ih s h
      | checkRun k => exact inv_checkRunBody cfg env _ ih k s h hpre
      | schedCorrection => exact inv_schedCorrectionBody cfg env _ ih s h
      | execCorrection k => exact inv_execCorrectionBody cfg env _ ih k s h hpre
      | schedAnchor d => exact inv_schedAnchorBody cfg env _ ih d s h hpre
      | commitAnchorRun k => exact inv_commitAnchorBody cfg env _ ih k s h hpre

theorem inv_scheduleStabilityCheck (cfg : Config) (env : Env) (fuel : Nat) (s : State)
    (h : Inv cfg s) : Inv cfg (scheduleStabilityCheck cfg env fuel s) :=
  schedDispatch_inv cfg env fuel SchedCall.schedStability s h trivial

theorem inv_scheduleCorrection (cfg : Config) (env : Env) (fuel : Nat) (s : State)
    (h : Inv cfg s) : Inv cfg (scheduleCorrection cfg env fuel s) :=
  schedDispatch_inv cfg env fuel SchedCall.schedCorrection s h trivial

theorem inv_measureBelowAnchored (cfg : Config) (env : Env) (fuel : Nat) (delta : ℚ)
    (s : State) (h : Inv cfg s)
    (hmp : ∀ op, s.operation = some op → op.maintainPosition = true) :
    Inv cfg (measureBelowAnchored cfg env fuel delta s) := by
  unfold measureBelowAnchored
  dsimp only
  refine inv_scheduleStabilityCheck cfg env fuel _ ?_
  refine inv_modifyOp cfg _ _ (fun o => ⟨rfl, rfl, rfl, rfl, rfl, rfl, rfl, rfl⟩) ?_
  refine inv_ite cfg _ ?_ ?_
  · refine inv_scheduleCorrection cfg env fuel _ ?_
    exact schedDispatch_inv cfg env fuel (SchedCall.schedAnchor delta) s h hmp
  · exact schedDispatch_inv cfg env fuel (SchedCall.schedAnchor delta) s h hmp

theorem inv_measureBelowPlain (cfg : Config) (env : Env) (fuel : Nat) (s : State)
    (h : Inv cfg s) : Inv cfg (measureBelowPlain cfg env fuel s) := by
  unfold measureBelowPlain
  dsimp only
  refine inv_scheduleStabilityCheck cfg env fuel _ ?_
  refine inv_modifyOp cfg _ _ (fun o => ⟨rfl, rfl, rfl, rfl, rfl, rfl, rfl, rfl⟩) ?_
  exact inv_ite cfg _ (inv_scheduleCorrection cfg env fuel _ h) h

theorem inv_measureAtTarget (cfg : Config) (env : Env) (fuel : Nat) (delta : ℚ)
    (mp iap : Bool) (s : State) (h : Inv cfg s)
    (hmp : ∀ op, s.operation = some op → op.maintainPosition = mp) :
    Inv cfg (measureAtTarget cfg env fuel delta mp iap s) := by
  unfold measureAtTarget
  dsimp only
  set t1 := modifyOp (fun o => { o with hasMeasuredTarget := true }) s with ht1
  have hinv1 : Inv cfg t1 := by
    rw [ht1]
    exact inv_modifyOp cfg _ _ (fun o => ⟨rfl, rfl, rfl, rfl, rfl, rfl, rfl, rfl⟩) h
  have hmp1 : ∀ op, t1.operation = some op → op.maintainPosition = mp := by
    intro o ho
    rw [ht1] at ho
    cases hop : s.operation with
    | none =>
        rw [modifyOp_none _ s hop] at ho
        cases ho
    | some o0 =>
        rw [modifyOp_some _ s o0 hop] at ho
        injection ho with e
        subst e
        exact hmp o0 hop
  set t2 := (if iap = true then t1 else
    modifyOp (fun o => { o with initialAlignmentPerformed := true })
      (performScroll cfg env Behavior.instant t1)) with ht2
  have hinv2 : Inv cfg t2 := by
    rw [ht2]
    refine inv_ite cfg (iap = true) hinv1 ?_
    refine inv_modifyOp cfg _ _ (fun o => ⟨rfl, rfl, rfl, rfl, rfl, rfl, rfl, rfl⟩) ?_
    exact inv_performScroll cfg env Behavior.instant _ hinv1
  have hmp2 : ∀ op, t2.operation = some op → op.maintainPosition = mp := by
    intro o ho
    rw [ht2] at ho
    revert ho
    split
    · exact fun ho => hmp1 o ho
    · intro ho
      cases hopp : (performScroll cfg env Behavior.instant t1).operation with
      | none =>
          rw [modifyOp_none _ _ hopp] at ho
          cases ho
      | some o1 =>
          rw [modifyOp_some _ _ o1 hopp] at ho
          injection ho with e
          subst e
          rcases (performScroll_shape cfg env Behavior.instant t1).2 with hsh | ⟨o2, ho2, hsh⟩
          · rw [hsh] at hopp
            exact hmp1 o1 hopp
          · rw [hsh] at hopp
            injection hopp with e2
            subst e2
            exact hmp1 o2 ho2
  have hinv3 := inv_iteg cfg (mp = true)
    (fun hc => schedDispatch_inv cfg env fuel (SchedCall.schedAnchor 0) t2 hinv2
      (fun o ho => by rw [hmp2 o ho]; exact hc))
    (fun _ => hinv2)
  refine inv_scheduleStabilityCheck cfg env fuel _ ?_
  refine inv_ite cfg _ ?_ hinv3
  refine inv_modifyOp cfg _ _ (fun o => ⟨rfl, rfl, rfl, rfl, rfl, rfl, rfl, rfl⟩) ?_
  exact inv_scheduleCorrection cfg env fuel _ hinv3

theorem inv_handleItemMeasured (cfg : Config) (env : Env) (fuel : Nat)
    (index : Nat) (size delta : ℚ) (s : State) (h : Inv cfg s) :
    Inv cfg (handleItemMeasured cfg env fuel index size delta s) := by
  cases hop : s.operation with
  | none =>
      unfold handleItemMeasured
      rw [hop]
      exact h
  | some op =>
      unfold handleItemMeasured
      rw [hop]
      dsimp only
      split
      · split
        · exact inv_applyScrollByDelta cfg env delta s h
        · exact h
      · split
        · exact h
        · have hT : Inv cfg { s with
              operation := some { op with lastMeasurementTimestamp := env.now } } :=
            inv_update cfg s op { op with lastMeasurementTimestamp := env.now }
              hop h s.sched.programmatic (h.1.2.2.2.1)
              rfl rfl rfl rfl rfl rfl rfl rfl s.scrollPos s.events
          split
          · refine inv_iteg cfg _ (fun hc => ?_) (fun _ => ?_)
            · refine inv_measureBelowAnchored cfg env fuel delta _ hT ?_
              intro o ho
              have ho' : some { op with lastMeasurementTimestamp := env.now } = some o := ho
              injection ho' with e
              subst e
              exact hc
            · exact inv_measureBelowPlain cfg env fuel _ hT
          · split
            · refine inv_measureAtTarget cfg env fuel delta _ _ _ hT ?_
              intro o ho
              have ho' : some { op with lastMeasurementTimestamp := env.now } = some o := ho
              injection ho' with e
              subst e
              rfl
            · exact inv_scheduleStabilityCheck cfg env fuel _ hT

theorem inv_handleRendered (cfg : Config) (env : Env) (fuel : Nat)
    (index : Nat) (s : State) (h : Inv cfg s) :
    Inv cfg (handleRendered cfg env fuel index s).1 := by
  cases hop : s.operation with
  | none =>
      unfold handleRendered
      rw [hop]
      exact h
  | some op =>
      unfold handleRendered
      rw [hop]
      dsimp only
      split
      · exact h
      · split
        · exact h
        · exact inv_scheduleStabilityCheck cfg env fuel _
            (inv_scheduleCorrection cfg env fuel _ h)

/-- The fresh record `start` installs satisfies every conjunct: new id
strictly above every armed slot, full budget, clean handles. -/
theorem inv_startFresh (cfg : Config) (t : State) (hmc : 0 ≤ cfg.maxCorrections)
    (h : Inv cfg t) (index : Nat) (behavior : Behavior) (hasCb : Bool) (now : ℚ)
    (ev : List Event) :
    Inv cfg { t with
      operation := some
        { id := t.operationIdCounter + 1
          targetIndex := index
          behavior := behavior
          hasCallback := hasCb
          correctionsRemaining := cfg.maxCorrections
          pendingCorrection := false
          stabilityTimeoutId := none
          pinTimeoutId := none
          scheduleFrameId := none
          status := Status.initial
          maintainPosition := cfg.maintainPosition
          isPinned := false
          isProgrammaticScroll := false
          lastMeasurementTimestamp := now
          hasMeasuredTarget := false
          stableIterations := DEFAULT_CORRECTION_SETTLE
          pendingAnchorDelta := 0
          anchorFrameId := none
          initialAlignmentPerformed := false }
      operationIdCounter := t.operationIdCounter + 1
      events := ev } := by
  obtain ⟨⟨b1, b2, b3, b4, b5, b6⟩, _⟩ := h
  refine ⟨⟨slotLE_mono b1 (Nat.le_succ _), slotLE_mono b2 (Nat.le_succ _),
    slotLE_mono b3 (Nat.le_succ _), slotLE_mono b4 (Nat.le_succ _),
    slotLE_mono b5 (Nat.le_succ _), slotLE_mono b6 (Nat.le_succ _)⟩, ?_⟩
  intro o ho
  injection ho with ho
  subst ho
  refine ⟨Nat.le_refl _, ?_, ?_, ?_, rfl, ?_, ?_, ?_, ?_, ?_, ?_⟩
  · show (-1 : Int) ≤ cfg.maxCorrections
    omega
  · intro hx
    cases hx
  · intro hx
    exact absurd (show t.operationIdCounter + 1 ≤ t.operationIdCounter from b5 _ hx) (by omega)
  · intro _
    exact ⟨rfl, rfl⟩
  · intro hx
    exact absurd (show t.operationIdCounter + 1 ≤ t.operationIdCounter from b1 _ hx) (by omega)
  · intro hx
    exact absurd (show t.operationIdCounter + 1 ≤ t.operationIdCounter from b5 _ hx) (by omega)
  · intro hx
    exact absurd (show t.operationIdCounter + 1 ≤ t.operationIdCounter from b2 _ hx) (by omega)
  · intro hx
    rcases hx with hx | hx
    · exact absurd (show t.operationIdCounter + 1 ≤ t.operationIdCounter from b6 _ hx) (by omega)
    · exact absurd (show t.operationIdCounter + 1 ≤ t.operationIdCounter from b3 _ hx) (by omega)
  · intro hx
    exact absurd (show t.operationIdCounter + 1 ≤ t.operationIdCounter from b6 _ hx.1) (by omega)

theorem inv_start (cfg : Config) (env : Env) (fuel : Nat)
    (index : Nat) (behavior : Behavior) (hasCb : Bool) (s : State)
    (hmc : 0 ≤ cfg.maxCorrections) (h : Inv cfg s) :
    Inv cfg (start cfg env fuel index behavior hasCb s) := by
  unfold start
  dsimp only
  refine inv_scheduleStabilityCheck cfg env fuel _ ?_
  refine inv_scheduleCorrection cfg env fuel _ ?_
  refine inv_performScroll cfg env behavior _ ?_
  refine inv_ensureScrollListener cfg env _ ?_
  refine inv_startFresh cfg _ hmc ?_ index behavior hasCb env.now _
  refine inv_clearOperation cfg none _ ?_
  exact inv_ite cfg _ (inv_cancelScheduledFrame cfg s h) h

theorem inv_initialState (cfg : Config) : Inv cfg initialState := by
  refine ⟨⟨slotLE_none _, slotLE_none _, slotLE_none _, slotLE_none _,
    slotLE_none _, slotLE_none _⟩, ?_⟩
  intro o ho
  cases ho

/-- One external event preserves the invariant (the fire entries establish
the dispatcher's calling contract from the consumed slot and the
invariant's own slot discipline). -/
theorem inv_step (cfg : Config) (env : Env) (fuel : Nat) (e : ExtEvent) (s : State)
    (hmc : 0 ≤ cfg.maxCorrections) (h : Inv cfg s) : Inv cfg (step cfg env fuel s e) := by
  cases e with
  | callStart index behavior hasCb =>
      exact inv_start cfg env fuel index behavior hasCb s hmc h
  | callHandleItemMeasured index size delta =>
      exact inv_handleItemMeasured cfg env fuel index size delta s h
  | callHandleRendered index =>
      exact inv_handleRendered cfg env fuel index s h
  | callCancel =>
      exact inv_clearOperation cfg (some CancelReason.cancelled) s h
  | scrollObserved =>
      exact inv_ite cfg _ (inv_scrollListenerBody cfg s h) h
  | fireStability =>
      cases hst : s.sched.stability with
      | none =>
          have hstep : step cfg env fuel s ExtEvent.fireStability = s := by
            unfold step
            rw [hst]
          rw [hstep]
          exact h
      | some k =>
          have hstep : step cfg env fuel s ExtEvent.fireStability =
              runCheck cfg env fuel k
                { s with sched := { s.sched with stability := none } } := by
            unfold step
            rw [hst]
          rw [hstep]
          refine schedDispatch_inv cfg env fuel (SchedCall.checkRun k) _ ?_ ?_
          · exact inv_slotStability_none cfg s h
          · intro o ho hoid hx
            cases hx
  | fireCorrection =>
      cases hco : s.sched.correction with
      | none =>
          have hstep : step cfg env fuel s ExtEvent.fireCorrection = s := by
            unfold step
            rw [hco]
          rw [hstep]
          exact h
      | some k =>
          have hstep : step cfg env fuel s ExtEvent.fireCorrection =
              executeCorrection cfg env fuel k
                { s with sched := { s.sched with correction := none } } := by
            unfold step
            rw [hco]
          rw [hstep]
          refine schedDispatch_inv cfg env fuel (SchedCall.execCorrection k) _ ?_ ?_
          · exact inv_slotCorrection_none cfg s h
          · intro o ho hoid
            have ho' : s.operation = some o := ho
            refine ⟨(fun hx => by cases hx), ?_⟩
            obtain ⟨_, _, _, j1c, _⟩ := h.2 o ho'
            refine j1c ?_
            rw [hoid]
            exact hco
  | fireAnchorFrame =>
      cases haf : s.sched.anchorFrame with
      | none =>
          have hstep : step cfg env fuel s ExtEvent.fireAnchorFrame = s := by
            unfold step
            rw [haf]
          rw [hstep]
          exact h
      | some k =>
          have hstep : step cfg env fuel s ExtEvent.fireAnchorFrame =
              commitAnchor cfg env fuel k
                { s with sched := { s.sched with anchorFrame := none } } := by
            unfold step
            rw [haf]
          rw [hstep]
          refine schedDispatch_inv cfg env fuel (SchedCall.commitAnchorRun k) _ ?_ ?_
          · exact inv_slotAnchorFrame_none cfg s h
          · intro o ho hoid
            have ho' : s.operation = some o := ho
            obtain ⟨_, _, _, _, j2a, j2b, _, _, _, j3a, j4⟩ := h.2 o ho'
            have hslotf : s.sched.anchorFrame = some o.id := by
              rw [hoid]
              exact haf
            have hafi : o.anchorFrameId ≠ none := j3a (Or.inl hslotf)
            have hcmp : cfg.maintainPosition = true := by
              cases hx : cfg.maintainPosition with
              | true => rfl
              | false => exact absurd (j2b hx).1 hafi
            refine ⟨(fun hx => by cases hx), ?_, ?_⟩
            · intro hx
              rw [← hoid] at hx
              exact j4 ⟨hslotf, hx⟩
            · rw [j2a]
              exact hcmp
  | fireAnchorTimeout =>
      cases hat : s.sched.anchorTimeout with
      | none =>
          have hstep : step cfg env fuel s ExtEvent.fireAnchorTimeout = s := by
            unfold step
            rw [hat]
          rw [hstep]
          exact h
      | some k =>
          have hstep : step cfg env fuel s ExtEvent.fireAnchorTimeout =
              commitAnchor cfg env fuel k
                { s with sched := { s.sched with anchorTimeout := none } } := by
            unfold step
            rw [hat]
          rw [hstep]
          refine schedDispatch_inv cfg env fuel (SchedCall.commitAnchorRun k) _ ?_ ?_
          · exact inv_slotAnchorTimeout_none cfg s h
          · intro o ho hoid
            have ho' : s.operation = some o := ho
            obtain ⟨_, _, _, _, j2a, j2b, _, _, _, j3a, j4⟩ := h.2 o ho'
            have hslott : s.sched.anchorTimeout = some o.id := by
              rw [hoid]
              exact hat
            have hafi : o.anchorFrameId ≠ none := j3a (Or.inr hslott)
            have hcmp : cfg.maintainPosition = true := by
              cases hx : cfg.maintainPosition with
              | true => rfl
              | false => exact absurd (j2b hx).1 hafi
            refine ⟨?_, (fun hx => by cases hx), ?_⟩
            · intro hx
              rw [← hoid] at hx
              exact j4 ⟨hx, hslott⟩
            · rw [j2a]
              exact hcmp
  | firePin =>
      cases hpi : s.sched.pin with
      | none =>
          have hstep : step cfg env fuel s ExtEvent.firePin = s := by
            unfold step
            rw [hpi]
          rw [hstep]
          exact h
      | some k =>
          have hstep : step cfg env fuel s ExtEvent.firePin =
              pinTimerBody k { s with sched := { s.sched with pin := none } } := by
            unfold step
            rw [hpi]
          rw [hstep]
          exact inv_pinTimerBody cfg k _ (inv_slotPin_none cfg s h)
  | fireProgrammaticReset =>
      cases hpg : s.sched.programmatic with
      | none =>
          have hstep : step cfg env fuel s ExtEvent.fireProgrammaticReset = s := by
            unfold step
            rw [hpg]
          rw [hstep]
          exact h
      | some k =>
          have hstep : step cfg env fuel s ExtEvent.fireProgrammaticReset =
              programmaticResetBody k
                { s with sched := { s.sched with programmatic := none } } := by
            unfold step
            rw [hpg]
          rw [hstep]
          exact inv_programmaticResetBody cfg k _ (inv_slotProgrammatic_none cfg s h)

/-- Every reachable state satisfies the invariant (for any configuration
with a non-negative budget ceiling). -/
theorem reachable_inv (cfg : Config) (hmc : 0 ≤ cfg.maxCorrections) (s : State)
    (hr : Reachable cfg s) : Inv cfg s := by
  induction hr with
  | init => exact inv_initialState cfg
  | next env fuel e t ht ih => exact inv_step cfg env fuel e t hmc ih

theorem foldl_reachable (cfg : Config) (steps : List (Env × ExtEvent)) :
    ∀ s, Reachable cfg s →
      Reachable cfg (steps.foldl (fun s p => step cfg p.1 12 s p.2) s) := by
  induction steps with
  | nil =>
      intro s h
      exact h
  | cons p rest ih =>
      intro s h
      exact ih _ (Reachable.next p.1 12 p.2 s h)

theorem runTrace_reachable (cfg : Config) (steps : List (Env × ExtEvent)) :
    Reachable cfg (runTrace cfg steps) :=
  foldl_reachable cfg steps initialState Reachable.init

/-- C2 (amended): within an operation's lifetime `correctionsRemaining`
never increases under any event that is not a superseding `start`, and on
every reachable state it is bounded below by −1 — not by 0: the scheduled
correction frame decrements unconditionally, so a frame firing after the
stability check spent the last unit drives the budget to −1 (see the
counterexample), and a pending correction is exactly the state in which the
budget is still non-negative.  The operation does not finalize at zero
budget while misaligned through the budget check (that `runCheck` branch is
unreachable because minimal adjustments re-mark the pass as applied);
instead it keeps re-arming the stability check. -/
theorem budget_amended (cfg : Config) (hmc : 0 ≤ cfg.maxCorrections) :
    (∀ s, Reachable cfg s → ∀ op, s.operation = some op →
        -1 ≤ op.correctionsRemaining ∧
          (op.pendingCorrection = true → 0 ≤ op.correctionsRemaining)) ∧
    (∀ env fuel e s op op', (∀ i b c, e ≠ ExtEvent.callStart i b c) →
        s.operation = some op → (step cfg env fuel s e).operation = some op' →
        op'.id = op.id ∧ op'.correctionsRemaining ≤ op.correctionsRemaining) := by
  constructor
  · intro s hr op hop
    obtain ⟨_, hO⟩ := reachable_inv cfg hmc s hr
    obtain ⟨_, j1a, j1b, _⟩ := hO op hop
    exact ⟨j1a, j1b⟩
  · intro env fuel e s op op' hne hop hop'
    exact (opMono_step_nonStart cfg env fuel s e hne).2 op op' hop hop'

theorem budget_amended_witness :
    -1 ≤ opCR (runTrace cfgTight traceBudget) ∧
      (mkOp 1 5).correctionsRemaining ≤ (mkOp 1 5).correctionsRemaining := by
  constructor
  · have h := (budget_amended cfgTight (by decide)).1 (runTrace cfgTight traceBudget)
      (runTrace_reachable cfgTight traceBudget)
    cases hop : (runTrace cfgTight traceBudget).operation with
    | none =>
        unfold opCR
        rw [hop]
        decide
    | some op =>
        unfold opCR
        rw [hop]
        exact (h op hop).1
  · exact ((budget_amended cfgTight (by decide)).2 (mkEnv (some rectMis)) 12
      ExtEvent.fireStability (mkState (some (mkOp 1 5))) (mkOp 1 5) (mkOp 1 5)
      (by intro i b c hx; cases hx) rfl (by with_unfolding_all rfl)).2

/-- C4 (amended): `clearOperation` (explicit cancel, user scroll,
supersession) does cancel all four handles and detach the observer: on any
reachable state no channel slot still names the discarded operation, and
the same holds for a finalize without `maintainPosition`.  The pin-release
path, however, cancels only the pin timer: the stability, correction and
anchor channels are left exactly as they were, so callbacks armed for the
discarded operation survive as stale (benign, id-guarded) entries — see
the counterexample. -/
theorem cleanup_amended (cfg : Config) (hmc : 0 ≤ cfg.maxCorrections) :
    (∀ s, Reachable cfg s → ∀ op, s.operation = some op → ∀ r,
        (clearOperation r s).operation = none ∧
        (clearOperation r s).listenerAttached = false ∧
        (clearOperation r s).sched.stability ≠ some op.id ∧
        (clearOperation r s).sched.correction ≠ some op.id ∧
        (clearOperation r s).sched.pin ≠ some op.id ∧
        (clearOperation r s).sched.anchorFrame ≠ some op.id ∧
        (clearOperation r s).sched.anchorTimeout ≠ some op.id) ∧
    (∀ env s, Reachable cfg s → cfg.maintainPosition = false →
        ∀ op, s.operation = some op → op.status ≠ Status.stable →
        (finalizeOperation cfg env s).operation = none ∧
        (finalizeOperation cfg env s).listenerAttached = false ∧
        (finalizeOperation cfg env s).sched.stability ≠ some op.id ∧
        (finalizeOperation cfg env s).sched.correction ≠ some op.id ∧
        (finalizeOperation cfg env s).sched.pin ≠ some op.id ∧
        (finalizeOperation cfg env s).sched.anchorFrame ≠ some op.id ∧
        (finalizeOperation cfg env s).sched.anchorTimeout ≠ some op.id) ∧
    (∀ s, Reachable cfg s → ∀ op, s.operation = some op → op.isPinned = true →
        (releasePin s).operation = none ∧
        (releasePin s).listenerAttached = false ∧
        (releasePin s).sched.pin ≠ some op.id ∧
        (releasePin s).sched.stability = s.sched.stability ∧
        (releasePin s).sched.correction = s.sched.correction ∧
        (releasePin s).sched.anchorFrame = s.sched.anchorFrame ∧
        (releasePin s).sched.anchorTimeout = s.sched.anchorTimeout) := by
  refine ⟨?_, ?_, ?_⟩
  · intro s hr op hop r
    obtain ⟨_, hO⟩ := reachable_inv cfg hmc s hr
    obtain ⟨_, _, _, _, _, _, j3s, j3c, j3p, j3a, _⟩ := hO op hop
    rw [clearOperation_eq r s op hop]
    refine ⟨rfl, rfl, ?_, ?_, ?_, ?_, ?_⟩
    · dsimp only
      split
      · intro hx
        exact j3s hx ‹op.stabilityTimeoutId = none›
      · intro hx
        cases hx
    · dsimp only
      split
      · intro hx
        exact j3c hx ‹op.scheduleFrameId = none›
      · intro hx
        cases hx
    · dsimp only
      split
      · intro hx
        exact j3p hx ‹op.pinTimeoutId = none›
      · intro hx
        cases hx
    · dsimp only
      split
      · intro hx
        exact j3a (Or.inl hx) ‹op.anchorFrameId = none›
      · intro hx
        cases hx
    · dsimp only
      split
      · intro hx
        exact j3a (Or.inr hx) ‹op.anchorFrameId = none›
      · intro hx
        cases hx
  · intro env s hr hmpf op hop hstn
    obtain ⟨_, hO⟩ := reachable_inv cfg hmc s hr
    obtain ⟨_, _, _, _, _, j2b, j3s, j3c, j3p, j3a, _⟩ := hO op hop
    rw [finalizeOperation_noMp cfg env s op hop hstn hmpf]
    refine ⟨rfl, rfl, ?_, ?_, ?_, ?_, ?_⟩
    · dsimp only
      split
      · intro hx
        exact j3s hx ‹op.stabilityTimeoutId = none›
      · intro hx
        cases hx
    · dsimp only
      split
      · intro hx
        exact j3c hx ‹op.scheduleFrameId = none›
      · intro hx
        cases hx
    · intro hx
      exact j3p hx (j2b hmpf).2
    · intro hx
      exact j3a (Or.inl hx) (j2b hmpf).1
    · intro hx
      exact j3a (Or.inr hx) (j2b hmpf).1
  · intro s hr op hop hpin
    obtain ⟨_, hO⟩ := reachable_inv cfg hmc s hr
    obtain ⟨_, _, _, _, _, _, _, _, j3p, _, _⟩ := hO op hop
    rw [releasePin_eq s op hop hpin]
    refine ⟨rfl, rfl, ?_, rfl, rfl, rfl, rfl⟩
    dsimp only
    split
    · intro hx
      exact j3p hx ‹op.pinTimeoutId = none›
    · intro hx
      cases hx

theorem cleanup_amended_witness :
    (clearOperation (some CancelReason.cancelled)
        (runTrace cfgPin
          [ (mkEnv (some rectMis), ExtEvent.callStart 5 Behavior.instant false) ])).sched.correction
      ≠ some 1 ∧
    (releasePin (runTrace cfgPin tracePinned)).sched.anchorFrame =
      (runTrace cfgPin tracePinned).sched.anchorFrame :=
  ⟨((cleanup_amended cfgPin (by decide)).1
      (runTrace cfgPin [ (mkEnv (some rectMis), ExtEvent.callStart 5 Behavior.instant false) ])
      (runTrace_reachable cfgPin _)
      { id := 1, targetIndex := 5, behavior := Behavior.instant, hasCallback := false,
        correctionsRemaining := 10, pendingCorrection := true, stabilityTimeoutId := some 1,
        pinTimeoutId := none, scheduleFrameId := some 1, status := Status.initial,
        maintainPosition := true, isPinned := false, isProgrammaticScroll := false,
        lastMeasurementTimestamp := 0, hasMeasuredTarget := false, stableIterations := 2,
        pendingAnchorDelta := 0, anchorFrameId := none, initialAlignmentPerformed := false }
      (by with_unfolding_all decide) (some CancelReason.cancelled)).2.2.2.1,
   ((cleanup_amended cfgPin (by decide)).2.2
      (runTrace cfgPin tracePinned)
      (runTrace_reachable cfgPin _)
      { id := 1, targetIndex := 5, behavior := Behavior.instant, hasCallback := false,
        correctionsRemaining := 9, pendingCorrection := false, stabilityTimeoutId := none,
        pinTimeoutId := some 1, scheduleFrameId := none, status := Status.stable,
        maintainPosition := true, isPinned := true, isProgrammaticScroll := false,
        lastMeasurementTimestamp := 0, hasMeasuredTarget := true, stableIterations := 2,
        pendingAnchorDelta := 10, anchorFrameId := some 1, initialAlignmentPerformed := true }
      (by with_unfolding_all decide) rfl).2.2.2.2.2.1⟩

theorem measure_below_accum (cfg : Config) (env : Env) (f : Nat) (idx : Nat) (sz δ : ℚ)
    (s : State) (op : ScrollOperation) (now pad : ℚ)
    (hT : env.hasTimeout = true)
    (hstatus : op.status ≠ Status.stable) (hmp : op.maintainPosition = true)
    (hhmt : op.hasMeasuredTarget = true)
    (hidx : idx < op.targetIndex) (hδ : δ ≠ 0) :
    handleItemMeasured cfg env (f + 1) idx sz δ (anchoredAccum s op now pad) =
      anchoredAccum s op env.now (pad + δ) := by
  have hnlt : ¬(op.targetIndex < idx) := by omega
  have hD1 : (decide ((some op.id : Option Nat) = none)) = false := rfl
  have hD2 : (decide ((some op.id : Option Nat) ≠ none)) = true := rfl
  unfold handleItemMeasured
  dsimp only [anchoredAccum]
  simp only [hstatus, hnlt, hidx, hδ, hmp, if_true, if_false, ite_true, ite_false,
    not_false_iff, and_true, true_and, if_neg, if_pos, ne_eq, not_false_eq_true,
    and_self]
  unfold measureBelowAnchored scheduleAnchorAdjustment
  have hD0 : ((some op.id : Option Nat) = none) = False := by simp
  simp only [schedDispatch_succ, schedDispatchStep, schedAnchorBody, hD1, hD2, hD0,
    Bool.and_false, Bool.false_and, if_false, if_true, ite_true, ite_false,
    opHMT, opCR, hhmt, modifyOp, Option.map, scheduleStabilityCheck,
    schedStabilityBody, clearStabilityTimeout, false_and, and_false, hT,
    decide_False, decide_True, not_false_eq_true, Bool.and_false, Bool.false_eq_true,
    Bool.true_eq_false]


theorem measure_below_first (cfg : Config) (env : Env) (f : Nat) (idx : Nat) (sz δ : ℚ)
    (s : State) (op : ScrollOperation) (hop : s.operation = some op)
    (hT : env.hasTimeout = true) (hAF : env.hasAnimationFrame = true)
    (hstatus : op.status ≠ Status.stable) (hmp : op.maintainPosition = true)
    (hhmt : op.hasMeasuredTarget = true) (hafi : op.anchorFrameId = none)
    (hidx : idx < op.targetIndex) (hδ : δ ≠ 0)
    (hbig : ANCHOR_DELTA_EPSILON ≤ |op.pendingAnchorDelta + δ|) :
    handleItemMeasured cfg env (f + 1) idx sz δ s =
      anchoredAccum s op env.now (op.pendingAnchorDelta + δ) := by
  have hnlt : ¬(op.targetIndex < idx) := by omega
  have hlt : ¬(|op.pendingAnchorDelta + δ| < ANCHOR_DELTA_EPSILON) := not_lt.mpr hbig
  unfold handleItemMeasured
  rw [hop]
  dsimp only
  unfold measureBelowAnchored scheduleAnchorAdjustment
  by_cases hsti : op.stabilityTimeoutId = none <;>
    simp only [anchoredAccum, hstatus, hnlt, hidx, hδ, hmp, hhmt, hafi, hlt, hsti, hT, hAF,
      if_true, if_false, ite_true, ite_false, not_false_iff, and_true, true_and, ne_eq,
      not_false_eq_true, and_self, schedDispatch_succ, schedDispatchStep, schedAnchorBody,
      Bool.and_false, Bool.false_and, opHMT, opCR, modifyOp, Option.map,
      scheduleStabilityCheck, schedStabilityBody, clearStabilityTimeout, false_and, and_false,
      decide_False, decide_True, not_false_eq_true, Bool.false_eq_true, Bool.true_eq_false,
      not_true, eq_self_iff_true, Bool.true_and, if_neg, if_pos]

theorem commit_applies_sum (cfg : Config) (env : Env) (f : Nat)
    (s : State) (op : ScrollOperation) (now pad : ℚ)
    (hT : env.hasTimeout = true) (hv : env.scrollViewPresent = true)
    (hrev : cfg.reversed = false) (hhmt : op.hasMeasuredTarget = true)
    (hbig : ANCHOR_DELTA_EPSILON ≤ |pad|) :
    step cfg env (f + 1 + 1) (anchoredAccum s op now pad) ExtEvent.fireAnchorFrame =
      { s with
        operation := some { op with
          lastMeasurementTimestamp := now
          pendingAnchorDelta := 0
          anchorFrameId := none
          stabilityTimeoutId := some op.id
          stableIterations := DEFAULT_CORRECTION_SETTLE
          isProgrammaticScroll := true }
        scrollPos := s.scrollPos + pad
        events := s.events ++ [Event.scrollBy pad]
        sched := { s.sched with
          stability := some op.id
          anchorFrame := none
          programmatic := some op.id } } := by
  have hnz : pad ≠ 0 := by
    intro hzero
    rw [hzero] at hbig
    simp [ANCHOR_DELTA_EPSILON] at hbig
    exact absurd hbig (by norm_num)
  have hcid : ¬(op.id ≠ op.id) := fun hx => hx rfl
  have hD0 : ((some op.id : Option Nat) = none) = False := by simp
  unfold step
  dsimp only [anchoredAccum]
  unfold commitAnchor
  simp only [anchoredAccum, hT, hv, hrev, hhmt, hcid, hnz, hbig,
    if_true, if_false, ite_true, ite_false, not_false_iff, and_true, true_and, ne_eq,
    not_false_eq_true, and_self, schedDispatch_succ, schedDispatchStep, commitAnchorBody,
    Bool.and_false, Bool.false_and, opHMT, opCR, modifyOp, Option.map,
    applyScrollByDelta, scheduleProgrammaticScrollReset,
    scheduleStabilityCheck, schedStabilityBody, clearStabilityTimeout, false_and, and_false,
    decide_False, decide_True, Bool.false_eq_true, Bool.true_eq_false, hD0,
    not_true, eq_self_iff_true, Bool.true_and, Bool.not_true, Bool.false_or, Bool.true_or,
    Bool.or_false, if_neg, if_pos]

theorem measure_fold_accum (cfg : Config) (env : Env) (f : Nat)
    (s : State) (op : ScrollOperation)
    (hT : env.hasTimeout = true)
    (hstatus : op.status ≠ Status.stable) (hmp : op.maintainPosition = true)
    (hhmt : op.hasMeasuredTarget = true) :
    ∀ (calls : List (Nat × ℚ × ℚ)) (pad : ℚ),
      (∀ c ∈ calls, c.1 < op.targetIndex ∧ c.2.2 ≠ 0) →
      calls.foldl (fun t c => handleItemMeasured cfg env (f + 1) c.1 c.2.1 c.2.2 t)
          (anchoredAccum s op env.now pad) =
        anchoredAccum s op env.now (pad + (calls.map (fun c => c.2.2)).sum) := by
  intro calls
  induction calls with
  | nil =>
      intro pad _
      simp
  | cons c rest ih =>
      intro pad hc
      rw [List.foldl_cons,
        measure_below_accum cfg env f c.1 c.2.1 c.2.2 s op env.now pad hT hstatus hmp hhmt
          (hc c (List.mem_cons_self c rest)).1 (hc c (List.mem_cons_self c rest)).2,
        ih (pad + c.2.2) (fun x hx => hc x (List.mem_cons_of_mem c hx)),
        List.map_cons, List.sum_cons, add_assoc]

/-- C3: coalescing is exact-sum.  From an active, non-stable operation with
`maintainPosition` on and the target already measured, a first below-target
measurement whose delta clears the 0.25-unit epsilon arms the single anchor
coalescing frame, and every further below-target nonzero delta arriving
before that frame fires merely accumulates into `pendingAnchorDelta` —
scheduling nothing new and touching neither the scroll position nor the
log.  When the frame then fires, exactly one `scrollBy` of exactly the
arithmetic sum of all the deltas is issued (provided the sum still clears
the epsilon), and `correctionsRemaining` is never consumed anywhere on the
path. -/
theorem coalescing_exact_sum (cfg : Config) (env : Env) (f : Nat)
    (s : State) (op : ScrollOperation) (first : Nat × ℚ × ℚ) (calls : List (Nat × ℚ × ℚ))
    (hop : s.operation = some op)
    (hT : env.hasTimeout = true) (hAF : env.hasAnimationFrame = true)
    (hv : env.scrollViewPresent = true) (hrev : cfg.reversed = false)
    (hstatus : op.status ≠ Status.stable) (hmp : op.maintainPosition = true)
    (hhmt : op.hasMeasuredTarget = true) (hafi : op.anchorFrameId = none)
    (hpad : op.pendingAnchorDelta = 0)
    (hi1 : first.1 < op.targetIndex) (hd1 : first.2.2 ≠ 0)
    (hb1 : ANCHOR_DELTA_EPSILON ≤ |first.2.2|)
    (hcalls : ∀ c ∈ calls, c.1 < op.targetIndex ∧ c.2.2 ≠ 0)
    (hbig : ANCHOR_DELTA_EPSILON ≤ |first.2.2 + (calls.map (fun c => c.2.2)).sum|) :
    step cfg env (f + 1 + 1)
        (calls.foldl (fun t c => handleItemMeasured cfg env (f + 1 + 1) c.1 c.2.1 c.2.2 t)
          (handleItemMeasured cfg env (f + 1 + 1) first.1 first.2.1 first.2.2 s))
        ExtEvent.fireAnchorFrame =
      { s with
        operation := some { op with
          lastMeasurementTimestamp := env.now
          pendingAnchorDelta := 0
          anchorFrameId := none
          stabilityTimeoutId := some op.id
          stableIterations := DEFAULT_CORRECTION_SETTLE
          isProgrammaticScroll := true }
        scrollPos := s.scrollPos + (first.2.2 + (calls.map (fun c => c.2.2)).sum)
        events := s.events ++ [Event.scrollBy (first.2.2 + (calls.map (fun c => c.2.2)).sum)]
        sched := { s.sched with
          stability := some op.id
          anchorFrame := none
          programmatic := some op.id } } := by
  have hb1x : ANCHOR_DELTA_EPSILON ≤ |op.pendingAnchorDelta + first.2.2| := by
    rw [hpad, zero_add]
    exact hb1
  rw [measure_below_first cfg env (f + 1) first.1 first.2.1 first.2.2 s op hop hT hAF hstatus
    hmp hhmt hafi hi1 hd1 hb1x]
  rw [hpad, zero_add]
  rw [measure_fold_accum cfg env (f + 1) s op hT hstatus hmp hhmt calls first.2.2 hcalls]
  rw [commit_applies_sum cfg env f s op env.now _ hT hv hrev hhmt hbig]

theorem coalescing_exact_sum_witness :
    (step cfgTight (mkEnv (some rectMis)) (10 + 1 + 1)
        ([((2 : Nat), (50 : ℚ), (2 : ℚ))].foldl
          (fun t c => handleItemMeasured cfgTight (mkEnv (some rectMis)) (10 + 1 + 1)
            c.1 c.2.1 c.2.2 t)
          (handleItemMeasured cfgTight (mkEnv (some rectMis)) (10 + 1 + 1) 3 100 1
            (mkState (some { mkOp 1 5 with hasMeasuredTarget := true }))))
        ExtEvent.fireAnchorFrame).events = [Event.scrollBy 3] ∧
    opCR (step cfgTight (mkEnv (some rectMis)) (10 + 1 + 1)
        ([((2 : Nat), (50 : ℚ), (2 : ℚ))].foldl
          (fun t c => handleItemMeasured cfgTight (mkEnv (some rectMis)) (10 + 1 + 1)
            c.1 c.2.1 c.2.2 t)
          (handleItemMeasured cfgTight (mkEnv (some rectMis)) (10 + 1 + 1) 3 100 1
            (mkState (some { mkOp 1 5 with hasMeasuredTarget := true }))))
        ExtEvent.fireAnchorFrame) = 10 := by
  have hinst := coalescing_exact_sum cfgTight (mkEnv (some rectMis)) 10
    (mkState (some { mkOp 1 5 with hasMeasuredTarget := true }))
    { mkOp 1 5 with hasMeasuredTarget := true } (3, 100, 1) [(2, 50, 2)]
    rfl rfl rfl rfl rfl (by decide) rfl rfl rfl rfl (by decide)
    (by with_unfolding_all decide) (by with_unfolding_all decide)
    (by
      intro c hc
      rw [List.mem_singleton] at hc
      subst hc
      exact ⟨by decide, by with_unfolding_all decide⟩)
    (by with_unfolding_all decide)
  dsimp only at hinst
  constructor
  · rw [hinst]
    with_unfolding_all decide
  · rw [hinst]
    with_unfolding_all decide

end ScrollCtl
